import Mathlib

/-!
# Shallow embedding of net/dsa/dsa2.c (hardware switch tree handling, binding v2)

This file embeds the C source of `net/dsa/dsa2.c` into Lean and proves
properties of the embedded functions.

Modelling conventions:
* Machine integers: `u32` counters/masks become `Nat`; error codes and the
  `s8` routing table entries become `Int` (`DSA_RTABLE_NONE = -1`).
  All mask updates in the source act on `u32` operands whose set bits are
  below bit 32, and the embedding mirrors the bit operations exactly on
  that domain (`&= ~BIT(i)` is land with the 32-bit complement of `BIT(i)`).
* Device-tree nodes (`struct device_node`) are identified by a `Nat` id;
  pointer equality on nodes is equality of ids (each distinct node gets a
  distinct id).  `of_parse_phandle(dn, "link", i)` is lookup in the node's
  `link` list of target ids; `"ethernet"` is an optional target id.
* In-place mutation through pointers becomes explicit state passing:
  functions that mutate a `dsa_switch` or a `dsa_switch_tree` return the
  updated value, and the tree's slot array is kept in sync at each step.
  Fields only ever read by code outside the source file (PHY bus contents,
  netdev internals, ...) are reduced to the data the source file itself
  reads or writes (presence flags and handles).
* External collaborators (`dsa_cpu_dsa_setup`, `dsa_slave_create`,
  `of_find_net_device_by_node`, `mdiobus_register`, notifier registration,
  `dsa_resolve_tag_protocol`, ethtool setup) are an explicit environment
  `dsa_env` of result oracles, keyed by switch index / port index, so all
  embedded functions stay pure and executable.
* The global registry `dsa_switch_trees`: the source's
  `list_add_tail(&dsa_switch_trees, &dst->list)` (head and entry swapped)
  relinks the global head into the new tree's singleton cycle, so list
  traversal from the head reaches exactly the most recently added,
  not-yet-freed tree; previously added trees become unreachable from the
  head.  The visible registry is therefore modelled as `Option
  dsa_switch_tree` (the newest live tree, if any); for histories that
  keep at most one tree alive - the only ones arising below - this agrees
  with the pointer-level list semantics step for step.
-/

set_option linter.unusedVariables false

namespace Dsa2

/-- `DSA_MAX_SWITCHES` from `include/net/dsa.h`. -/
def DSA_MAX_SWITCHES : Nat := 4

/-- `DSA_MAX_PORTS` from `include/net/dsa.h`. -/
def DSA_MAX_PORTS : Nat := 12

/-- `DSA_RTABLE_NONE` from `include/net/dsa.h`: routing table entry meaning
"no route to that switch". -/
def DSA_RTABLE_NONE : Int := -1

/-- `-EINVAL`. -/
def EINVAL : Int := -22
/-- `-EBUSY`. -/
def EBUSY : Int := -16
/-- `-ENODEV`. -/
def ENODEV : Int := -19
/-- `-ENOMEM`. -/
def ENOMEM : Int := -12
/-- `-EOVERFLOW`. -/
def EOVERFLOW : Int := -75
/-- `-EPROBE_DEFER`. -/
def EPROBE_DEFER : Int := -517
/-- `-ENOPROTOOPT`, returned by `dsa_resolve_tag_protocol` on failure. -/
def ENOPROTOOPT : Int := -92

/-- `BIT(i)`. -/
def BIT (i : Nat) : Nat := 2 ^ i

/-- Bitwise complement on a `u32` operand: `~b` truncated to 32 bits. -/
def u32not (b : Nat) : Nat := (2 ^ 32 - 1) ^^^ b

/-- `m &= ~BIT(i)` on `u32` operands: clear bit `i` of `m`. -/
def clearBit (m i : Nat) : Nat := m &&& u32not (BIT i)

/-- A `struct device_node` as used by this source file: an identity (standing
for the node's address, distinct nodes having distinct ids), the list of
`"link"` phandle target ids, the optional `"ethernet"` phandle target id and
the optional `"label"` string property. -/
structure device_node where
  id : Nat
  link : List Nat
  ethernet : Option Nat
  label : Option String
deriving DecidableEq

/-- A `struct dsa_port` as used by this source file: the device-tree node
(`dn`), the platform-data port name (`name`) and the materialized slave
network device handle (`netdev`). -/
structure dsa_port where
  dn : Option device_node
  name : Option String
  netdev : Option Nat
deriving DecidableEq

instance : Inhabited dsa_port := ⟨⟨none, none, none⟩⟩

/-- The fields of `struct dsa_switch_ops` consulted by this source file,
reduced to the data observable here: the result of `ops->setup(ds)`, the
result of `ops->set_addr` when that op exists (`none` = op absent), the
presence of `ops->phy_read`, and the protocol id returned by
`ops->get_tag_protocol(ds)`. -/
structure dsa_switch_ops where
  setup : Int
  set_addr : Option Int
  phy_read : Bool
  tag_protocol : Nat
deriving DecidableEq

/-- The fields of `struct dsa_chip_data` read by this source file: the flat
port-name table and the per-port CPU-port device handles. -/
structure dsa_chip_data where
  port_names : List (Option String)
  netdev : List (Option Nat)
deriving DecidableEq

/-- A `struct dsa_switch` as used by this source file.  `num_ports` is
`ports.length`.  The slave MDIO bus is reduced to its presence flag. -/
structure dsa_switch where
  index : Nat
  ports : List dsa_port
  enabled_port_mask : Nat
  cpu_port_mask : Nat
  dsa_port_mask : Nat
  phys_mii_mask : Nat
  rtable : List Int
  master_netdev : Option Nat
  slave_mii_bus : Bool
  ops : dsa_switch_ops
  cd : Option dsa_chip_data
deriving DecidableEq

/-- A `struct dsa_switch_tree` as used by this source file.  `cpu_switch`
stores the elected CPU switch's member index (the source stores the pointer;
a member in slot `i` has `index = i`), `tag_ops` the resolved tag-handler
set handle (`none` when unset or when resolution failed), `dsa_ptr_set`
whether `master_netdev->dsa_ptr` currently points at this tree. -/
structure dsa_switch_tree where
  tree : Nat
  refcount : Nat
  applied : Bool
  master_netdev : Option Nat
  cpu_switch : Option Nat
  cpu_port : Nat
  tag_ops : Option Nat
  dsa_ptr_set : Bool
  ds : List (Option dsa_switch)
deriving DecidableEq

/-- Result oracles for the external collaborators called by this source
file, keyed by the data the calls depend on. -/
structure dsa_env where
  /-- `of_find_net_device_by_node`: node id of the `"ethernet"` phandle
  target to the live net device handle, if one exists. -/
  findNetDevice : Nat → Option Nat
  /-- `dsa_dev_to_net_device` applied to `ds->cd->netdev[port]`. -/
  devToNetDevice : Nat → Option Nat
  /-- `dsa_resolve_tag_protocol`: protocol id to tag-handler set handle;
  `none` models the `ERR_PTR(-ENOPROTOOPT)` failure. -/
  resolveTag : Nat → Option Nat
  /-- `dsa_switch_register_notifier(ds)` result, by switch index. -/
  registerNotifier : Nat → Int
  /-- `devm_mdiobus_alloc(ds->dev)` success, by switch index. -/
  mdiobusAlloc : Nat → Bool
  /-- `mdiobus_register(ds->slave_mii_bus)` result, by switch index. -/
  mdiobusRegister : Nat → Int
  /-- `dsa_cpu_dsa_setup(ds, dev, port, index)` result, by switch index
  and port index. -/
  cpuDsaSetup : Nat → Nat → Int
  /-- `dsa_slave_create(ds, dev, index, name)`: error code, or the slave
  netdev handle it stores into `ds->ports[index].netdev` on success. -/
  slaveCreate : Nat → Nat → String → Except Int Nat
  /-- `dsa_cpu_port_ethtool_setup(dst->cpu_switch)` result, by the elected
  CPU switch's index. -/
  ethtoolSetup : Nat → Int

/-! ## Port classification (`dsa_port_is_valid` / `dsa_port_is_dsa` / `dsa_port_is_cpu`) -/

/-- `of_parse_phandle(port->dn, "link", index)`: the target node id of the
`index`-th `"link"` phandle, if present (`NULL` device node has none). -/
def of_parse_phandle_link (dn : Option device_node) (index : Nat) : Option Nat :=
  match dn with
  | none => none
  | some d => d.link[index]?

/-- `of_parse_phandle(port->dn, "ethernet", 0)`. -/
def of_parse_phandle_ethernet (dn : Option device_node) : Option Nat :=
  match dn with
  | none => none
  | some d => d.ethernet

/-- `dsa_port_is_valid`. -/
def dsa_port_is_valid (port : dsa_port) : Bool :=
  port.dn.isSome || port.name.isSome

/-- `dsa_port_is_dsa`. -/
def dsa_port_is_dsa (port : dsa_port) : Bool :=
  if port.name = some "dsa" then true
  else (of_parse_phandle_link port.dn 0).isSome

/-- `dsa_port_is_cpu`. -/
def dsa_port_is_cpu (port : dsa_port) : Bool :=
  if port.name = some "cpu" then true
  else (of_parse_phandle_ethernet port.dn).isSome

/-- The `"link"` phandle target list walked by `dsa_port_complete`'s
`of_parse_phandle` loop. -/
def portLinks (port : dsa_port) : List Nat :=
  match port.dn with
  | none => []
  | some d => d.link

/-! ## Topology resolution (`dsa_*_complete`) -/

/-- `dsa_ds_find_port_dn`: does some port of `ds` carry the device node
with id `node`? -/
def dsa_ds_find_port_dn (ds : dsa_switch) (node : Nat) : Bool :=
  ds.ports.any fun p =>
    match p.dn with
    | some d => d.id == node
    | none => false

/-- `dsa_dst_find_port_dn`: the first (lowest occupied slot, `index` running
from `0` to `DSA_MAX_SWITCHES`) member switch owning a port whose device
node has id `node`. -/
def dsa_dst_find_port_dn (dst : dsa_switch_tree) (node : Nat) : Option dsa_switch :=
  (List.range DSA_MAX_SWITCHES).findSome? fun index =>
    match dst.ds.getD index none with
    | some ds => if dsa_ds_find_port_dn ds node then some ds else none
    | none => none

/-- `dsa_port_complete`, with the `of_parse_phandle` loop unrolled over the
port's `"link"` target list: each resolved link writes
`src_ds->rtable[dst_ds->index] = src_port`; the first unresolved link stops
the loop with result `1`.  Returns the updated source switch and the
result. -/
def dsa_port_complete (dst : dsa_switch_tree) (src_ds : dsa_switch)
    (src_port : Nat) : List Nat → dsa_switch × Int
  | [] => (src_ds, 0)
  | l :: rest =>
    match dsa_dst_find_port_dn dst l with
    | none => (src_ds, 1)
    | some dst_ds =>
      dsa_port_complete dst
        { src_ds with rtable := src_ds.rtable.set dst_ds.index (Int.ofNat src_port) }
        src_port rest

/-- The port-index loop of `dsa_ds_complete`. -/
def dsa_ds_complete_go (dst : dsa_switch_tree) (ds : dsa_switch) :
    List Nat → dsa_switch × Int
  | [] => (ds, 0)
  | index :: rest =>
    let port := ds.ports.getD index default
    if ¬ dsa_port_is_valid port then dsa_ds_complete_go dst ds rest
    else if ¬ dsa_port_is_dsa port then dsa_ds_complete_go dst ds rest
    else
      let res := dsa_port_complete dst ds index (portLinks port)
      if res.2 ≠ 0 then res
      else
        dsa_ds_complete_go dst
          { res.1 with dsa_port_mask := res.1.dsa_port_mask ||| BIT index } rest

/-- `dsa_ds_complete`. -/
def dsa_ds_complete (dst : dsa_switch_tree) (ds : dsa_switch) : dsa_switch × Int :=
  dsa_ds_complete_go dst ds (List.range ds.ports.length)

/-- The member-slot loop of `dsa_dst_complete`.  Each slot's switch is
updated in place in the tree (the source mutates through the slot pointer),
and a nonzero result stops the loop with the partial updates retained. -/
def dsa_dst_complete_go (dst : dsa_switch_tree) : List Nat → dsa_switch_tree × Int
  | [] => (dst, 0)
  | index :: rest =>
    match dst.ds.getD index none with
    | none => dsa_dst_complete_go dst rest
    | some ds =>
      let res := dsa_ds_complete dst ds
      let dst' := { dst with ds := dst.ds.set index (some res.1) }
      if res.2 ≠ 0 then (dst', res.2) else dsa_dst_complete_go dst' rest

/-- `dsa_dst_complete`: result `0` means the tree is complete, `1` that it
is not (not an error condition). -/
def dsa_dst_complete (dst : dsa_switch_tree) : dsa_switch_tree × Int :=
  dsa_dst_complete_go dst (List.range DSA_MAX_SWITCHES)

/-! ## Specification-side completeness predicate (for the resolution claims) -/

/-- Does any occupied slot of `dst` own a port carrying node id `node`? -/
def treeHasPortDn (dst : dsa_switch_tree) (node : Nat) : Bool :=
  (List.range DSA_MAX_SWITCHES).any fun index =>
    match dst.ds.getD index none with
    | some ds => dsa_ds_find_port_dn ds node
    | none => false

/-- Specification-side completeness of one member slot: every valid
DsaLink-classified port of its switch (if any) has all of its `"link"`
references matching a port of some currently-registered member switch. -/
def slot_complete_spec (dst : dsa_switch_tree) (o : Option dsa_switch) : Bool :=
  match o with
  | none => true
  | some ds =>
    ds.ports.all fun p =>
      if dsa_port_is_valid p ∧ dsa_port_is_dsa p then
        (portLinks p).all fun l => treeHasPortDn dst l
      else true

/-- Specification-side completeness: every occupied slot's every valid
DsaLink-classified port has all of its `"link"` references matching a port
of some currently-registered member switch. -/
def tree_complete_spec (dst : dsa_switch_tree) : Bool :=
  (List.range DSA_MAX_SWITCHES).all fun index =>
    slot_complete_spec dst (dst.ds.getD index none)

/-! ## List helpers -/

theorem getD_lt_length {α : Type} {l : List α} {i : Nat} {d a : α}
    (h : l.getD i d = a) (hne : a ≠ d) : i < l.length := by
  by_contra hge
  rw [List.getD_eq_default _ _ (Nat.le_of_not_lt hge)] at h
  exact hne h.symm

theorem getD_set_self {α : Type} (l : List α) (i : Nat) (a d : α) (h : i < l.length) :
    (l.set i a).getD i d = a := by
  induction l generalizing i with
  | nil => simp at h
  | cons x xs ih =>
    cases i with
    | zero => rfl
    | succ n => simpa using ih n (by simpa using h)

theorem getD_set_ne {α : Type} (l : List α) {i j : Nat} (a d : α) (h : i ≠ j) :
    (l.set i a).getD j d = l.getD j d := by
  induction l generalizing i j with
  | nil => simp
  | cons x xs ih =>
    cases i with
    | zero =>
      cases j with
      | zero => exact absurd rfl h
      | succ m => simp
    | succ n =>
      cases j with
      | zero => simp
      | succ m => simpa using ih (fun hh => h (by rw [hh]))

theorem any_congr' {α : Type} {f g : α → Bool} :
    ∀ (l : List α), (∀ a ∈ l, f a = g a) → l.any f = l.any g := by
  intro l
  induction l with
  | nil => intro _; rfl
  | cons x xs ih =>
    intro h
    simp only [List.any_cons, h x (by simp), ih fun a ha => h a (by simp [ha])]

theorem all_congr' {α : Type} {f g : α → Bool} :
    ∀ (l : List α), (∀ a ∈ l, f a = g a) → l.all f = l.all g := by
  intro l
  induction l with
  | nil => intro _; rfl
  | cons x xs ih =>
    intro h
    simp only [List.all_cons, h x (by simp), ih fun a ha => h a (by simp [ha])]

theorem forall_range_getD {α : Type} (l : List α) (d : α) (p : α → Prop) :
    (∀ i ∈ List.range l.length, p (l.getD i d)) ↔ ∀ x ∈ l, p x := by
  constructor
  · intro h x hx
    obtain ⟨i, hi, rfl⟩ := List.mem_iff_getElem.mp hx
    have hp := h i (List.mem_range.mpr hi)
    rwa [List.getD_eq_getElem l d hi] at hp
  · intro h i hi
    have hi' := List.mem_range.mp hi
    rw [List.getD_eq_getElem l d hi']
    exact h _ (List.getElem_mem hi')

theorem any_isSome_eq_findSome_isSome {α β : Type} (f : α → Option β) :
    ∀ l : List α, (l.any fun a => (f a).isSome) = (l.findSome? f).isSome := by
  intro l
  induction l with
  | nil => rfl
  | cons x xs ih =>
    simp only [List.any_cons, List.findSome?_cons]
    cases hx : f x with
    | none => simp [ih]
    | some b => simp

/-! ## Step equations for the resolution loops -/

theorem dsa_port_complete_nil (dst : dsa_switch_tree) (src : dsa_switch) (sp : Nat) :
    dsa_port_complete dst src sp [] = (src, 0) := rfl

theorem dsa_port_complete_cons_none {dst : dsa_switch_tree} {l : Nat}
    (src : dsa_switch) (sp : Nat) (rest : List Nat)
    (h : dsa_dst_find_port_dn dst l = none) :
    dsa_port_complete dst src sp (l :: rest) = (src, 1) := by
  simp only [dsa_port_complete, h]

theorem dsa_port_complete_cons_some {dst : dsa_switch_tree} {l : Nat} {dst_ds : dsa_switch}
    (src : dsa_switch) (sp : Nat) (rest : List Nat)
    (h : dsa_dst_find_port_dn dst l = some dst_ds) :
    dsa_port_complete dst src sp (l :: rest) =
      dsa_port_complete dst
        { src with rtable := src.rtable.set dst_ds.index (Int.ofNat sp) } sp rest := by
  simp only [dsa_port_complete, h]

theorem dsa_ds_complete_go_nil (dst : dsa_switch_tree) (ds : dsa_switch) :
    dsa_ds_complete_go dst ds [] = (ds, 0) := rfl

theorem dsa_ds_complete_go_cons_invalid {dst : dsa_switch_tree} {ds : dsa_switch} {i : Nat}
    (rest : List Nat) (h : ¬ dsa_port_is_valid (ds.ports.getD i default) = true) :
    dsa_ds_complete_go dst ds (i :: rest) = dsa_ds_complete_go dst ds rest := by
  simp only [dsa_ds_complete_go]
  rw [if_pos h]

theorem dsa_ds_complete_go_cons_nondsa {dst : dsa_switch_tree} {ds : dsa_switch} {i : Nat}
    (rest : List Nat) (hv : dsa_port_is_valid (ds.ports.getD i default) = true)
    (hd : ¬ dsa_port_is_dsa (ds.ports.getD i default) = true) :
    dsa_ds_complete_go dst ds (i :: rest) = dsa_ds_complete_go dst ds rest := by
  simp only [dsa_ds_complete_go]
  rw [if_neg (not_not_intro hv), if_pos hd]

theorem dsa_ds_complete_go_cons_ok {dst : dsa_switch_tree} {ds : dsa_switch} {i : Nat}
    (rest : List Nat) (hv : dsa_port_is_valid (ds.ports.getD i default) = true)
    (hd : dsa_port_is_dsa (ds.ports.getD i default) = true)
    (hz : (dsa_port_complete dst ds i (portLinks (ds.ports.getD i default))).2 = 0) :
    dsa_ds_complete_go dst ds (i :: rest) =
      dsa_ds_complete_go dst
        { (dsa_port_complete dst ds i (portLinks (ds.ports.getD i default))).1 with
          dsa_port_mask :=
            (dsa_port_complete dst ds i
              (portLinks (ds.ports.getD i default))).1.dsa_port_mask ||| BIT i }
        rest := by
  simp only [dsa_ds_complete_go]
  rw [if_neg (not_not_intro hv), if_neg (not_not_intro hd), if_neg (not_not_intro hz)]

theorem dsa_ds_complete_go_cons_fail {dst : dsa_switch_tree} {ds : dsa_switch} {i : Nat}
    (rest : List Nat) (hv : dsa_port_is_valid (ds.ports.getD i default) = true)
    (hd : dsa_port_is_dsa (ds.ports.getD i default) = true)
    (hz : (dsa_port_complete dst ds i (portLinks (ds.ports.getD i default))).2 ≠ 0) :
    dsa_ds_complete_go dst ds (i :: rest) =
      dsa_port_complete dst ds i (portLinks (ds.ports.getD i default)) := by
  simp only [dsa_ds_complete_go]
  rw [if_neg (not_not_intro hv), if_neg (not_not_intro hd), if_pos hz]

theorem dsa_dst_complete_go_nil (dst : dsa_switch_tree) :
    dsa_dst_complete_go dst [] = (dst, 0) := rfl

theorem dsa_dst_complete_go_cons_none {dst : dsa_switch_tree} {i : Nat}
    (rest : List Nat) (h : dst.ds.getD i none = none) :
    dsa_dst_complete_go dst (i :: rest) = dsa_dst_complete_go dst rest := by
  simp only [dsa_dst_complete_go, h]

theorem dsa_dst_complete_go_cons_ok {dst : dsa_switch_tree} {i : Nat} {ds : dsa_switch}
    (rest : List Nat) (h : dst.ds.getD i none = some ds)
    (hz : (dsa_ds_complete dst ds).2 = 0) :
    dsa_dst_complete_go dst (i :: rest) =
      dsa_dst_complete_go
        { dst with ds := dst.ds.set i (some (dsa_ds_complete dst ds).1) } rest := by
  simp only [dsa_dst_complete_go, h]
  rw [if_neg (not_not_intro hz)]

theorem dsa_dst_complete_go_cons_fail {dst : dsa_switch_tree} {i : Nat} {ds : dsa_switch}
    (rest : List Nat) (h : dst.ds.getD i none = some ds)
    (hz : (dsa_ds_complete dst ds).2 ≠ 0) :
    dsa_dst_complete_go dst (i :: rest) =
      ({ dst with ds := dst.ds.set i (some (dsa_ds_complete dst ds).1) },
        (dsa_ds_complete dst ds).2) := by
  simp only [dsa_dst_complete_go, h]
  rw [if_pos hz]

/-! ## Characterization of topology resolution (claim C1) -/

theorem treeHasPortDn_eq_isSome (dst : dsa_switch_tree) (node : Nat) :
    treeHasPortDn dst node = (dsa_dst_find_port_dn dst node).isSome := by
  unfold treeHasPortDn dsa_dst_find_port_dn
  rw [← any_isSome_eq_findSome_isSome]
  apply any_congr'
  intro i _
  cases h : dst.ds.getD i none with
  | none => simp [h]
  | some ds =>
    by_cases hf : dsa_ds_find_port_dn ds node
    · simp [h, hf]
    · simp [h, hf]

theorem dsa_port_complete_snd01 (dst : dsa_switch_tree) (sp : Nat) :
    ∀ (ls : List Nat) (src : dsa_switch),
      (dsa_port_complete dst src sp ls).2 = 0 ∨ (dsa_port_complete dst src sp ls).2 = 1 := by
  intro ls
  induction ls with
  | nil => intro src; left; rfl
  | cons l rest ih =>
    intro src
    cases h : dsa_dst_find_port_dn dst l with
    | none => rw [dsa_port_complete_cons_none src sp rest h]; right; rfl
    | some dst_ds => rw [dsa_port_complete_cons_some src sp rest h]; exact ih _

theorem dsa_port_complete_snd_iff (dst : dsa_switch_tree) (sp : Nat) :
    ∀ (ls : List Nat) (src : dsa_switch),
      ((dsa_port_complete dst src sp ls).2 = 0 ↔
        ∀ l ∈ ls, treeHasPortDn dst l = true) := by
  intro ls
  induction ls with
  | nil => intro src; simp [dsa_port_complete_nil]
  | cons l rest ih =>
    intro src
    cases h : dsa_dst_find_port_dn dst l with
    | none =>
      have hfalse : treeHasPortDn dst l = false := by
        rw [treeHasPortDn_eq_isSome, h]; rfl
      rw [dsa_port_complete_cons_none src sp rest h]
      simp [hfalse]
    | some dst_ds =>
      have htrue : treeHasPortDn dst l = true := by
        rw [treeHasPortDn_eq_isSome, h]; rfl
      rw [dsa_port_complete_cons_some src sp rest h]
      simp [htrue, ih]

theorem dsa_port_complete_fst (dst : dsa_switch_tree) (sp : Nat) :
    ∀ (ls : List Nat) (src : dsa_switch),
      (dsa_port_complete dst src sp ls).1 =
        { src with rtable := (dsa_port_complete dst src sp ls).1.rtable } := by
  intro ls
  induction ls with
  | nil => intro src; rfl
  | cons l rest ih =>
    intro src
    cases h : dsa_dst_find_port_dn dst l with
    | none => rw [dsa_port_complete_cons_none src sp rest h]
    | some dst_ds => rw [dsa_port_complete_cons_some src sp rest h]; exact ih _

theorem dsa_port_complete_ports (dst : dsa_switch_tree) (sp : Nat)
    (ls : List Nat) (src : dsa_switch) :
    (dsa_port_complete dst src sp ls).1.ports = src.ports := by
  rw [dsa_port_complete_fst dst sp ls src]

theorem dsa_ds_complete_go_snd01 (dst : dsa_switch_tree) :
    ∀ (idxs : List Nat) (ds : dsa_switch),
      (dsa_ds_complete_go dst ds idxs).2 = 0 ∨ (dsa_ds_complete_go dst ds idxs).2 = 1 := by
  intro idxs
  induction idxs with
  | nil => intro ds; left; rfl
  | cons i rest ih =>
    intro ds
    by_cases hv : dsa_port_is_valid (ds.ports.getD i default) = true
    · by_cases hd : dsa_port_is_dsa (ds.ports.getD i default) = true
      · by_cases hz : (dsa_port_complete dst ds i (portLinks (ds.ports.getD i default))).2 = 0
        · rw [dsa_ds_complete_go_cons_ok rest hv hd hz]; exact ih _
        · rw [dsa_ds_complete_go_cons_fail rest hv hd hz]
          exact dsa_port_complete_snd01 dst i _ ds
      · rw [dsa_ds_complete_go_cons_nondsa rest hv hd]; exact ih ds
    · rw [dsa_ds_complete_go_cons_invalid rest hv]; exact ih ds

theorem dsa_ds_complete_go_ports (dst : dsa_switch_tree) :
    ∀ (idxs : List Nat) (ds : dsa_switch),
      (dsa_ds_complete_go dst ds idxs).1.ports = ds.ports := by
  intro idxs
  induction idxs with
  | nil => intro ds; rfl
  | cons i rest ih =>
    intro ds
    by_cases hv : dsa_port_is_valid (ds.ports.getD i default) = true
    · by_cases hd : dsa_port_is_dsa (ds.ports.getD i default) = true
      · by_cases hz : (dsa_port_complete dst ds i (portLinks (ds.ports.getD i default))).2 = 0
        · rw [dsa_ds_complete_go_cons_ok rest hv hd hz, ih]
          exact dsa_port_complete_ports dst i _ ds
        · rw [dsa_ds_complete_go_cons_fail rest hv hd hz]
          exact dsa_port_complete_ports dst i _ ds
      · rw [dsa_ds_complete_go_cons_nondsa rest hv hd]; exact ih ds
    · rw [dsa_ds_complete_go_cons_invalid rest hv]; exact ih ds

theorem dsa_ds_complete_go_snd_iff (dst : dsa_switch_tree) :
    ∀ (idxs : List Nat) (ds : dsa_switch),
      ((dsa_ds_complete_go dst ds idxs).2 = 0 ↔
        ∀ i ∈ idxs,
          (dsa_port_is_valid (ds.ports.getD i default) = true ∧
            dsa_port_is_dsa (ds.ports.getD i default) = true) →
            ∀ l ∈ portLinks (ds.ports.getD i default), treeHasPortDn dst l = true) := by
  intro idxs
  induction idxs with
  | nil => intro ds; simp [dsa_ds_complete_go_nil]
  | cons i rest ih =>
    intro ds
    by_cases hv : dsa_port_is_valid (ds.ports.getD i default) = true
    · by_cases hd : dsa_port_is_dsa (ds.ports.getD i default) = true
      · by_cases hz : (dsa_port_complete dst ds i (portLinks (ds.ports.getD i default))).2 = 0
        · have hlinks := (dsa_port_complete_snd_iff dst i
            (portLinks (ds.ports.getD i default)) ds).mp hz
          rw [dsa_ds_complete_go_cons_ok rest hv hd hz, ih]
          have hports : ({ (dsa_port_complete dst ds i (portLinks (ds.ports.getD i default))).1
              with dsa_port_mask := (dsa_port_complete dst ds i
                (portLinks (ds.ports.getD i default))).1.dsa_port_mask ||| BIT i } :
              dsa_switch).ports = ds.ports := by
            simpa using dsa_port_complete_ports dst i _ ds
          rw [hports]
          constructor
          · intro h j hj
            rcases List.mem_cons.mp hj with rfl | hj'
            · intro _; exact hlinks
            · exact h j hj'
          · intro h j hj
            exact h j (List.mem_cons_of_mem _ hj)
        · rw [dsa_ds_complete_go_cons_fail rest hv hd hz]
          constructor
          · intro h; exact absurd h hz
          · intro h
            exact absurd ((dsa_port_complete_snd_iff dst i
              (portLinks (ds.ports.getD i default)) ds).mpr (h i (by simp) ⟨hv, hd⟩)) hz
      · rw [dsa_ds_complete_go_cons_nondsa rest hv hd, ih]
        constructor
        · intro h j hj
          rcases List.mem_cons.mp hj with rfl | hj'
          · intro hc; exact absurd hc.2 hd
          · exact h j hj'
        · intro h j hj; exact h j (List.mem_cons_of_mem _ hj)
    · rw [dsa_ds_complete_go_cons_invalid rest hv, ih]
      constructor
      · intro h j hj
        rcases List.mem_cons.mp hj with rfl | hj'
        · intro hc; exact absurd hc.1 hv
        · exact h j hj'
      · intro h j hj; exact h j (List.mem_cons_of_mem _ hj)

theorem slot_complete_spec_some (dst : dsa_switch_tree) (ds : dsa_switch) :
    slot_complete_spec dst (some ds) =
      ds.ports.all fun p =>
        if dsa_port_is_valid p ∧ dsa_port_is_dsa p then
          (portLinks p).all fun l => treeHasPortDn dst l
        else true := rfl

theorem slot_complete_spec_some_iff (dst : dsa_switch_tree) (ds : dsa_switch) :
    (slot_complete_spec dst (some ds) = true ↔
      ∀ p ∈ ds.ports, (dsa_port_is_valid p = true ∧ dsa_port_is_dsa p = true) →
        ∀ l ∈ portLinks p, treeHasPortDn dst l = true) := by
  rw [slot_complete_spec_some, List.all_eq_true]
  constructor
  · intro h p hp hcl l hl
    have hh := h p hp
    rw [if_pos (by exact_mod_cast hcl), List.all_eq_true] at hh
    exact hh l hl
  · intro h p hp
    by_cases hcl : dsa_port_is_valid p = true ∧ dsa_port_is_dsa p = true
    · rw [if_pos (by exact_mod_cast hcl), List.all_eq_true]
      exact h p hp hcl
    · rw [if_neg (by exact_mod_cast hcl)]

theorem dsa_ds_complete_snd_iff (dst : dsa_switch_tree) (ds : dsa_switch) :
    ((dsa_ds_complete dst ds).2 = 0 ↔ slot_complete_spec dst (some ds) = true) := by
  unfold dsa_ds_complete
  rw [dsa_ds_complete_go_snd_iff, slot_complete_spec_some_iff]
  exact forall_range_getD ds.ports default fun p =>
    (dsa_port_is_valid p = true ∧ dsa_port_is_dsa p = true) →
      ∀ l ∈ portLinks p, treeHasPortDn dst l = true

theorem dsa_ds_complete_ports (dst : dsa_switch_tree) (ds : dsa_switch) :
    (dsa_ds_complete dst ds).1.ports = ds.ports :=
  dsa_ds_complete_go_ports dst _ ds

theorem dsa_ds_complete_snd01 (dst : dsa_switch_tree) (ds : dsa_switch) :
    (dsa_ds_complete dst ds).2 = 0 ∨ (dsa_ds_complete dst ds).2 = 1 :=
  dsa_ds_complete_go_snd01 dst _ ds

theorem dsa_ds_find_port_dn_congr {ds ds' : dsa_switch} (h : ds'.ports = ds.ports)
    (node : Nat) : dsa_ds_find_port_dn ds' node = dsa_ds_find_port_dn ds node := by
  unfold dsa_ds_find_port_dn
  rw [h]

theorem treeHasPortDn_set (dst : dsa_switch_tree) (i : Nat) (ds ds' : dsa_switch)
    (hold : dst.ds.getD i none = some ds) (hp : ds'.ports = ds.ports) (node : Nat) :
    treeHasPortDn { dst with ds := dst.ds.set i (some ds') } node =
      treeHasPortDn dst node := by
  have hlt : i < dst.ds.length := getD_lt_length hold (by simp)
  unfold treeHasPortDn
  apply any_congr'
  intro j _
  by_cases hji : j = i
  · subst hji
    show (match (dst.ds.set j (some ds')).getD j none with
      | some ds => dsa_ds_find_port_dn ds node
      | none => false) = _
    rw [getD_set_self dst.ds j (some ds') none hlt, hold]
    exact dsa_ds_find_port_dn_congr hp node
  · show (match (dst.ds.set i (some ds')).getD j none with
      | some ds => dsa_ds_find_port_dn ds node
      | none => false) = _
    rw [getD_set_ne dst.ds (some ds') none (fun hh => hji hh.symm)]

theorem slot_complete_spec_congr {dst dst' : dsa_switch_tree}
    (h : ∀ n, treeHasPortDn dst' n = treeHasPortDn dst n) (o : Option dsa_switch) :
    slot_complete_spec dst' o = slot_complete_spec dst o := by
  unfold slot_complete_spec
  cases o with
  | none => rfl
  | some ds =>
    apply all_congr'
    intro p _
    by_cases hcl : dsa_port_is_valid p ∧ dsa_port_is_dsa p
    · rw [if_pos hcl, if_pos hcl]
      apply all_congr'
      intro l _
      exact h l
    · rw [if_neg hcl, if_neg hcl]

theorem slot_complete_spec_ports_congr {dst : dsa_switch_tree} {ds ds' : dsa_switch}
    (hp : ds'.ports = ds.ports) :
    slot_complete_spec dst (some ds') = slot_complete_spec dst (some ds) := by
  rw [slot_complete_spec_some, slot_complete_spec_some, hp]

theorem dsa_dst_complete_go_snd_iff :
    ∀ (idxs : List Nat) (dst : dsa_switch_tree),
      ((dsa_dst_complete_go dst idxs).2 = 0 ↔
        ∀ i ∈ idxs, slot_complete_spec dst (dst.ds.getD i none) = true) := by
  intro idxs
  induction idxs with
  | nil => intro dst; simp [dsa_dst_complete_go_nil]
  | cons i rest ih =>
    intro dst
    cases h : dst.ds.getD i none with
    | none =>
      rw [dsa_dst_complete_go_cons_none rest h, ih]
      constructor
      · intro hr j hj
        rcases List.mem_cons.mp hj with rfl | hj'
        · rw [h]; rfl
        · exact hr j hj'
      · intro hr j hj; exact hr j (List.mem_cons_of_mem _ hj)
    | some ds =>
      have hlt : i < dst.ds.length := getD_lt_length h (by simp)
      have hports : (dsa_ds_complete dst ds).1.ports = ds.ports :=
        dsa_ds_complete_ports dst ds
      have hthp : ∀ n,
          treeHasPortDn { dst with ds := dst.ds.set i (some (dsa_ds_complete dst ds).1) } n =
            treeHasPortDn dst n :=
        treeHasPortDn_set dst i ds _ h hports
      have hslots : ∀ j,
          slot_complete_spec { dst with ds := dst.ds.set i (some (dsa_ds_complete dst ds).1) }
              ((dst.ds.set i (some (dsa_ds_complete dst ds).1)).getD j none) =
            slot_complete_spec dst (dst.ds.getD j none) := by
        intro j
        by_cases hji : j = i
        · subst hji
          rw [getD_set_self dst.ds j _ none hlt, h,
            slot_complete_spec_congr hthp, slot_complete_spec_ports_congr hports]
        · rw [getD_set_ne dst.ds _ none (fun hh => hji hh.symm),
            slot_complete_spec_congr hthp]
      by_cases hz : (dsa_ds_complete dst ds).2 = 0
      · rw [dsa_dst_complete_go_cons_ok rest h hz, ih]
        constructor
        · intro hr j hj
          rcases List.mem_cons.mp hj with rfl | hj'
          · rw [h]
            exact (dsa_ds_complete_snd_iff dst ds).mp hz
          · rw [← hslots j]; exact hr j hj'
        · intro hr j hj
          rw [hslots j]
          exact hr j (List.mem_cons_of_mem _ hj)
      · rw [dsa_dst_complete_go_cons_fail rest h hz]
        constructor
        · intro hr; exact absurd hr hz
        · intro hr
          exact absurd ((dsa_ds_complete_snd_iff dst ds).mpr
            (by have := hr i (by simp); rwa [h] at this)) hz

/-- C1 (amended): `dsa_dst_complete` returns `0` (Complete) iff every
occupied switch slot's every valid DsaLink-classified port has every
`"link"` reference matching a port of some currently-registered member
switch; any unresolved reference makes it return `1` (Incomplete) instead
(those are the only two results).  The "no partial routing table on
Incomplete" half of the original claim is refuted by
`c1_counterexample`: entries recorded before the first unresolved
reference are retained. -/
theorem c1_complete_iff (dst : dsa_switch_tree) :
    ((dsa_dst_complete dst).2 = 0 ↔ tree_complete_spec dst = true) ∧
      ((dsa_dst_complete dst).2 = 0 ∨ (dsa_dst_complete dst).2 = 1) := by
  constructor
  · unfold dsa_dst_complete tree_complete_spec
    rw [dsa_dst_complete_go_snd_iff, List.all_eq_true]
  · unfold dsa_dst_complete
    generalize List.range DSA_MAX_SWITCHES = idxs
    induction idxs generalizing dst with
    | nil => left; rfl
    | cons i rest ih =>
      cases h : dst.ds.getD i none with
      | none =>
        rw [dsa_dst_complete_go_cons_none rest h]
        exact ih dst
      | some ds =>
        by_cases hz : (dsa_ds_complete dst ds).2 = 0
        · rw [dsa_dst_complete_go_cons_ok rest h hz]
          exact ih _
        · rw [dsa_dst_complete_go_cons_fail rest h hz]
          rcases dsa_ds_complete_snd01 dst ds with h0 | h1
          · exact absurd h0 hz
          · right; exact h1


/-! ## Port classification as a total function (claim C6) -/

/-- The four port classes.  The source stores no class; a port's class is
the branch taken by the shared dispatch chain of `dsa_ds_apply`,
`dsa_ds_unapply` and `dsa_ds_complete` (valid?, then dsa?, then cpu?,
else user). -/
inductive PortClass where
  | Invalid
  | DsaLink
  | Cpu
  | User
deriving DecidableEq

/-- Port classification as performed by the source: the dispatch chain of
`dsa_ds_apply` / `dsa_ds_unapply` over `dsa_port_is_valid`,
`dsa_port_is_dsa`, `dsa_port_is_cpu`. -/
def classify (p : dsa_port) : PortClass :=
  if ¬ dsa_port_is_valid p then PortClass.Invalid
  else if dsa_port_is_dsa p then PortClass.DsaLink
  else if dsa_port_is_cpu p then PortClass.Cpu
  else PortClass.User

/-- Claim C6's classification, stated from the claim's words: Invalid when
the port has neither a structured descriptor nor a name; DsaLink when the
name equals "dsa" or the structured descriptor carries a resolvable "link"
reference; Cpu when the name equals "cpu" or the structured descriptor
carries a resolvable "ethernet" reference; User otherwise. -/
def classify_spec (p : dsa_port) : PortClass :=
  if p.dn = none ∧ p.name = none then PortClass.Invalid
  else if p.name = some "dsa" ∨ (of_parse_phandle_link p.dn 0).isSome then PortClass.DsaLink
  else if p.name = some "cpu" ∨ (of_parse_phandle_ethernet p.dn).isSome then PortClass.Cpu
  else PortClass.User

theorem dsa_port_is_valid_iff (p : dsa_port) :
    dsa_port_is_valid p = true ↔ ¬ (p.dn = none ∧ p.name = none) := by
  unfold dsa_port_is_valid
  cases hd : p.dn <;> cases hn : p.name <;> simp

theorem dsa_port_is_dsa_iff (p : dsa_port) :
    dsa_port_is_dsa p = true ↔
      (p.name = some "dsa" ∨ (of_parse_phandle_link p.dn 0).isSome = true) := by
  unfold dsa_port_is_dsa
  by_cases hn : p.name = some "dsa"
  · simp [hn]
  · simp [hn]

theorem dsa_port_is_cpu_iff (p : dsa_port) :
    dsa_port_is_cpu p = true ↔
      (p.name = some "cpu" ∨ (of_parse_phandle_ethernet p.dn).isSome = true) := by
  unfold dsa_port_is_cpu
  by_cases hn : p.name = some "cpu"
  · simp [hn]
  · simp [hn]

/-- C6: classification is a pure, deterministic, total function assigning
exactly one of the four classes, and it agrees with the claim's case
analysis (read, as in the source's dispatch chain, with the earlier cases
taking priority): Invalid when the port has neither descriptor nor name;
else DsaLink when the name is "dsa" or a "link" reference exists; else Cpu
when the name is "cpu" or an "ethernet" reference exists; else User. -/
theorem c6_classify_spec (p : dsa_port) : classify p = classify_spec p := by
  unfold classify classify_spec
  by_cases hI : p.dn = none ∧ p.name = none
  · rw [if_pos (fun hv => (dsa_port_is_valid_iff p).mp hv hI), if_pos hI]
  · rw [if_neg (not_not_intro ((dsa_port_is_valid_iff p).mpr hI)), if_neg hI]
    by_cases hD : p.name = some "dsa" ∨ (of_parse_phandle_link p.dn 0).isSome = true
    · rw [if_pos ((dsa_port_is_dsa_iff p).mpr hD), if_pos hD]
    · rw [if_neg (fun hd => hD ((dsa_port_is_dsa_iff p).mp hd)), if_neg hD]
      by_cases hC : p.name = some "cpu" ∨ (of_parse_phandle_ethernet p.dn).isSome = true
      · rw [if_pos ((dsa_port_is_cpu_iff p).mpr hC), if_pos hC]
      · rw [if_neg (fun hc => hC ((dsa_port_is_cpu_iff p).mp hc)), if_neg hC]

/-! ## Tree registry and reference counting (claims C4, and used by register) -/

/-- `dsa_add_dst`: `kzalloc` a tree (all fields zeroed), set its id,
link it into the registry, `kref_init` the count to 1. -/
def dsa_add_dst (tree : Nat) : dsa_switch_tree :=
  { tree := tree, refcount := 1, applied := false, master_netdev := none,
    cpu_switch := none, cpu_port := 0, tag_ops := none, dsa_ptr_set := false,
    ds := List.replicate DSA_MAX_SWITCHES none }

/-- `kref_get(&dst->refcount)`. -/
def kref_get (dst : dsa_switch_tree) : dsa_switch_tree :=
  { dst with refcount := dst.refcount + 1 }

/-- `kref_put(&dst->refcount, dsa_free_dst)`: drop one reference; on the
count reaching zero, `dsa_free_dst` unlinks the tree from the registry
list and frees it (`none`). -/
def kref_put (dst : dsa_switch_tree) : Option dsa_switch_tree :=
  if dst.refcount ≤ 1 then none else some { dst with refcount := dst.refcount - 1 }

/-- `dsa_get_dst`: look the id up in the visible registry and take a
reference on a hit. -/
def dsa_get_dst (regs : Option dsa_switch_tree) (tree : Nat) : Option dsa_switch_tree :=
  match regs with
  | some dst => if dst.tree = tree then some (kref_get dst) else none
  | none => none

/-- `dsa_put_dst`. -/
def dsa_put_dst (dst : dsa_switch_tree) : Option dsa_switch_tree :=
  kref_put dst

/-- `dsa_dst_add_ds`: take a member reference and store the switch in its
slot. -/
def dsa_dst_add_ds (dst : dsa_switch_tree) (ds : dsa_switch) (index : Nat) :
    dsa_switch_tree :=
  { dst with refcount := dst.refcount + 1, ds := dst.ds.set index (some ds) }

/-- `dsa_dst_del_ds`: clear the slot, then drop that member's reference
(freeing the tree if it was the last). -/
def dsa_dst_del_ds (dst : dsa_switch_tree) (ds : dsa_switch) (index : Nat) :
    Option dsa_switch_tree :=
  kref_put { dst with ds := dst.ds.set index none }

/-- A bare member switch for the claim C4 add/remove scenario. -/
def memberSwitch (i : Nat) : dsa_switch :=
  { index := i, ports := [], enabled_port_mask := 0, cpu_port_mask := 0,
    dsa_port_mask := 0, phys_mii_mask := 0,
    rtable := List.replicate DSA_MAX_SWITCHES DSA_RTABLE_NONE,
    master_netdev := none, slave_mii_bus := false,
    ops := ⟨0, none, false, 0⟩, cd := none }

/-- `n` successive `dsa_dst_add_ds` calls at slots `0 .. n-1`. -/
def addN (dst : dsa_switch_tree) : Nat → dsa_switch_tree
  | 0 => dst
  | n + 1 => dsa_dst_add_ds (addN dst n) (memberSwitch n) n

/-- `n` successive `dsa_dst_del_ds` calls at slots `0 .. n-1`. -/
def delN (dst : dsa_switch_tree) : Nat → Option dsa_switch_tree
  | 0 => some dst
  | n + 1 =>
    match delN dst n with
    | some t => dsa_dst_del_ds t (memberSwitch n) n
    | none => none

theorem addN_refcount (dst : dsa_switch_tree) :
    ∀ n, (addN dst n).refcount = dst.refcount + n := by
  intro n
  induction n with
  | zero => rfl
  | succ n ih => simp [addN, dsa_dst_add_ds, ih, Nat.add_assoc]

theorem delN_refcount :
    ∀ (n : Nat) (dst : dsa_switch_tree), n < dst.refcount →
      ∃ t, delN dst n = some t ∧ t.refcount = dst.refcount - n := by
  intro n
  induction n with
  | zero => intro dst h; exact ⟨dst, rfl, rfl⟩
  | succ n ih =>
    intro dst h
    obtain ⟨t, ht, hrc⟩ := ih dst (Nat.lt_of_succ_lt h)
    have h2 : 2 ≤ t.refcount := by omega
    refine ⟨{ t with ds := t.ds.set n none, refcount := t.refcount - 1 }, ?_, by simp; omega⟩
    simp only [delN, ht]
    unfold dsa_dst_del_ds kref_put
    rw [if_neg (by simp; omega)]

/-- C4 (amended): a tree created by `get_or_create` (reference count 1,
the creation reference) that receives `N` `add_member` calls followed by
`N` `remove_member` calls (`1 ≤ N ≤ DSA_MAX_SWITCHES`, distinct slots)
is NOT freed after the N-th removal: it still exists with reference count
exactly 1 (the creation reference), and is freed exactly when that
reference is also released (`dsa_put_dst`); after `N` additions and only
`N - 1` removals it exists with reference count 2. -/
theorem c4_refcount (tree_id N : Nat) (h1 : 1 ≤ N) (h2 : N ≤ DSA_MAX_SWITCHES) :
    (∃ t, delN (addN (dsa_add_dst tree_id) N) N = some t ∧
      t.refcount = 1 ∧ dsa_put_dst t = none) ∧
    (∃ t, delN (addN (dsa_add_dst tree_id) N) (N - 1) = some t ∧ t.refcount = 2) := by
  have hrc : (addN (dsa_add_dst tree_id) N).refcount = 1 + N := by
    rw [addN_refcount]; rfl
  constructor
  · obtain ⟨t, ht, hrct⟩ := delN_refcount N (addN (dsa_add_dst tree_id) N) (by omega)
    refine ⟨t, ht, by omega, ?_⟩
    unfold dsa_put_dst kref_put
    rw [if_pos (by omega)]
  · obtain ⟨t, ht, hrct⟩ := delN_refcount (N - 1) (addN (dsa_add_dst tree_id) N) (by omega)
    exact ⟨t, ht, by omega⟩

/-- Witness for `c4_refcount` at `N = 2`. -/
theorem c4_refcount_witness :
    (∃ t, delN (addN (dsa_add_dst 0) 2) 2 = some t ∧
      t.refcount = 1 ∧ dsa_put_dst t = none) ∧
    (∃ t, delN (addN (dsa_add_dst 0) 2) (2 - 1) = some t ∧ t.refcount = 2) :=
  c4_refcount 0 2 (by decide) (by decide)

/-- Counterexample to claim C4 as stated: with `N = 1`, one `add_member`
followed by one `remove_member` on a freshly created tree does not free
it - the creation reference is still held, so the tree survives with
reference count 1. -/
theorem c4_counterexample :
    (delN (addN (dsa_add_dst 0) 1) 1).isSome = true ∧
      (delN (addN (dsa_add_dst 0) 1) 1).map dsa_switch_tree.refcount = some 1 := by
  decide

/-! ## Activator (`dsa_*_apply` / `dsa_*_unapply`) -/

/-- `dsa_dsa_port_apply`: run the shared uplink setup
(`dsa_cpu_dsa_setup`); no modelled switch state changes. -/
def dsa_dsa_port_apply (env : dsa_env) (port : dsa_port) (index : Nat)
    (ds : dsa_switch) : dsa_switch × Int :=
  let err := env.cpuDsaSetup ds.index index
  if err ≠ 0 then (ds, err) else (ds, 0)

/-- `dsa_dsa_port_unapply`: `dsa_cpu_dsa_destroy` only; no modelled switch
state changes. -/
def dsa_dsa_port_unapply (env : dsa_env) (port : dsa_port) (index : Nat)
    (ds : dsa_switch) : dsa_switch :=
  ds

/-- `dsa_cpu_port_apply`: uplink setup, then mark the CPU-port bit. -/
def dsa_cpu_port_apply (env : dsa_env) (port : dsa_port) (index : Nat)
    (ds : dsa_switch) : dsa_switch × Int :=
  let err := env.cpuDsaSetup ds.index index
  if err ≠ 0 then (ds, err)
  else ({ ds with cpu_port_mask := ds.cpu_port_mask ||| BIT index }, 0)

/-- `dsa_cpu_port_unapply`: `dsa_cpu_dsa_destroy`, then clear the CPU-port
bit. -/
def dsa_cpu_port_unapply (env : dsa_env) (port : dsa_port) (index : Nat)
    (ds : dsa_switch) : dsa_switch :=
  { ds with cpu_port_mask := clearBit ds.cpu_port_mask index }

/-- The name handed to `dsa_slave_create`: `port->name`, overridden by the
`"label"` device-tree property whenever a device node is present, with
`"eth%d"` as the fallback. -/
def userPortName (port : dsa_port) : String :=
  (match port.dn with
   | some d => d.label
   | none => port.name).getD "eth%d"

/-- `dsa_user_port_apply`: materialize the slave interface
(`dsa_slave_create` stores the netdev handle in the port on success); on
failure the port's netdev is reset to `NULL` and the error returned. -/
def dsa_user_port_apply (env : dsa_env) (port : dsa_port) (index : Nat)
    (ds : dsa_switch) : dsa_switch × Int :=
  match env.slaveCreate ds.index index (userPortName port) with
  | Except.error e =>
    ({ ds with ports := ds.ports.set index { port with netdev := none } }, e)
  | Except.ok nd =>
    ({ ds with ports := ds.ports.set index { port with netdev := some nd } }, 0)

/-- `dsa_user_port_unapply`: if the port holds a live slave interface,
destroy it, clear the handle and clear the port's enabled bit. -/
def dsa_user_port_unapply (env : dsa_env) (port : dsa_port) (index : Nat)
    (ds : dsa_switch) : dsa_switch :=
  match port.netdev with
  | some _ =>
    { ds with ports := ds.ports.set index { port with netdev := none },
              enabled_port_mask := clearBit ds.enabled_port_mask index }
  | none => ds

/-- The per-port loop of `dsa_ds_apply`: DsaLink and Cpu port failures
abort with the error; user-port failures are skipped (`continue`). -/
def dsa_ds_apply_ports (env : dsa_env) (ds : dsa_switch) : List Nat → dsa_switch × Int
  | [] => (ds, 0)
  | index :: rest =>
    let port := ds.ports.getD index default
    if ¬ dsa_port_is_valid port then dsa_ds_apply_ports env ds rest
    else if dsa_port_is_dsa port then
      let res := dsa_dsa_port_apply env port index ds
      if res.2 ≠ 0 then res else dsa_ds_apply_ports env res.1 rest
    else if dsa_port_is_cpu port then
      let res := dsa_cpu_port_apply env port index ds
      if res.2 ≠ 0 then res else dsa_ds_apply_ports env res.1 rest
    else
      let res := dsa_user_port_apply env port index ds
      dsa_ds_apply_ports env res.1 rest

/-- The slave-MDIO-bus step of `dsa_ds_apply` followed by its per-port
loop. -/
def dsa_ds_apply_mdio (env : dsa_env) (ds : dsa_switch) : dsa_switch × Int :=
  if ¬ ds.slave_mii_bus ∧ ds.ops.phy_read then
    if ¬ env.mdiobusAlloc ds.index then (ds, ENOMEM)
    else
      let ds1 : dsa_switch := { ds with slave_mii_bus := true }
      if env.mdiobusRegister ds1.index < 0 then (ds1, env.mdiobusRegister ds1.index)
      else dsa_ds_apply_ports env ds1 (List.range ds1.ports.length)
  else dsa_ds_apply_ports env ds (List.range ds.ports.length)

/-- `dsa_ds_apply`: seed `phys_mii_mask` from the enabled mask, run the
chip setup, register the switch notifier, program the master address if
the op exists, set up the slave MDIO bus if needed, then apply every
valid port by class. -/
def dsa_ds_apply (env : dsa_env) (dst : dsa_switch_tree) (ds : dsa_switch) :
    dsa_switch × Int :=
  let ds1 : dsa_switch := { ds with phys_mii_mask := ds.enabled_port_mask }
  if ds1.ops.setup < 0 then (ds1, ds1.ops.setup)
  else if env.registerNotifier ds1.index ≠ 0 then (ds1, env.registerNotifier ds1.index)
  else
    match ds1.ops.set_addr with
    | some e => if e < 0 then (ds1, e) else dsa_ds_apply_mdio env ds1
    | none => dsa_ds_apply_mdio env ds1

/-- The per-port loop of `dsa_ds_unapply`. -/
def dsa_ds_unapply_ports (env : dsa_env) (ds : dsa_switch) : List Nat → dsa_switch
  | [] => ds
  | index :: rest =>
    let port := ds.ports.getD index default
    if ¬ dsa_port_is_valid port then dsa_ds_unapply_ports env ds rest
    else if dsa_port_is_dsa port then
      dsa_ds_unapply_ports env (dsa_dsa_port_unapply env port index ds) rest
    else if dsa_port_is_cpu port then
      dsa_ds_unapply_ports env (dsa_cpu_port_unapply env port index ds) rest
    else
      dsa_ds_unapply_ports env (dsa_user_port_unapply env port index ds) rest

/-- `dsa_ds_unapply`: per-port teardown by class; the trailing
`mdiobus_unregister` and notifier unregistration change no modelled switch
state. -/
def dsa_ds_unapply (env : dsa_env) (dst : dsa_switch_tree) (ds : dsa_switch) :
    dsa_switch :=
  dsa_ds_unapply_ports env ds (List.range ds.ports.length)

/-- The member-slot loop of `dsa_dst_apply`. -/
def dsa_dst_apply_go (env : dsa_env) (dst : dsa_switch_tree) :
    List Nat → dsa_switch_tree × Int
  | [] => (dst, 0)
  | index :: rest =>
    match dst.ds.getD index none with
    | none => dsa_dst_apply_go env dst rest
    | some ds =>
      let res := dsa_ds_apply env dst ds
      let dst' := { dst with ds := dst.ds.set index (some res.1) }
      if res.2 ≠ 0 then (dst', res.2) else dsa_dst_apply_go env dst' rest

/-- `dsa_dst_apply`: apply every member in slot order, wire up ethtool on
the elected CPU switch, install the master device's forwarding hook and
mark the tree applied. -/
def dsa_dst_apply (env : dsa_env) (dst : dsa_switch_tree) : dsa_switch_tree × Int :=
  let res := dsa_dst_apply_go env dst (List.range DSA_MAX_SWITCHES)
  if res.2 ≠ 0 then res
  else
    match res.1.cpu_switch with
    | some cs =>
      if env.ethtoolSetup cs ≠ 0 then (res.1, env.ethtoolSetup cs)
      else ({ res.1 with dsa_ptr_set := true, applied := true }, 0)
    | none => ({ res.1 with dsa_ptr_set := true, applied := true }, 0)

/-- The member-slot loop of `dsa_dst_unapply`. -/
def dsa_dst_unapply_go (env : dsa_env) (dst : dsa_switch_tree) :
    List Nat → dsa_switch_tree
  | [] => dst
  | index :: rest =>
    match dst.ds.getD index none with
    | none => dsa_dst_unapply_go env dst rest
    | some ds =>
      dsa_dst_unapply_go env
        { dst with ds := dst.ds.set index (some (dsa_ds_unapply env dst ds)) } rest

/-- `dsa_dst_unapply`: no-op unless applied; otherwise detach the
forwarding hook, tear every member down, restore ethtool on the elected
CPU switch (no modelled state) and clear the applied flag. -/
def dsa_dst_unapply (env : dsa_env) (dst : dsa_switch_tree) : dsa_switch_tree :=
  if ¬ dst.applied then dst
  else
    let dst1 : dsa_switch_tree := { dst with dsa_ptr_set := false }
    let dst2 := dsa_dst_unapply_go env dst1 (List.range DSA_MAX_SWITCHES)
    { dst2 with applied := false }

/-! ## Port signatures and congruence (classification reads only dn/name) -/

theorem findSome?_congr {α β : Type} {f g : α → Option β} :
    ∀ l : List α, (∀ a ∈ l, f a = g a) → l.findSome? f = l.findSome? g := by
  intro l
  induction l with
  | nil => intro _; rfl
  | cons x xs ih =>
    intro h
    simp only [List.findSome?_cons, h x (by simp), ih fun a ha => h a (by simp [ha])]

theorem set_of_length_le {α : Type} :
    ∀ (l : List α) (i : Nat) (a : α), l.length ≤ i → l.set i a = l := by
  intro l
  induction l with
  | nil => intro i a h; rfl
  | cons x xs ih =>
    intro i a h
    cases i with
    | zero => simp at h
    | succ n =>
      simp only [List.set]
      rw [ih n a (by simpa using h)]

/-- Two switches with the same index whose ports agree on the
classification-relevant data (`dn` and `name`) at every position. -/
def portSigEq (ds' ds : dsa_switch) : Prop :=
  ds'.index = ds.index ∧
  ∀ i, (ds'.ports.getD i default).dn = (ds.ports.getD i default).dn ∧
       (ds'.ports.getD i default).name = (ds.ports.getD i default).name

theorem portSigEq_refl (ds : dsa_switch) : portSigEq ds ds :=
  ⟨rfl, fun _ => ⟨rfl, rfl⟩⟩

theorem portSigEq_of_ports_eq {ds' ds : dsa_switch} (hi : ds'.index = ds.index)
    (hp : ds'.ports = ds.ports) : portSigEq ds' ds :=
  ⟨hi, fun i => by rw [hp]; exact ⟨rfl, rfl⟩⟩

theorem portSigEq_trans {a b c : dsa_switch} (h1 : portSigEq a b) (h2 : portSigEq b c) :
    portSigEq a c :=
  ⟨h1.1.trans h2.1, fun i =>
    ⟨(h1.2 i).1.trans (h2.2 i).1, (h1.2 i).2.trans (h2.2 i).2⟩⟩

theorem portSigEq_set_netdev (ds : dsa_switch) (index : Nat) (nd : Option Nat) :
    portSigEq
      { ds with ports := ds.ports.set index { (ds.ports.getD index default) with netdev := nd } } ds := by
  refine ⟨rfl, ?_⟩
  intro i
  by_cases hlen : index < ds.ports.length
  · by_cases hji : i = index
    · subst hji
      show ((ds.ports.set i _).getD i default).dn = _ ∧
        ((ds.ports.set i _).getD i default).name = _
      rw [getD_set_self ds.ports i _ default hlen]
      exact ⟨rfl, rfl⟩
    · show ((ds.ports.set index _).getD i default).dn = _ ∧
        ((ds.ports.set index _).getD i default).name = _
      rw [getD_set_ne ds.ports _ default (fun hh => hji hh.symm)]
      exact ⟨rfl, rfl⟩
  · show ((ds.ports.set index _).getD i default).dn = _ ∧
      ((ds.ports.set index _).getD i default).name = _
    rw [set_of_length_le ds.ports index _ (Nat.le_of_not_lt hlen)]
    exact ⟨rfl, rfl⟩

theorem dsa_port_is_valid_congr {p q : dsa_port} (h1 : p.dn = q.dn)
    (h2 : p.name = q.name) : dsa_port_is_valid p = dsa_port_is_valid q := by
  unfold dsa_port_is_valid
  rw [h1, h2]

theorem dsa_port_is_dsa_congr {p q : dsa_port} (h1 : p.dn = q.dn)
    (h2 : p.name = q.name) : dsa_port_is_dsa p = dsa_port_is_dsa q := by
  unfold dsa_port_is_dsa of_parse_phandle_link
  rw [h1, h2]

theorem dsa_port_is_cpu_congr {p q : dsa_port} (h1 : p.dn = q.dn)
    (h2 : p.name = q.name) : dsa_port_is_cpu p = dsa_port_is_cpu q := by
  unfold dsa_port_is_cpu of_parse_phandle_ethernet
  rw [h1, h2]

theorem portLinks_congr {p q : dsa_port} (h1 : p.dn = q.dn) :
    portLinks p = portLinks q := by
  unfold portLinks
  rw [h1]

theorem userPortName_congr {p q : dsa_port} (h1 : p.dn = q.dn)
    (h2 : p.name = q.name) : userPortName p = userPortName q := by
  unfold userPortName
  rw [h1, h2]

/-! ## Per-index port classes and the uplink/user distinction (claim C8) -/

/-- Validity of the port at `index`. -/
def validAt (ds : dsa_switch) (index : Nat) : Bool :=
  dsa_port_is_valid (ds.ports.getD index default)

/-- Is the port at `index` dispatched to the DsaLink branch? -/
def dsaClassAt (ds : dsa_switch) (index : Nat) : Bool :=
  validAt ds index && dsa_port_is_dsa (ds.ports.getD index default)

/-- Is the port at `index` dispatched to the Cpu branch? -/
def cpuClassAt (ds : dsa_switch) (index : Nat) : Bool :=
  validAt ds index && !dsa_port_is_dsa (ds.ports.getD index default) &&
    dsa_port_is_cpu (ds.ports.getD index default)

/-- Is the port at `index` dispatched to the user branch? -/
def userClassAt (ds : dsa_switch) (index : Nat) : Bool :=
  validAt ds index && !dsa_port_is_dsa (ds.ports.getD index default) &&
    !dsa_port_is_cpu (ds.ports.getD index default)

/-- Is the port at `index` a valid port of DsaLink or Cpu class (one whose
uplink-setup failure aborts `dsa_ds_apply`)? -/
def uplinkAt (ds : dsa_switch) (index : Nat) : Bool :=
  validAt ds index &&
    (dsa_port_is_dsa (ds.ports.getD index default) ||
     dsa_port_is_cpu (ds.ports.getD index default))

theorem validAt_congr {ds' ds : dsa_switch} (h : portSigEq ds' ds) (i : Nat) :
    validAt ds' i = validAt ds i :=
  dsa_port_is_valid_congr (h.2 i).1 (h.2 i).2

theorem dsaClassAt_congr {ds' ds : dsa_switch} (h : portSigEq ds' ds) (i : Nat) :
    dsaClassAt ds' i = dsaClassAt ds i := by
  unfold dsaClassAt
  rw [validAt_congr h, dsa_port_is_dsa_congr (h.2 i).1 (h.2 i).2]

theorem cpuClassAt_congr {ds' ds : dsa_switch} (h : portSigEq ds' ds) (i : Nat) :
    cpuClassAt ds' i = cpuClassAt ds i := by
  unfold cpuClassAt
  rw [validAt_congr h, dsa_port_is_dsa_congr (h.2 i).1 (h.2 i).2,
    dsa_port_is_cpu_congr (h.2 i).1 (h.2 i).2]

theorem userClassAt_congr {ds' ds : dsa_switch} (h : portSigEq ds' ds) (i : Nat) :
    userClassAt ds' i = userClassAt ds i := by
  unfold userClassAt
  rw [validAt_congr h, dsa_port_is_dsa_congr (h.2 i).1 (h.2 i).2,
    dsa_port_is_cpu_congr (h.2 i).1 (h.2 i).2]

theorem uplinkAt_congr {ds' ds : dsa_switch} (h : portSigEq ds' ds) (i : Nat) :
    uplinkAt ds' i = uplinkAt ds i := by
  unfold uplinkAt
  rw [validAt_congr h, dsa_port_is_dsa_congr (h.2 i).1 (h.2 i).2,
    dsa_port_is_cpu_congr (h.2 i).1 (h.2 i).2]

/-- The netdev handle `dsa_user_port_apply` leaves on the port at `index`:
the created slave device on success, `NULL` on failure. -/
def slaveRes (env : dsa_env) (ds : dsa_switch) (index : Nat) : Option Nat :=
  match env.slaveCreate ds.index index (userPortName (ds.ports.getD index default)) with
  | Except.ok nd => some nd
  | Except.error _ => none

theorem slaveRes_congr {ds' ds : dsa_switch} (env : dsa_env) (h : portSigEq ds' ds)
    (i : Nat) : slaveRes env ds' i = slaveRes env ds i := by
  unfold slaveRes
  rw [h.1, userPortName_congr (h.2 i).1 (h.2 i).2]

/-- The first valid DsaLink-or-Cpu-class port (in index order) whose shared
uplink setup fails, together with its error. -/
def firstUplinkErr (env : dsa_env) (ds : dsa_switch) (idxs : List Nat) : Option Int :=
  idxs.findSome? fun index =>
    if uplinkAt ds index = true ∧ env.cpuDsaSetup ds.index index ≠ 0
    then some (env.cpuDsaSetup ds.index index) else none

theorem firstUplinkErr_congr {ds' ds : dsa_switch} (env : dsa_env)
    (h : portSigEq ds' ds) (idxs : List Nat) :
    firstUplinkErr env ds' idxs = firstUplinkErr env ds idxs := by
  unfold firstUplinkErr
  apply findSome?_congr
  intro i _
  rw [uplinkAt_congr h, h.1]

/-! ## Claim C8: fault asymmetry of `dsa_ds_apply` -/

theorem dsa_dsa_port_apply_eq (env : dsa_env) (port : dsa_port) (index : Nat)
    (ds : dsa_switch) :
    dsa_dsa_port_apply env port index ds = (ds, env.cpuDsaSetup ds.index index) := by
  unfold dsa_dsa_port_apply
  by_cases h : env.cpuDsaSetup ds.index index = 0
  · rw [if_neg (not_not_intro h), h]
  · rw [if_pos h]

theorem dsa_cpu_port_apply_ok {env : dsa_env} {index : Nat} {ds : dsa_switch}
    (port : dsa_port) (hz : env.cpuDsaSetup ds.index index = 0) :
    dsa_cpu_port_apply env port index ds =
      ({ ds with cpu_port_mask := ds.cpu_port_mask ||| BIT index }, 0) := by
  unfold dsa_cpu_port_apply
  rw [if_neg (not_not_intro hz)]

theorem dsa_cpu_port_apply_fail {env : dsa_env} {index : Nat} {ds : dsa_switch}
    (port : dsa_port) (hz : env.cpuDsaSetup ds.index index ≠ 0) :
    dsa_cpu_port_apply env port index ds = (ds, env.cpuDsaSetup ds.index index) := by
  unfold dsa_cpu_port_apply
  rw [if_pos hz]

theorem dsa_user_port_apply_fst (env : dsa_env) (index : Nat) (ds : dsa_switch) :
    (dsa_user_port_apply env (ds.ports.getD index default) index ds).1 =
      { ds with ports := ds.ports.set index { (ds.ports.getD index default) with netdev := slaveRes env ds index } } := by
  unfold dsa_user_port_apply slaveRes
  cases env.slaveCreate ds.index index (userPortName (ds.ports.getD index default)) <;> rfl

theorem apply_ports_nil (env : dsa_env) (ds : dsa_switch) :
    dsa_ds_apply_ports env ds [] = (ds, 0) := rfl

theorem apply_ports_cons_invalid {env : dsa_env} {ds : dsa_switch} {i : Nat}
    (rest : List Nat) (h : ¬ dsa_port_is_valid (ds.ports.getD i default) = true) :
    dsa_ds_apply_ports env ds (i :: rest) = dsa_ds_apply_ports env ds rest := by
  simp only [dsa_ds_apply_ports]
  rw [if_pos h]

theorem apply_ports_cons_dsa {env : dsa_env} {ds : dsa_switch} {i : Nat}
    (rest : List Nat) (hv : dsa_port_is_valid (ds.ports.getD i default) = true)
    (hd : dsa_port_is_dsa (ds.ports.getD i default) = true) :
    dsa_ds_apply_ports env ds (i :: rest) =
      (if env.cpuDsaSetup ds.index i ≠ 0 then (ds, env.cpuDsaSetup ds.index i)
       else dsa_ds_apply_ports env ds rest) := by
  simp only [dsa_ds_apply_ports]
  rw [if_neg (not_not_intro hv), if_pos hd, dsa_dsa_port_apply_eq]

theorem apply_ports_cons_cpu_ok {env : dsa_env} {ds : dsa_switch} {i : Nat}
    (rest : List Nat) (hv : dsa_port_is_valid (ds.ports.getD i default) = true)
    (hd : ¬ dsa_port_is_dsa (ds.ports.getD i default) = true)
    (hc : dsa_port_is_cpu (ds.ports.getD i default) = true)
    (hz : env.cpuDsaSetup ds.index i = 0) :
    dsa_ds_apply_ports env ds (i :: rest) =
      dsa_ds_apply_ports env { ds with cpu_port_mask := ds.cpu_port_mask ||| BIT i } rest := by
  simp only [dsa_ds_apply_ports]
  rw [if_neg (not_not_intro hv), if_neg hd, if_pos hc, dsa_cpu_port_apply_ok _ hz]
  rw [if_neg (not_not_intro rfl)]

theorem apply_ports_cons_cpu_fail {env : dsa_env} {ds : dsa_switch} {i : Nat}
    (rest : List Nat) (hv : dsa_port_is_valid (ds.ports.getD i default) = true)
    (hd : ¬ dsa_port_is_dsa (ds.ports.getD i default) = true)
    (hc : dsa_port_is_cpu (ds.ports.getD i default) = true)
    (hz : env.cpuDsaSetup ds.index i ≠ 0) :
    dsa_ds_apply_ports env ds (i :: rest) = (ds, env.cpuDsaSetup ds.index i) := by
  simp only [dsa_ds_apply_ports]
  rw [if_neg (not_not_intro hv), if_neg hd, if_pos hc, dsa_cpu_port_apply_fail _ hz]
  rw [if_pos hz]

theorem apply_ports_cons_user {env : dsa_env} {ds : dsa_switch} {i : Nat}
    (rest : List Nat) (hv : dsa_port_is_valid (ds.ports.getD i default) = true)
    (hd : ¬ dsa_port_is_dsa (ds.ports.getD i default) = true)
    (hc : ¬ dsa_port_is_cpu (ds.ports.getD i default) = true) :
    dsa_ds_apply_ports env ds (i :: rest) =
      dsa_ds_apply_ports env
        { ds with ports := ds.ports.set i { (ds.ports.getD i default) with netdev := slaveRes env ds i } } rest := by
  simp only [dsa_ds_apply_ports]
  rw [if_neg (not_not_intro hv), if_neg hd, if_neg hc, dsa_user_port_apply_fst]

theorem firstUplinkErr_nil (env : dsa_env) (ds : dsa_switch) :
    firstUplinkErr env ds [] = none := rfl

theorem firstUplinkErr_cons_skip {env : dsa_env} {ds : dsa_switch} {i : Nat}
    (rest : List Nat)
    (h : ¬ (uplinkAt ds i = true ∧ env.cpuDsaSetup ds.index i ≠ 0)) :
    firstUplinkErr env ds (i :: rest) = firstUplinkErr env ds rest := by
  unfold firstUplinkErr
  rw [List.findSome?_cons]
  simp only [if_neg h]

theorem firstUplinkErr_cons_hit {env : dsa_env} {ds : dsa_switch} {i : Nat}
    (rest : List Nat)
    (h : uplinkAt ds i = true ∧ env.cpuDsaSetup ds.index i ≠ 0) :
    firstUplinkErr env ds (i :: rest) = some (env.cpuDsaSetup ds.index i) := by
  unfold firstUplinkErr
  rw [List.findSome?_cons]
  simp only [if_pos h]

/-- The per-port loop of `dsa_ds_apply` returns the error of the first
valid DsaLink/Cpu-class port whose uplink setup fails, and `0` when there
is none - user-port materialization failures never contribute. -/
theorem dsa_ds_apply_ports_snd (env : dsa_env) :
    ∀ (idxs : List Nat) (ds : dsa_switch),
      (dsa_ds_apply_ports env ds idxs).2 = (firstUplinkErr env ds idxs).getD 0 := by
  intro idxs
  induction idxs with
  | nil => intro ds; rfl
  | cons i rest ih =>
    intro ds
    by_cases hv : dsa_port_is_valid (ds.ports.getD i default) = true
    · by_cases hd : dsa_port_is_dsa (ds.ports.getD i default) = true
      · have hup : uplinkAt ds i = true := by
          unfold uplinkAt validAt
          rw [Bool.and_eq_true, Bool.or_eq_true]
          exact ⟨hv, Or.inl hd⟩
        rw [apply_ports_cons_dsa rest hv hd]
        by_cases hz : env.cpuDsaSetup ds.index i = 0
        · rw [if_neg (not_not_intro hz),
            firstUplinkErr_cons_skip rest (fun hh => hh.2 hz), ih]
        · rw [if_pos hz, firstUplinkErr_cons_hit rest ⟨hup, hz⟩]
          rfl
      · by_cases hc : dsa_port_is_cpu (ds.ports.getD i default) = true
        · have hup : uplinkAt ds i = true := by
            unfold uplinkAt validAt
            rw [Bool.and_eq_true, Bool.or_eq_true]
            exact ⟨hv, Or.inr hc⟩
          by_cases hz : env.cpuDsaSetup ds.index i = 0
          · rw [apply_ports_cons_cpu_ok rest hv hd hc hz, ih,
              firstUplinkErr_cons_skip rest (fun hh => hh.2 hz)]
            exact congrArg (fun o => Option.getD o 0)
              (firstUplinkErr_congr env (portSigEq_of_ports_eq rfl rfl) rest)
          · rw [apply_ports_cons_cpu_fail rest hv hd hc hz,
              firstUplinkErr_cons_hit rest ⟨hup, hz⟩]
            rfl
        · have hup : ¬ uplinkAt ds i = true := by
            unfold uplinkAt validAt
            rw [Bool.and_eq_true, Bool.or_eq_true]
            rintro ⟨-, hdc | hdc⟩
            · exact hd hdc
            · exact hc hdc
          rw [apply_ports_cons_user rest hv hd hc, ih,
            firstUplinkErr_cons_skip rest (fun hh => hup hh.1)]
          exact congrArg (fun o => Option.getD o 0)
            (firstUplinkErr_congr env
              (portSigEq_set_netdev ds i (slaveRes env ds i)) rest)
    · have hup : ¬ uplinkAt ds i = true := by
        unfold uplinkAt validAt
        rw [Bool.and_eq_true]
        rintro ⟨h1, -⟩
        exact hv h1
      rw [apply_ports_cons_invalid rest hv, ih,
        firstUplinkErr_cons_skip rest (fun hh => hup hh.1)]

/-- The steps of `dsa_ds_apply` preceding the per-port loop all succeed:
the chip setup, the notifier registration, the optional master-address
programming and the slave-MDIO-bus setup. -/
def dsApplyPreOk (env : dsa_env) (ds : dsa_switch) : Bool :=
  !decide (ds.ops.setup < 0) &&
  decide (env.registerNotifier ds.index = 0) &&
  (ds.ops.set_addr.all fun e => !decide (e < 0)) &&
  (!(!ds.slave_mii_bus && ds.ops.phy_read) ||
    (env.mdiobusAlloc ds.index && !decide (env.mdiobusRegister ds.index < 0)))

/-- Under successful pre-steps, `dsa_ds_apply` computes the per-port loop
on a switch that differs from the input only in `phys_mii_mask` and
possibly `slave_mii_bus`. -/
theorem dsa_ds_apply_snd (env : dsa_env) (dst : dsa_switch_tree) (ds : dsa_switch)
    (hpre : dsApplyPreOk env ds = true) :
    (dsa_ds_apply env dst ds).2 =
      (firstUplinkErr env ds (List.range ds.ports.length)).getD 0 := by
  unfold dsApplyPreOk at hpre
  simp only [Bool.and_eq_true, Bool.or_eq_true, Bool.not_eq_true',
    decide_eq_true_eq, decide_eq_false_iff_not] at hpre
  obtain ⟨⟨⟨hs, hn⟩, ha⟩, hm⟩ := hpre
  unfold dsa_ds_apply
  rw [if_neg (by simpa using hs), if_neg (not_not_intro hn)]
  have hsig1 : portSigEq { ds with phys_mii_mask := ds.enabled_port_mask } ds :=
    portSigEq_of_ports_eq rfl rfl
  have hmdio : ∀ ds1 : dsa_switch, portSigEq ds1 ds →
      ds1.ops = ds.ops → ds1.slave_mii_bus = ds.slave_mii_bus →
      ds1.ports.length = ds.ports.length →
      (dsa_ds_apply_mdio env ds1).2 =
        (firstUplinkErr env ds (List.range ds.ports.length)).getD 0 := by
    intro ds1 hsig hops hbus hlen
    unfold dsa_ds_apply_mdio
    by_cases hcond : ¬ ds1.slave_mii_bus = true ∧ ds1.ops.phy_read = true
    · have hcond' : ¬ ds.slave_mii_bus = true ∧ ds.ops.phy_read = true := by
        rw [← hbus, ← hops]
        exact hcond
      have hbusF : ds.slave_mii_bus = false := Bool.eq_false_iff.mpr hcond'.1
      obtain ⟨hall, hreg⟩ : env.mdiobusAlloc ds.index = true ∧
          ¬ env.mdiobusRegister ds.index < 0 := by
        rcases hm with hm1 | hm2
        · rw [hbusF, hcond'.2] at hm1
          exact absurd hm1 (by simp)
        · exact hm2
      rw [if_pos hcond, if_neg (by rw [hsig.1]; simpa using hall),
        if_neg (by rw [hsig.1]; simpa using hreg)]
      rw [dsa_ds_apply_ports_snd]
      have hsig2 : portSigEq { ds1 with slave_mii_bus := true } ds :=
        portSigEq_trans (portSigEq_of_ports_eq rfl rfl) hsig
      rw [firstUplinkErr_congr env hsig2]
      show ((firstUplinkErr env ds (List.range ds1.ports.length)).getD 0) = _
      rw [hlen]
    · rw [if_neg hcond, dsa_ds_apply_ports_snd, firstUplinkErr_congr env hsig]
      show ((firstUplinkErr env ds (List.range ds1.ports.length)).getD 0) = _
      rw [hlen]
  cases hsa : ds.ops.set_addr with
  | none =>
    show (dsa_ds_apply_mdio env _).2 = _
    exact hmdio _ hsig1 rfl rfl rfl
  | some e =>
    have he : ¬ e < 0 := by
      have := ha
      rw [hsa] at this
      simpa using this
    show (if e < 0 then _ else dsa_ds_apply_mdio env _).2 = _
    rw [if_neg he]
    exact hmdio _ hsig1 rfl rfl rfl

/-- C8: during apply of a single switch (with the pre-port steps passing),
fault tolerance is asymmetric by port class.  The loop's result is exactly
the error of the first valid DsaLink/Cpu-class port whose shared
uplink-setup step fails (aborting the whole apply and propagating that
error), and `0` when every such port succeeds - in particular, failures of
user-port interface materialization are skipped and never make the apply
of the switch fail. -/
theorem c8_apply_fault_asymmetry (env : dsa_env) (dst : dsa_switch_tree)
    (ds : dsa_switch) (hpre : dsApplyPreOk env ds = true) :
    ((dsa_ds_apply env dst ds).2 =
        (firstUplinkErr env ds (List.range ds.ports.length)).getD 0) ∧
      ((∀ i ∈ List.range ds.ports.length, uplinkAt ds i = true →
          env.cpuDsaSetup ds.index i = 0) →
        (dsa_ds_apply env dst ds).2 = 0) := by
  refine ⟨dsa_ds_apply_snd env dst ds hpre, ?_⟩
  intro hok
  rw [dsa_ds_apply_snd env dst ds hpre]
  have hnone : firstUplinkErr env ds (List.range ds.ports.length) = none := by
    unfold firstUplinkErr
    rw [List.findSome?_eq_none_iff]
    intro i hi
    rw [if_neg]
    intro hcontra
    exact hcontra.2 (hok i hi hcontra.1)
  rw [hnone]
  rfl

/-- The concrete switch for the C8 witness: port 0 is a user port whose
materialization fails, port 1 a DsaLink port whose uplink setup succeeds. -/
def c8switch : dsa_switch :=
  { index := 0,
    ports := [⟨none, some "lan0", none⟩, ⟨none, some "dsa", none⟩],
    enabled_port_mask := 3, cpu_port_mask := 0, dsa_port_mask := 0,
    phys_mii_mask := 0, rtable := [-1, -1, -1, -1], master_netdev := none,
    slave_mii_bus := false, ops := ⟨0, none, false, 0⟩, cd := none }

/-- The environment for the C8 witness: slave creation always fails with
`-ENOMEM`, everything else succeeds. -/
def c8env : dsa_env :=
  { findNetDevice := fun _ => none, devToNetDevice := fun _ => none,
    resolveTag := fun _ => none, registerNotifier := fun _ => 0,
    mdiobusAlloc := fun _ => true, mdiobusRegister := fun _ => 0,
    cpuDsaSetup := fun _ _ => 0,
    slaveCreate := fun _ _ _ => Except.error ENOMEM,
    ethtoolSetup := fun _ => 0 }

/-- Witness for `c8_apply_fault_asymmetry`: on `c8switch` under `c8env`
the user port's materialization fails, yet `dsa_ds_apply` succeeds. -/
theorem c8_apply_fault_asymmetry_witness :
    dsApplyPreOk c8env c8switch = true ∧
      ((dsa_ds_apply c8env (dsa_add_dst 0) c8switch).2 =
          (firstUplinkErr c8env c8switch
            (List.range c8switch.ports.length)).getD 0) ∧
      ((∀ i ∈ List.range c8switch.ports.length, uplinkAt c8switch i = true →
          c8env.cpuDsaSetup c8switch.index i = 0) →
        (dsa_ds_apply c8env (dsa_add_dst 0) c8switch).2 = 0) :=
  ⟨by decide, c8_apply_fault_asymmetry c8env (dsa_add_dst 0) c8switch (by decide)⟩

/-! ## Bit lemmas for the u32 masks -/

theorem testBit_BIT (i j : Nat) : (BIT i).testBit j = decide (i = j) := by
  unfold BIT
  by_cases h : i = j
  · subst h
    simp [Nat.testBit_two_pow_self]
  · simp [Nat.testBit_two_pow_of_ne h, h]

theorem testBit_setBit (m i j : Nat) :
    (m ||| BIT i).testBit j = (m.testBit j || decide (i = j)) := by
  rw [Nat.testBit_lor, testBit_BIT]

theorem BIT_lt {i : Nat} (hi : i < 32) : BIT i < 2 ^ 32 := by
  unfold BIT
  exact Nat.pow_lt_pow_right (by omega) hi

theorem setBit_lt {m i : Nat} (hm : m < 2 ^ 32) (hi : i < 32) :
    m ||| BIT i < 2 ^ 32 :=
  Nat.or_lt_two_pow hm (BIT_lt hi)

theorem bitHigh_false {m j : Nat} (hm : m < 2 ^ 32) (hj : 32 ≤ j) :
    m.testBit j = false :=
  Nat.testBit_lt_two_pow (lt_of_lt_of_le hm (Nat.pow_le_pow_right (by omega) hj))

theorem testBit_clearBit {m : Nat} (i j : Nat) (hi : i < 32) (hm : m < 2 ^ 32) :
    (clearBit m i).testBit j = (m.testBit j && !decide (i = j)) := by
  unfold clearBit u32not
  rw [Nat.testBit_land, Nat.testBit_xor, Nat.testBit_two_pow_sub_one, testBit_BIT]
  by_cases hj : j < 32
  · simp [hj]
  · have h1 : m.testBit j = false := bitHigh_false hm (Nat.le_of_not_lt hj)
    have h2 : ¬ i = j := by omega
    simp [hj, h1, h2]

theorem clearBit_lt {m : Nat} (i : Nat) (hi : i < 32) : clearBit m i < 2 ^ 32 := by
  unfold clearBit u32not
  apply lt_of_le_of_lt Nat.and_le_right
  apply Nat.xor_lt_two_pow
  · have h0 : (0:Nat) < 2 ^ 32 := Nat.pos_pow_of_pos 32 (by omega)
    omega
  · exact BIT_lt hi

/-! ## Class facts used by the apply/unapply mask characterizations -/

theorem cpuClassAt_of_invalid {ds : dsa_switch} {i : Nat}
    (hv : ¬ dsa_port_is_valid (ds.ports.getD i default) = true) :
    cpuClassAt ds i = false := by
  unfold cpuClassAt validAt
  rw [Bool.eq_false_iff.mpr hv]
  rfl

theorem userClassAt_of_invalid {ds : dsa_switch} {i : Nat}
    (hv : ¬ dsa_port_is_valid (ds.ports.getD i default) = true) :
    userClassAt ds i = false := by
  unfold userClassAt validAt
  rw [Bool.eq_false_iff.mpr hv]
  rfl

theorem cpuClassAt_of_dsa {ds : dsa_switch} {i : Nat}
    (hd : dsa_port_is_dsa (ds.ports.getD i default) = true) :
    cpuClassAt ds i = false := by
  unfold cpuClassAt
  rw [hd]
  simp

theorem userClassAt_of_dsa {ds : dsa_switch} {i : Nat}
    (hd : dsa_port_is_dsa (ds.ports.getD i default) = true) :
    userClassAt ds i = false := by
  unfold userClassAt
  rw [hd]
  simp

theorem cpuClassAt_of_user {ds : dsa_switch} {i : Nat}
    (hc : ¬ dsa_port_is_cpu (ds.ports.getD i default) = true) :
    cpuClassAt ds i = false := by
  unfold cpuClassAt
  rw [Bool.eq_false_iff.mpr hc]
  simp

theorem userClassAt_of_cpu {ds : dsa_switch} {i : Nat}
    (hc : dsa_port_is_cpu (ds.ports.getD i default) = true) :
    userClassAt ds i = false := by
  unfold userClassAt
  rw [hc]
  simp

theorem cpuClassAt_true {ds : dsa_switch} {i : Nat}
    (hv : dsa_port_is_valid (ds.ports.getD i default) = true)
    (hd : ¬ dsa_port_is_dsa (ds.ports.getD i default) = true)
    (hc : dsa_port_is_cpu (ds.ports.getD i default) = true) :
    cpuClassAt ds i = true := by
  unfold cpuClassAt validAt
  rw [hv, Bool.eq_false_iff.mpr hd, hc]
  rfl

theorem userClassAt_true {ds : dsa_switch} {i : Nat}
    (hv : dsa_port_is_valid (ds.ports.getD i default) = true)
    (hd : ¬ dsa_port_is_dsa (ds.ports.getD i default) = true)
    (hc : ¬ dsa_port_is_cpu (ds.ports.getD i default) = true) :
    userClassAt ds i = true := by
  unfold userClassAt validAt
  rw [hv, Bool.eq_false_iff.mpr hd, Bool.eq_false_iff.mpr hc]
  rfl

theorem validAt_lt_length {ds : dsa_switch} {i : Nat}
    (hv : dsa_port_is_valid (ds.ports.getD i default) = true) :
    i < ds.ports.length := by
  by_contra hge
  rw [List.getD_eq_default _ _ (Nat.le_of_not_lt hge)] at hv
  exact absurd hv (by decide)

/-- Restrict a membership-and-class condition along a cons whose head the
class rules out. -/
theorem mem_class_cons_iff {i j : Nat} {rest : List Nat} {C : Nat → Bool}
    (hCi : C i = false) :
    (j ∈ i :: rest ∧ C j = true) ↔ (j ∈ rest ∧ C j = true) := by
  constructor
  · rintro ⟨hj, hc⟩
    rcases List.mem_cons.mp hj with rfl | hj'
    · rw [hCi] at hc
      exact absurd hc (by decide)
    · exact ⟨hj', hc⟩
  · rintro ⟨hj, hc⟩
    exact ⟨List.mem_cons_of_mem _ hj, hc⟩

/-! ## Effect of the apply per-port loop (for claim C3) -/

theorem testBit_setBit_iff {m i j : Nat} :
    ((m ||| BIT i).testBit j = true ↔ (m.testBit j = true ∨ i = j)) := by
  rw [testBit_setBit]
  by_cases h : i = j
  · simp [h]
  · simp [h]

theorem testBit_clearBit_iff {m i j : Nat} (hi : i < 32) (hm : m < 2 ^ 32) :
    ((clearBit m i).testBit j = true ↔ (m.testBit j = true ∧ ¬ i = j)) := by
  rw [testBit_clearBit i j hi hm]
  by_cases h : i = j
  · simp [h]
  · simp [h]

/-- What a successful run of the per-port apply loop does: it preserves the
port signatures, port count, routing table and enabled mask; it sets
exactly the CPU-port-mask bits of the processed valid Cpu-class ports; and
it overwrites the netdev handle of every processed valid user-class port
with the materialization result, leaving other ports' netdevs alone. -/
theorem apply_ports_spec (env : dsa_env) :
    ∀ (idxs : List Nat) (ds : dsa_switch),
      (∀ i ∈ idxs, i < 32) → ds.cpu_port_mask < 2 ^ 32 →
      (dsa_ds_apply_ports env ds idxs).2 = 0 →
      portSigEq (dsa_ds_apply_ports env ds idxs).1 ds ∧
      (dsa_ds_apply_ports env ds idxs).1.ports.length = ds.ports.length ∧
      (dsa_ds_apply_ports env ds idxs).1.rtable = ds.rtable ∧
      (dsa_ds_apply_ports env ds idxs).1.enabled_port_mask = ds.enabled_port_mask ∧
      (dsa_ds_apply_ports env ds idxs).1.cpu_port_mask < 2 ^ 32 ∧
      (∀ j, (dsa_ds_apply_ports env ds idxs).1.cpu_port_mask.testBit j = true ↔
        (ds.cpu_port_mask.testBit j = true ∨ (j ∈ idxs ∧ cpuClassAt ds j = true))) ∧
      (∀ j,
        ((j ∈ idxs ∧ userClassAt ds j = true) →
          ((dsa_ds_apply_ports env ds idxs).1.ports.getD j default).netdev =
            slaveRes env ds j) ∧
        (¬ (j ∈ idxs ∧ userClassAt ds j = true) →
          ((dsa_ds_apply_ports env ds idxs).1.ports.getD j default).netdev =
            (ds.ports.getD j default).netdev)) := by
  intro idxs
  induction idxs with
  | nil =>
    intro ds hi hw hs
    refine ⟨portSigEq_refl ds, rfl, rfl, rfl, hw, ?_, ?_⟩
    · intro j
      simp [apply_ports_nil]
    · intro j
      simp [apply_ports_nil]
  | cons i rest ih =>
    intro ds hi hw hs
    have hi0 : i < 32 := hi i (by simp)
    have hi' : ∀ a ∈ rest, a < 32 := fun a ha => hi a (List.mem_cons_of_mem _ ha)
    by_cases hv : dsa_port_is_valid (ds.ports.getD i default) = true
    · by_cases hd : dsa_port_is_dsa (ds.ports.getD i default) = true
      · rw [apply_ports_cons_dsa rest hv hd] at hs ⊢
        by_cases hz : env.cpuDsaSetup ds.index i = 0
        · rw [if_neg (not_not_intro hz)] at hs ⊢
          obtain ⟨h1, h2, h3, h4, h5, h6, h7⟩ := ih ds hi' hw hs
          refine ⟨h1, h2, h3, h4, h5, ?_, ?_⟩
          · intro j
            rw [h6 j, mem_class_cons_iff (cpuClassAt_of_dsa hd)]
          · intro j
            rw [mem_class_cons_iff (userClassAt_of_dsa hd)]
            exact h7 j
        · rw [if_pos hz] at hs
          exact absurd hs hz
      · by_cases hc : dsa_port_is_cpu (ds.ports.getD i default) = true
        · by_cases hz : env.cpuDsaSetup ds.index i = 0
          · rw [apply_ports_cons_cpu_ok rest hv hd hc hz] at hs ⊢
            have hsig0 : portSigEq
                { ds with cpu_port_mask := ds.cpu_port_mask ||| BIT i } ds :=
              portSigEq_of_ports_eq rfl rfl
            have hct : cpuClassAt ds i = true := cpuClassAt_true hv hd hc
            obtain ⟨h1, h2, h3, h4, h5, h6, h7⟩ :=
              ih { ds with cpu_port_mask := ds.cpu_port_mask ||| BIT i } hi'
                (setBit_lt hw hi0) hs
            refine ⟨portSigEq_trans h1 hsig0, h2, h3, h4, h5, ?_, ?_⟩
            · intro j
              rw [h6 j]
              have hproj : ({ ds with cpu_port_mask := ds.cpu_port_mask ||| BIT i } :
                  dsa_switch).cpu_port_mask = ds.cpu_port_mask ||| BIT i := rfl
              rw [hproj, testBit_setBit_iff, cpuClassAt_congr hsig0 j, List.mem_cons]
              constructor
              · rintro ((hb | hji) | ⟨hjr, hcj⟩)
                · exact Or.inl hb
                · refine Or.inr ⟨Or.inl hji.symm, ?_⟩
                  rw [← hji]
                  exact hct
                · exact Or.inr ⟨Or.inr hjr, hcj⟩
              · rintro (hb | ⟨rfl | hjr, hcj⟩)
                · exact Or.inl (Or.inl hb)
                · exact Or.inl (Or.inr rfl)
                · exact Or.inr ⟨hjr, hcj⟩
            · intro j
              have hcl := userClassAt_congr hsig0
              have hsr := slaveRes_congr env hsig0
              have hgd : ∀ k, (({ ds with cpu_port_mask := ds.cpu_port_mask ||| BIT i } :
                  dsa_switch).ports.getD k default) = ds.ports.getD k default := fun k => rfl
              constructor
              · rintro ⟨hj, hcj⟩
                rcases List.mem_cons.mp hj with rfl | hj'
                · exact absurd hcj (by rw [userClassAt_of_cpu hc]; decide)
                · have hres := (h7 j).1 ⟨hj', by rw [hcl j]; exact hcj⟩
                  rw [hsr j] at hres
                  exact hres
              · intro hn
                rw [← hgd j]
                exact (h7 j).2 (fun hh =>
                  hn ⟨List.mem_cons_of_mem _ hh.1, by rw [← hcl j]; exact hh.2⟩)
          · rw [apply_ports_cons_cpu_fail rest hv hd hc hz] at hs
            exact absurd hs hz
        · rw [apply_ports_cons_user rest hv hd hc] at hs ⊢
          have hsig0 : portSigEq
              { ds with ports := ds.ports.set i { (ds.ports.getD i default) with netdev := slaveRes env ds i } } ds :=
            portSigEq_set_netdev ds i (slaveRes env ds i)
          have hlen : i < ds.ports.length := validAt_lt_length hv
          have huser : userClassAt ds i = true := userClassAt_true hv hd hc
          obtain ⟨h1, h2, h3, h4, h5, h6, h7⟩ :=
            ih { ds with ports := ds.ports.set i { (ds.ports.getD i default) with netdev := slaveRes env ds i } }
              hi' hw hs
          have hlen2 : (({ ds with ports := ds.ports.set i { (ds.ports.getD i default) with netdev := slaveRes env ds i } } :
              dsa_switch).ports.length) = ds.ports.length := by
            simp
          refine ⟨portSigEq_trans h1 hsig0, by rw [h2, hlen2], h3, h4, h5, ?_, ?_⟩
          · intro j
            rw [h6 j, cpuClassAt_congr hsig0 j,
              mem_class_cons_iff (cpuClassAt_of_user hc)]
          · intro j
            have hcl := userClassAt_congr hsig0
            have hsr := slaveRes_congr env hsig0
            constructor
            · rintro ⟨hj, hcj⟩
              rcases List.mem_cons.mp hj with rfl | hj'
              · by_cases hm : j ∈ rest
                · have hres := (h7 j).1 ⟨hm, by rw [hcl j]; exact hcj⟩
                  rw [hsr j] at hres
                  exact hres
                · have := (h7 j).2 (fun hh => hm hh.1)
                  rw [this]
                  show ((ds.ports.set j _).getD j default).netdev = _
                  rw [getD_set_self ds.ports j _ default hlen]
              · by_cases hji : j = i
                · subst hji
                  by_cases hm : j ∈ rest
                  · have hres := (h7 j).1 ⟨hm, by rw [hcl j]; exact hcj⟩
                    rw [hsr j] at hres
                    exact hres
                  · have := (h7 j).2 (fun hh => hm hh.1)
                    rw [this]
                    show ((ds.ports.set j _).getD j default).netdev = _
                    rw [getD_set_self ds.ports j _ default hlen]
                · by_cases hm : j ∈ rest
                  · have hres := (h7 j).1 ⟨hm, by rw [hcl j]; exact hcj⟩
                    rw [hsr j] at hres
                    exact hres
                  · exact absurd hj' hm
            · intro hn
              have hji : ¬ j = i := fun hh => hn (by
                subst hh
                exact ⟨List.mem_cons_self j rest, huser⟩)
              have hstep := (h7 j).2 (fun hh =>
                hn ⟨List.mem_cons_of_mem _ hh.1, by rw [← hcl j]; exact hh.2⟩)
              rw [hstep]
              show ((ds.ports.set i _).getD j default).netdev = _
              rw [getD_set_ne ds.ports _ default (fun hh => hji hh.symm)]
    · rw [apply_ports_cons_invalid rest hv] at hs ⊢
      obtain ⟨h1, h2, h3, h4, h5, h6, h7⟩ := ih ds hi' hw hs
      refine ⟨h1, h2, h3, h4, h5, ?_, ?_⟩
      · intro j
        rw [h6 j, mem_class_cons_iff (cpuClassAt_of_invalid hv)]
      · intro j
        rw [mem_class_cons_iff (userClassAt_of_invalid hv)]
        exact h7 j

/-! ## Effect of the unapply per-port loop (for claim C3) -/

theorem portSigEq_ports_set_netdev {ds' : dsa_switch} (ds : dsa_switch) (i : Nat)
    (nd : Option Nat) (hidx : ds'.index = ds.index)
    (hp : ds'.ports = ds.ports.set i { (ds.ports.getD i default) with netdev := nd }) :
    portSigEq ds' ds := by
  refine ⟨hidx, ?_⟩
  intro k
  rw [hp]
  by_cases hlen : i < ds.ports.length
  · by_cases hji : k = i
    · subst hji
      rw [getD_set_self ds.ports k _ default hlen]
      exact ⟨rfl, rfl⟩
    · rw [getD_set_ne ds.ports _ default (fun hh => hji hh.symm)]
      exact ⟨rfl, rfl⟩
  · rw [set_of_length_le ds.ports i _ (Nat.le_of_not_lt hlen)]
    exact ⟨rfl, rfl⟩

theorem unapply_ports_nil (env : dsa_env) (ds : dsa_switch) :
    dsa_ds_unapply_ports env ds [] = ds := rfl

theorem unapply_ports_cons_invalid {env : dsa_env} {ds : dsa_switch} {i : Nat}
    (rest : List Nat) (h : ¬ dsa_port_is_valid (ds.ports.getD i default) = true) :
    dsa_ds_unapply_ports env ds (i :: rest) = dsa_ds_unapply_ports env ds rest := by
  simp only [dsa_ds_unapply_ports]
  rw [if_pos h]

theorem unapply_ports_cons_dsa {env : dsa_env} {ds : dsa_switch} {i : Nat}
    (rest : List Nat) (hv : dsa_port_is_valid (ds.ports.getD i default) = true)
    (hd : dsa_port_is_dsa (ds.ports.getD i default) = true) :
    dsa_ds_unapply_ports env ds (i :: rest) = dsa_ds_unapply_ports env ds rest := by
  simp only [dsa_ds_unapply_ports]
  rw [if_neg (not_not_intro hv), if_pos hd]
  rfl

theorem unapply_ports_cons_cpu {env : dsa_env} {ds : dsa_switch} {i : Nat}
    (rest : List Nat) (hv : dsa_port_is_valid (ds.ports.getD i default) = true)
    (hd : ¬ dsa_port_is_dsa (ds.ports.getD i default) = true)
    (hc : dsa_port_is_cpu (ds.ports.getD i default) = true) :
    dsa_ds_unapply_ports env ds (i :: rest) =
      dsa_ds_unapply_ports env
        { ds with cpu_port_mask := clearBit ds.cpu_port_mask i } rest := by
  simp only [dsa_ds_unapply_ports]
  rw [if_neg (not_not_intro hv), if_neg hd, if_pos hc]
  rfl

theorem unapply_ports_cons_user_some {env : dsa_env} {ds : dsa_switch} {i : Nat}
    {nd : Nat} (rest : List Nat)
    (hv : dsa_port_is_valid (ds.ports.getD i default) = true)
    (hd : ¬ dsa_port_is_dsa (ds.ports.getD i default) = true)
    (hc : ¬ dsa_port_is_cpu (ds.ports.getD i default) = true)
    (hnd : (ds.ports.getD i default).netdev = some nd) :
    dsa_ds_unapply_ports env ds (i :: rest) =
      dsa_ds_unapply_ports env
        { ds with ports := ds.ports.set i { (ds.ports.getD i default) with netdev := none },
                  enabled_port_mask := clearBit ds.enabled_port_mask i } rest := by
  simp only [dsa_ds_unapply_ports]
  rw [if_neg (not_not_intro hv), if_neg hd, if_neg hc]
  unfold dsa_user_port_unapply
  rw [hnd]

theorem unapply_ports_cons_user_none {env : dsa_env} {ds : dsa_switch} {i : Nat}
    (rest : List Nat)
    (hv : dsa_port_is_valid (ds.ports.getD i default) = true)
    (hd : ¬ dsa_port_is_dsa (ds.ports.getD i default) = true)
    (hc : ¬ dsa_port_is_cpu (ds.ports.getD i default) = true)
    (hnd : (ds.ports.getD i default).netdev = none) :
    dsa_ds_unapply_ports env ds (i :: rest) = dsa_ds_unapply_ports env ds rest := by
  simp only [dsa_ds_unapply_ports]
  rw [if_neg (not_not_intro hv), if_neg hd, if_neg hc]
  unfold dsa_user_port_unapply
  rw [hnd]

/-- What the per-port unapply loop does: it preserves the port signatures,
port count and routing table, clears exactly the CPU-port-mask bits of the
processed valid Cpu-class ports, and clears exactly the enabled-mask bits
of the processed valid user-class ports that held a live netdev. -/
theorem unapply_ports_spec (env : dsa_env) :
    ∀ (idxs : List Nat) (ds : dsa_switch),
      (∀ i ∈ idxs, i < 32) → ds.cpu_port_mask < 2 ^ 32 →
      ds.enabled_port_mask < 2 ^ 32 →
      portSigEq (dsa_ds_unapply_ports env ds idxs) ds ∧
      (dsa_ds_unapply_ports env ds idxs).ports.length = ds.ports.length ∧
      (dsa_ds_unapply_ports env ds idxs).rtable = ds.rtable ∧
      (∀ j, ((dsa_ds_unapply_ports env ds idxs).cpu_port_mask.testBit j = true ↔
        (ds.cpu_port_mask.testBit j = true ∧ ¬ (j ∈ idxs ∧ cpuClassAt ds j = true)))) ∧
      (∀ j, ((dsa_ds_unapply_ports env ds idxs).enabled_port_mask.testBit j = true ↔
        (ds.enabled_port_mask.testBit j = true ∧
          ¬ (j ∈ idxs ∧ userClassAt ds j = true ∧
              ((ds.ports.getD j default).netdev).isSome = true)))) := by
  intro idxs
  induction idxs with
  | nil =>
    intro ds hi hwc hwe
    refine ⟨portSigEq_refl ds, rfl, rfl, ?_, ?_⟩
    · intro j
      simp [unapply_ports_nil]
    · intro j
      simp [unapply_ports_nil]
  | cons i rest ih =>
    intro ds hi hwc hwe
    have hi0 : i < 32 := hi i (by simp)
    have hi' : ∀ a ∈ rest, a < 32 := fun a ha => hi a (List.mem_cons_of_mem _ ha)
    by_cases hv : dsa_port_is_valid (ds.ports.getD i default) = true
    · by_cases hd : dsa_port_is_dsa (ds.ports.getD i default) = true
      · rw [unapply_ports_cons_dsa rest hv hd]
        obtain ⟨h1, h2, h3, h4, h5⟩ := ih ds hi' hwc hwe
        refine ⟨h1, h2, h3, ?_, ?_⟩
        · intro j
          rw [h4 j]
          constructor
          · rintro ⟨hb, hn⟩
            refine ⟨hb, ?_⟩
            rintro ⟨hj, hcj⟩
            rcases List.mem_cons.mp hj with rfl | hj'
            · rw [cpuClassAt_of_dsa hd] at hcj
              exact absurd hcj (by decide)
            · exact hn ⟨hj', hcj⟩
          · rintro ⟨hb, hn⟩
            exact ⟨hb, fun hh => hn ⟨List.mem_cons_of_mem _ hh.1, hh.2⟩⟩
        · intro j
          rw [h5 j]
          constructor
          · rintro ⟨hb, hn⟩
            refine ⟨hb, ?_⟩
            rintro ⟨hj, hcj, hnd⟩
            rcases List.mem_cons.mp hj with rfl | hj'
            · rw [userClassAt_of_dsa hd] at hcj
              exact absurd hcj (by decide)
            · exact hn ⟨hj', hcj, hnd⟩
          · rintro ⟨hb, hn⟩
            exact ⟨hb, fun hh => hn ⟨List.mem_cons_of_mem _ hh.1, hh.2⟩⟩
      · by_cases hc : dsa_port_is_cpu (ds.ports.getD i default) = true
        · rw [unapply_ports_cons_cpu rest hv hd hc]
          have hct : cpuClassAt ds i = true := cpuClassAt_true hv hd hc
          have hsig0 : portSigEq
              { ds with cpu_port_mask := clearBit ds.cpu_port_mask i } ds :=
            portSigEq_of_ports_eq rfl rfl
          obtain ⟨h1, h2, h3, h4, h5⟩ :=
            ih { ds with cpu_port_mask := clearBit ds.cpu_port_mask i } hi'
              (clearBit_lt i hi0) hwe
          refine ⟨portSigEq_trans h1 hsig0, h2, h3, ?_, ?_⟩
          · intro j
            rw [h4 j]
            have hproj : ({ ds with cpu_port_mask := clearBit ds.cpu_port_mask i } :
                dsa_switch).cpu_port_mask = clearBit ds.cpu_port_mask i := rfl
            rw [hproj, testBit_clearBit_iff hi0 hwc, cpuClassAt_congr hsig0 j]
            constructor
            · rintro ⟨⟨hb, hji⟩, hn⟩
              refine ⟨hb, ?_⟩
              rintro ⟨hj, hcj⟩
              rcases List.mem_cons.mp hj with rfl | hj'
              · exact hji rfl
              · exact hn ⟨hj', hcj⟩
            · rintro ⟨hb, hn⟩
              have hji : ¬ i = j := by
                intro hh
                subst hh
                exact hn ⟨List.mem_cons_self i rest, hct⟩
              exact ⟨⟨hb, hji⟩, fun hh => hn ⟨List.mem_cons_of_mem _ hh.1, hh.2⟩⟩
          · intro j
            rw [h5 j, userClassAt_congr hsig0 j]
            have hgd : ∀ k, (({ ds with cpu_port_mask := clearBit ds.cpu_port_mask i } :
                dsa_switch).ports.getD k default) = ds.ports.getD k default := fun k => rfl
            rw [hgd j]
            constructor
            · rintro ⟨hb, hn⟩
              refine ⟨hb, ?_⟩
              rintro ⟨hj, hcj, hnd⟩
              rcases List.mem_cons.mp hj with rfl | hj'
              · rw [userClassAt_of_cpu hc] at hcj
                exact absurd hcj (by decide)
              · exact hn ⟨hj', hcj, hnd⟩
            · rintro ⟨hb, hn⟩
              exact ⟨hb, fun hh => hn ⟨List.mem_cons_of_mem _ hh.1, hh.2⟩⟩
        · have huser : userClassAt ds i = true := userClassAt_true hv hd hc
          cases hnd : (ds.ports.getD i default).netdev with
          | none =>
            rw [unapply_ports_cons_user_none rest hv hd hc hnd]
            obtain ⟨h1, h2, h3, h4, h5⟩ := ih ds hi' hwc hwe
            refine ⟨h1, h2, h3, ?_, ?_⟩
            · intro j
              rw [h4 j]
              constructor
              · rintro ⟨hb, hn⟩
                refine ⟨hb, ?_⟩
                rintro ⟨hj, hcj⟩
                rcases List.mem_cons.mp hj with rfl | hj'
                · rw [cpuClassAt_of_user hc] at hcj
                  exact absurd hcj (by decide)
                · exact hn ⟨hj', hcj⟩
              · rintro ⟨hb, hn⟩
                exact ⟨hb, fun hh => hn ⟨List.mem_cons_of_mem _ hh.1, hh.2⟩⟩
            · intro j
              rw [h5 j]
              constructor
              · rintro ⟨hb, hn⟩
                refine ⟨hb, ?_⟩
                rintro ⟨hj, hcj, hjnd⟩
                rcases List.mem_cons.mp hj with rfl | hj'
                · rw [hnd] at hjnd
                  exact absurd hjnd (by decide)
                · exact hn ⟨hj', hcj, hjnd⟩
              · rintro ⟨hb, hn⟩
                exact ⟨hb, fun hh => hn ⟨List.mem_cons_of_mem _ hh.1, hh.2⟩⟩
          | some nd =>
            rw [unapply_ports_cons_user_some rest hv hd hc hnd]
            have hsig0 : portSigEq
                { ds with ports := ds.ports.set i { (ds.ports.getD i default) with netdev := none }, enabled_port_mask := clearBit ds.enabled_port_mask i } ds :=
              portSigEq_ports_set_netdev ds i none rfl rfl
            have hlen : i < ds.ports.length := validAt_lt_length hv
            obtain ⟨h1, h2, h3, h4, h5⟩ :=
              ih { ds with ports := ds.ports.set i { (ds.ports.getD i default) with netdev := none }, enabled_port_mask := clearBit ds.enabled_port_mask i } hi'
                hwc (clearBit_lt i hi0)
            have hlen2 : (({ ds with ports := ds.ports.set i { (ds.ports.getD i default) with netdev := none }, enabled_port_mask := clearBit ds.enabled_port_mask i } :
                dsa_switch).ports.length) = ds.ports.length := by
              simp
            have hgd : ∀ k, ¬ k = i →
                (({ ds with ports := ds.ports.set i { (ds.ports.getD i default) with netdev := none }, enabled_port_mask := clearBit ds.enabled_port_mask i } :
                  dsa_switch).ports.getD k default) = ds.ports.getD k default := by
              intro k hk
              show (ds.ports.set i _).getD k default = _
              rw [getD_set_ne ds.ports _ default (fun hh => hk hh.symm)]
            have hgdi :
                (({ ds with ports := ds.ports.set i { (ds.ports.getD i default) with netdev := none }, enabled_port_mask := clearBit ds.enabled_port_mask i } :
                  dsa_switch).ports.getD i default).netdev = none := by
              show ((ds.ports.set i _).getD i default).netdev = _
              rw [getD_set_self ds.ports i _ default hlen]
            refine ⟨portSigEq_trans h1 hsig0, by rw [h2, hlen2], h3, ?_, ?_⟩
            · intro j
              rw [h4 j, cpuClassAt_congr hsig0 j]
              constructor
              · rintro ⟨hb, hn⟩
                refine ⟨hb, ?_⟩
                rintro ⟨hj, hcj⟩
                rcases List.mem_cons.mp hj with rfl | hj'
                · rw [cpuClassAt_of_user hc] at hcj
                  exact absurd hcj (by decide)
                · exact hn ⟨hj', hcj⟩
              · rintro ⟨hb, hn⟩
                exact ⟨hb, fun hh => hn ⟨List.mem_cons_of_mem _ hh.1, hh.2⟩⟩
            · intro j
              rw [h5 j, userClassAt_congr hsig0 j]
              have hproj : ({ ds with ports := ds.ports.set i { (ds.ports.getD i default) with netdev := none }, enabled_port_mask := clearBit ds.enabled_port_mask i } :
                  dsa_switch).enabled_port_mask = clearBit ds.enabled_port_mask i := rfl
              rw [hproj, testBit_clearBit_iff hi0 hwe]
              by_cases hji : j = i
              · subst hji
                rw [hgdi]
                constructor
                · rintro ⟨⟨hb, hii⟩, hn⟩
                  exact absurd rfl hii
                · rintro ⟨hb, hn⟩
                  exact absurd ⟨List.mem_cons_self j rest, huser, by rw [hnd]; rfl⟩ hn
              · rw [hgd j hji]
                constructor
                · rintro ⟨⟨hb, hii⟩, hn⟩
                  refine ⟨hb, ?_⟩
                  rintro ⟨hj, hcj, hjnd⟩
                  rcases List.mem_cons.mp hj with rfl | hj'
                  · exact hji rfl
                  · exact hn ⟨hj', hcj, hjnd⟩
                · rintro ⟨hb, hn⟩
                  refine ⟨⟨hb, fun hh => hji hh.symm⟩, ?_⟩
                  rintro ⟨hj, hcj, hjnd⟩
                  exact hn ⟨List.mem_cons_of_mem _ hj, hcj, hjnd⟩
    · rw [unapply_ports_cons_invalid rest hv]
      obtain ⟨h1, h2, h3, h4, h5⟩ := ih ds hi' hwc hwe
      refine ⟨h1, h2, h3, ?_, ?_⟩
      · intro j
        rw [h4 j]
        constructor
        · rintro ⟨hb, hn⟩
          refine ⟨hb, ?_⟩
          rintro ⟨hj, hcj⟩
          rcases List.mem_cons.mp hj with rfl | hj'
          · rw [cpuClassAt_of_invalid hv] at hcj
            exact absurd hcj (by decide)
          · exact hn ⟨hj', hcj⟩
        · rintro ⟨hb, hn⟩
          exact ⟨hb, fun hh => hn ⟨List.mem_cons_of_mem _ hh.1, hh.2⟩⟩
      · intro j
        rw [h5 j]
        constructor
        · rintro ⟨hb, hn⟩
          refine ⟨hb, ?_⟩
          rintro ⟨hj, hcj, hjnd⟩
          rcases List.mem_cons.mp hj with rfl | hj'
          · rw [userClassAt_of_invalid hv] at hcj
            exact absurd hcj (by decide)
          · exact hn ⟨hj', hcj, hjnd⟩
        · rintro ⟨hb, hn⟩
          exact ⟨hb, fun hh => hn ⟨List.mem_cons_of_mem _ hh.1, hh.2⟩⟩

/-! ## `dsa_ds_apply` as its per-port loop (for claims C3) -/

theorem dsa_ds_apply_def (env : dsa_env) (dst : dsa_switch_tree) (ds : dsa_switch) :
    dsa_ds_apply env dst ds =
      (if ds.ops.setup < 0 then
        ({ ds with phys_mii_mask := ds.enabled_port_mask }, ds.ops.setup)
       else if env.registerNotifier ds.index ≠ 0 then
        ({ ds with phys_mii_mask := ds.enabled_port_mask }, env.registerNotifier ds.index)
       else
        match ds.ops.set_addr with
        | some e =>
          if e < 0 then ({ ds with phys_mii_mask := ds.enabled_port_mask }, e)
          else dsa_ds_apply_mdio env { ds with phys_mii_mask := ds.enabled_port_mask }
        | none => dsa_ds_apply_mdio env { ds with phys_mii_mask := ds.enabled_port_mask }) :=
  rfl

theorem dsa_ds_apply_mdio_def (env : dsa_env) (ds : dsa_switch) :
    dsa_ds_apply_mdio env ds =
      (if ¬ ds.slave_mii_bus ∧ ds.ops.phy_read then
        (if ¬ env.mdiobusAlloc ds.index then (ds, ENOMEM)
         else if env.mdiobusRegister ds.index < 0 then
          ({ ds with slave_mii_bus := true }, env.mdiobusRegister ds.index)
         else dsa_ds_apply_ports env { ds with slave_mii_bus := true }
          (List.range ds.ports.length))
       else dsa_ds_apply_ports env ds (List.range ds.ports.length)) :=
  rfl

/-- A successful `dsa_ds_apply` is its per-port loop run on the input
switch with `phys_mii_mask` reseeded and possibly the MDIO-bus flag set. -/
theorem dsa_ds_apply_of_ok (env : dsa_env) (dst : dsa_switch_tree) (ds : dsa_switch)
    (h : (dsa_ds_apply env dst ds).2 = 0) :
    ∃ dsX : dsa_switch,
      (dsX = { ds with phys_mii_mask := ds.enabled_port_mask } ∨
       dsX = { ds with phys_mii_mask := ds.enabled_port_mask, slave_mii_bus := true }) ∧
      dsa_ds_apply env dst ds =
        dsa_ds_apply_ports env dsX (List.range ds.ports.length) := by
  rw [dsa_ds_apply_def] at h ⊢
  by_cases h1 : ds.ops.setup < 0
  · rw [if_pos h1] at h
    have h' : ds.ops.setup = 0 := h
    rw [h'] at h1
    exact absurd h1 (by decide)
  · rw [if_neg h1] at h ⊢
    by_cases h2 : env.registerNotifier ds.index ≠ 0
    · rw [if_pos h2] at h
      have h' : env.registerNotifier ds.index = 0 := h
      exact absurd h' h2
    · rw [if_neg h2] at h ⊢
      have hmdio : (dsa_ds_apply_mdio env { ds with phys_mii_mask := ds.enabled_port_mask }).2 = 0 →
          ∃ dsX : dsa_switch,
            (dsX = { ds with phys_mii_mask := ds.enabled_port_mask } ∨
             dsX = { ds with phys_mii_mask := ds.enabled_port_mask, slave_mii_bus := true }) ∧
            dsa_ds_apply_mdio env { ds with phys_mii_mask := ds.enabled_port_mask } =
              dsa_ds_apply_ports env dsX (List.range ds.ports.length) := by
        intro hm
        rw [dsa_ds_apply_mdio_def] at hm ⊢
        by_cases hc : ¬ ({ ds with phys_mii_mask := ds.enabled_port_mask } :
            dsa_switch).slave_mii_bus ∧
            ({ ds with phys_mii_mask := ds.enabled_port_mask } : dsa_switch).ops.phy_read
        · rw [if_pos hc] at hm ⊢
          by_cases ha : ¬ env.mdiobusAlloc
              ({ ds with phys_mii_mask := ds.enabled_port_mask } : dsa_switch).index
          · rw [if_pos ha] at hm
            have hm' : ENOMEM = 0 := hm
            exact absurd hm' (by unfold ENOMEM; decide)
          · rw [if_neg ha] at hm ⊢
            by_cases hr : env.mdiobusRegister
                ({ ds with phys_mii_mask := ds.enabled_port_mask } : dsa_switch).index < 0
            · rw [if_pos hr] at hm
              have hm' : env.mdiobusRegister
                  ({ ds with phys_mii_mask := ds.enabled_port_mask } : dsa_switch).index = 0 := hm
              rw [hm'] at hr
              exact absurd hr (by decide)
            · rw [if_neg hr] at hm ⊢
              exact ⟨_, Or.inr rfl, rfl⟩
        · rw [if_neg hc] at hm ⊢
          exact ⟨_, Or.inl rfl, rfl⟩
      cases hsa : ds.ops.set_addr with
      | none =>
        simp only [hsa] at h ⊢
        exact hmdio h
      | some e =>
        simp only [hsa] at h ⊢
        by_cases he : e < 0
        · rw [if_pos he] at h
          have h' : e = 0 := h
          rw [h'] at he
          exact absurd he (by decide)
        · rw [if_neg he] at h ⊢
          exact hmdio h

/-- Per-switch effect of a successful `dsa_ds_apply`, relative to the
input switch. -/
theorem dsa_ds_apply_spec (env : dsa_env) (dst : dsa_switch_tree) (ds : dsa_switch)
    (hlen32 : ds.ports.length ≤ 32) (hw : ds.cpu_port_mask < 2 ^ 32)
    (hs : (dsa_ds_apply env dst ds).2 = 0) :
    portSigEq (dsa_ds_apply env dst ds).1 ds ∧
    (dsa_ds_apply env dst ds).1.ports.length = ds.ports.length ∧
    (dsa_ds_apply env dst ds).1.rtable = ds.rtable ∧
    (dsa_ds_apply env dst ds).1.enabled_port_mask = ds.enabled_port_mask ∧
    (dsa_ds_apply env dst ds).1.cpu_port_mask < 2 ^ 32 ∧
    (∀ j, ((dsa_ds_apply env dst ds).1.cpu_port_mask.testBit j = true ↔
      (ds.cpu_port_mask.testBit j = true ∨
        (j ∈ List.range ds.ports.length ∧ cpuClassAt ds j = true)))) ∧
    (∀ j,
      ((j ∈ List.range ds.ports.length ∧ userClassAt ds j = true) →
        ((dsa_ds_apply env dst ds).1.ports.getD j default).netdev = slaveRes env ds j) ∧
      (¬ (j ∈ List.range ds.ports.length ∧ userClassAt ds j = true) →
        ((dsa_ds_apply env dst ds).1.ports.getD j default).netdev =
          (ds.ports.getD j default).netdev)) := by
  obtain ⟨dsX, hdsX, heq⟩ := dsa_ds_apply_of_ok env dst ds hs
  rw [heq] at hs ⊢
  have hi : ∀ i ∈ List.range ds.ports.length, i < 32 := by
    intro i hi
    have := List.mem_range.mp hi
    omega
  rcases hdsX with rfl | rfl
  · exact apply_ports_spec env (List.range ds.ports.length) _ hi hw hs
  · exact apply_ports_spec env (List.range ds.ports.length) _ hi hw hs

/-! ## Step equations and slot characterization of the tree-level loops -/

theorem dst_apply_go_nil (env : dsa_env) (dst : dsa_switch_tree) :
    dsa_dst_apply_go env dst [] = (dst, 0) := rfl

theorem dst_apply_go_cons_none {env : dsa_env} {dst : dsa_switch_tree} {i : Nat}
    (rest : List Nat) (h : dst.ds.getD i none = none) :
    dsa_dst_apply_go env dst (i :: rest) = dsa_dst_apply_go env dst rest := by
  simp only [dsa_dst_apply_go, h]

theorem dst_apply_go_cons_ok {env : dsa_env} {dst : dsa_switch_tree} {i : Nat}
    {ds : dsa_switch} (rest : List Nat) (h : dst.ds.getD i none = some ds)
    (hz : (dsa_ds_apply env dst ds).2 = 0) :
    dsa_dst_apply_go env dst (i :: rest) =
      dsa_dst_apply_go env
        { dst with ds := dst.ds.set i (some (dsa_ds_apply env dst ds).1) } rest := by
  simp only [dsa_dst_apply_go, h]
  rw [if_neg (not_not_intro hz)]

theorem dst_apply_go_cons_fail {env : dsa_env} {dst : dsa_switch_tree} {i : Nat}
    {ds : dsa_switch} (rest : List Nat) (h : dst.ds.getD i none = some ds)
    (hz : (dsa_ds_apply env dst ds).2 ≠ 0) :
    dsa_dst_apply_go env dst (i :: rest) =
      ({ dst with ds := dst.ds.set i (some (dsa_ds_apply env dst ds).1) },
        (dsa_ds_apply env dst ds).2) := by
  simp only [dsa_dst_apply_go, h]
  rw [if_pos hz]

theorem dst_unapply_go_nil (env : dsa_env) (dst : dsa_switch_tree) :
    dsa_dst_unapply_go env dst [] = dst := rfl

theorem dst_unapply_go_cons_none {env : dsa_env} {dst : dsa_switch_tree} {i : Nat}
    (rest : List Nat) (h : dst.ds.getD i none = none) :
    dsa_dst_unapply_go env dst (i :: rest) = dsa_dst_unapply_go env dst rest := by
  simp only [dsa_dst_unapply_go, h]

theorem dst_unapply_go_cons_some {env : dsa_env} {dst : dsa_switch_tree} {i : Nat}
    {ds : dsa_switch} (rest : List Nat) (h : dst.ds.getD i none = some ds) :
    dsa_dst_unapply_go env dst (i :: rest) =
      dsa_dst_unapply_go env
        { dst with ds := dst.ds.set i (some (dsa_ds_unapply env dst ds)) } rest := by
  simp only [dsa_dst_unapply_go, h]

theorem dsa_ds_apply_dst_irrel (env : dsa_env) (d1 d2 : dsa_switch_tree)
    (ds : dsa_switch) : dsa_ds_apply env d1 ds = dsa_ds_apply env d2 ds := rfl

theorem dsa_ds_unapply_dst_irrel (env : dsa_env) (d1 d2 : dsa_switch_tree)
    (ds : dsa_switch) : dsa_ds_unapply env d1 ds = dsa_ds_unapply env d2 ds := rfl

/-- Slot-wise characterization of the member loop of `dsa_dst_apply`: on
success every occupied processed slot holds the applied switch (each
per-switch apply having succeeded), all other slots and all tree fields
are untouched. -/
theorem dst_apply_go_spec (env : dsa_env) :
    ∀ (idxs : List Nat) (dst : dsa_switch_tree), idxs.Nodup →
      ((dsa_dst_apply_go env dst idxs).1 =
        { dst with ds := (dsa_dst_apply_go env dst idxs).1.ds }) ∧
      ((dsa_dst_apply_go env dst idxs).2 = 0 →
        (∀ i,
          (i ∈ idxs → (dsa_dst_apply_go env dst idxs).1.ds.getD i none =
            (dst.ds.getD i none).map (fun ds => (dsa_ds_apply env dst ds).1)) ∧
          (i ∉ idxs → (dsa_dst_apply_go env dst idxs).1.ds.getD i none =
            dst.ds.getD i none)) ∧
        (∀ i ∈ idxs, ∀ ds, dst.ds.getD i none = some ds →
          (dsa_ds_apply env dst ds).2 = 0)) := by
  intro idxs
  induction idxs with
  | nil =>
    intro dst hnd
    refine ⟨rfl, ?_⟩
    intro _
    exact ⟨fun i => ⟨fun hh => absurd hh (by simp), fun _ => rfl⟩, by simp⟩
  | cons i rest ih =>
    intro dst hnd
    have hnd1 : i ∉ rest := (List.nodup_cons.mp hnd).1
    have hnd2 : rest.Nodup := (List.nodup_cons.mp hnd).2
    cases h : dst.ds.getD i none with
    | none =>
      rw [dst_apply_go_cons_none rest h]
      obtain ⟨hf, hcond⟩ := ih dst hnd2
      refine ⟨hf, ?_⟩
      intro hs
      obtain ⟨hslot, hok⟩ := hcond hs
      refine ⟨?_, ?_⟩
      · intro j
        refine ⟨?_, ?_⟩
        · intro hj
          rcases List.mem_cons.mp hj with rfl | hj'
          · rw [(hslot j).2 hnd1, h]
            rfl
          · exact (hslot j).1 hj'
        · intro hj
          exact (hslot j).2 (fun hh => hj (List.mem_cons_of_mem _ hh))
      · intro j hj ds hds
        rcases List.mem_cons.mp hj with rfl | hj'
        · rw [h] at hds
          exact absurd hds (by simp)
        · exact hok j hj' ds hds
    | some ds =>
      by_cases hz : (dsa_ds_apply env dst ds).2 = 0
      · rw [dst_apply_go_cons_ok rest h hz]
        have hlt : i < dst.ds.length := getD_lt_length h (by simp)
        obtain ⟨hf, hcond⟩ :=
          ih { dst with ds := dst.ds.set i (some (dsa_ds_apply env dst ds).1) } hnd2
        refine ⟨by rw [hf], ?_⟩
        intro hs
        obtain ⟨hslot, hok⟩ := hcond hs
        refine ⟨?_, ?_⟩
        · intro j
          refine ⟨?_, ?_⟩
          · intro hj
            rcases List.mem_cons.mp hj with rfl | hj'
            · rw [(hslot j).2 hnd1]
              show (dst.ds.set j (some (dsa_ds_apply env dst ds).1)).getD j none = _
              rw [getD_set_self dst.ds j _ none hlt, h]
              rfl
            · have hji : ¬ j = i := fun hh => hnd1 (hh ▸ hj')
              have hstep := (hslot j).1 hj'
              rw [hstep]
              show ((dst.ds.set i (some (dsa_ds_apply env dst ds).1)).getD j none).map _ = _
              rw [getD_set_ne dst.ds _ none (fun hh => hji hh.symm)]
              rfl
          · intro hj
            have hji : ¬ j = i := fun hh => hj (hh ▸ List.mem_cons_self i rest)
            have hstep := (hslot j).2 (fun hh => hj (List.mem_cons_of_mem _ hh))
            rw [hstep]
            show (dst.ds.set i (some (dsa_ds_apply env dst ds).1)).getD j none = _
            rw [getD_set_ne dst.ds _ none (fun hh => hji hh.symm)]
        · intro j hj ds0 hds0
          rcases List.mem_cons.mp hj with rfl | hj'
          · rw [h] at hds0
            cases hds0
            exact hz
          · have hji : ¬ j = i := fun hh => hnd1 (hh ▸ hj')
            apply hok j hj' ds0
            show (dst.ds.set i (some (dsa_ds_apply env dst ds).1)).getD j none = some ds0
            rw [getD_set_ne dst.ds _ none (fun hh => hji hh.symm)]
            exact hds0
      · rw [dst_apply_go_cons_fail rest h hz]
        refine ⟨rfl, ?_⟩
        intro hs
        exact absurd hs hz

/-- Slot-wise characterization of the member loop of `dsa_dst_unapply`:
every occupied processed slot is replaced by its torn-down switch, all
other slots and all tree fields are untouched. -/
theorem dst_unapply_go_spec (env : dsa_env) :
    ∀ (idxs : List Nat) (dst : dsa_switch_tree), idxs.Nodup →
      ((dsa_dst_unapply_go env dst idxs) =
        { dst with ds := (dsa_dst_unapply_go env dst idxs).ds }) ∧
      (∀ i,
        (i ∈ idxs → (dsa_dst_unapply_go env dst idxs).ds.getD i none =
          (dst.ds.getD i none).map (fun ds => dsa_ds_unapply env dst ds)) ∧
        (i ∉ idxs → (dsa_dst_unapply_go env dst idxs).ds.getD i none =
          dst.ds.getD i none)) := by
  intro idxs
  induction idxs with
  | nil =>
    intro dst hnd
    exact ⟨rfl, fun i => ⟨fun hh => absurd hh (by simp), fun _ => rfl⟩⟩
  | cons i rest ih =>
    intro dst hnd
    have hnd1 : i ∉ rest := (List.nodup_cons.mp hnd).1
    have hnd2 : rest.Nodup := (List.nodup_cons.mp hnd).2
    cases h : dst.ds.getD i none with
    | none =>
      rw [dst_unapply_go_cons_none rest h]
      obtain ⟨hf, hslot⟩ := ih dst hnd2
      refine ⟨hf, ?_⟩
      intro j
      refine ⟨?_, ?_⟩
      · intro hj
        rcases List.mem_cons.mp hj with rfl | hj'
        · rw [(hslot j).2 hnd1, h]
          rfl
        · exact (hslot j).1 hj'
      · intro hj
        exact (hslot j).2 (fun hh => hj (List.mem_cons_of_mem _ hh))
    | some ds =>
      rw [dst_unapply_go_cons_some rest h]
      have hlt : i < dst.ds.length := getD_lt_length h (by simp)
      obtain ⟨hf, hslot⟩ :=
        ih { dst with ds := dst.ds.set i (some (dsa_ds_unapply env dst ds)) } hnd2
      refine ⟨by rw [hf], ?_⟩
      intro j
      refine ⟨?_, ?_⟩
      · intro hj
        rcases List.mem_cons.mp hj with rfl | hj'
        · rw [(hslot j).2 hnd1]
          show (dst.ds.set j (some (dsa_ds_unapply env dst ds))).getD j none = _
          rw [getD_set_self dst.ds j _ none hlt, h]
          rfl
        · have hji : ¬ j = i := fun hh => hnd1 (hh ▸ hj')
          have hstep := (hslot j).1 hj'
          rw [hstep]
          show ((dst.ds.set i (some (dsa_ds_unapply env dst ds))).getD j none).map _ = _
          rw [getD_set_ne dst.ds _ none (fun hh => hji hh.symm)]
          rfl
      · intro hj
        have hji : ¬ j = i := fun hh => hj (hh ▸ List.mem_cons_self i rest)
        have hstep := (hslot j).2 (fun hh => hj (List.mem_cons_of_mem _ hh))
        rw [hstep]
        show (dst.ds.set i (some (dsa_ds_unapply env dst ds))).getD j none = _
        rw [getD_set_ne dst.ds _ none (fun hh => hji hh.symm)]

/-! ## Claim C3: apply then unapply -/

theorem dsa_dst_apply_of_ok (env : dsa_env) (dst : dsa_switch_tree)
    (hs : (dsa_dst_apply env dst).2 = 0) :
    (dsa_dst_apply_go env dst (List.range DSA_MAX_SWITCHES)).2 = 0 ∧
    (dsa_dst_apply env dst).1 =
      { (dsa_dst_apply_go env dst (List.range DSA_MAX_SWITCHES)).1 with
        dsa_ptr_set := true, applied := true } := by
  unfold dsa_dst_apply at hs ⊢
  by_cases hz : (dsa_dst_apply_go env dst (List.range DSA_MAX_SWITCHES)).2 ≠ 0
  · rw [if_pos hz] at hs
    exact absurd hs hz
  · rw [if_neg hz] at hs ⊢
    refine ⟨not_not.mp hz, ?_⟩
    cases hcs : (dsa_dst_apply_go env dst (List.range DSA_MAX_SWITCHES)).1.cpu_switch with
    | none =>
      simp only [hcs] at hs ⊢
    | some cs =>
      simp only [hcs] at hs ⊢
      by_cases he : env.ethtoolSetup cs ≠ 0
      · rw [if_pos he] at hs
        exact absurd hs he
      · rw [if_neg he] at hs ⊢

theorem dsa_dst_unapply_applied (env : dsa_env) (dst : dsa_switch_tree)
    (h : dst.applied = true) :
    dsa_dst_unapply env dst =
      { (dsa_dst_unapply_go env { dst with dsa_ptr_set := false }
          (List.range DSA_MAX_SWITCHES)) with applied := false } := by
  unfold dsa_dst_unapply
  rw [if_neg (not_not_intro h)]

theorem dsa_dst_unapply_not_applied (env : dsa_env) (dst : dsa_switch_tree)
    (h : ¬ dst.applied = true) : dsa_dst_unapply env dst = dst := by
  unfold dsa_dst_unapply
  rw [if_pos h]

theorem cpuClassAt_valid {ds : dsa_switch} {j : Nat} (h : cpuClassAt ds j = true) :
    dsa_port_is_valid (ds.ports.getD j default) = true := by
  unfold cpuClassAt validAt at h
  rw [Bool.and_eq_true, Bool.and_eq_true] at h
  exact h.1.1

theorem userClassAt_valid {ds : dsa_switch} {j : Nat} (h : userClassAt ds j = true) :
    dsa_port_is_valid (ds.ports.getD j default) = true := by
  unfold userClassAt validAt at h
  rw [Bool.and_eq_true, Bool.and_eq_true] at h
  exact h.1.1

/-- u32 well-formedness of a switch as enforced by the C types, plus the
claim's precondition that no CPU-class port's CPU-mask bit is set before
apply: at most 32 ports, masks within 32 bits, CPU-mask clear on CPU-class
ports. -/
def switchWF (ds : dsa_switch) : Bool :=
  decide (ds.ports.length ≤ 32) && decide (ds.cpu_port_mask < 2 ^ 32) &&
  decide (ds.enabled_port_mask < 2 ^ 32) &&
  ((List.range ds.ports.length).all fun j =>
    !(cpuClassAt ds j && ds.cpu_port_mask.testBit j))

/-- `switchWF` for every occupied member slot. -/
def treeWF (dst : dsa_switch_tree) : Bool :=
  (List.range DSA_MAX_SWITCHES).all fun i =>
    match dst.ds.getD i none with
    | some ds => switchWF ds
    | none => true

theorem switchWF_spec {ds : dsa_switch} (h : switchWF ds = true) :
    ds.ports.length ≤ 32 ∧ ds.cpu_port_mask < 2 ^ 32 ∧
    ds.enabled_port_mask < 2 ^ 32 ∧
    (∀ j, cpuClassAt ds j = true → ds.cpu_port_mask.testBit j = false) := by
  unfold switchWF at h
  simp only [Bool.and_eq_true, decide_eq_true_eq, List.all_eq_true] at h
  obtain ⟨⟨⟨h1, h2⟩, h3⟩, h4⟩ := h
  refine ⟨h1, h2, h3, ?_⟩
  intro j hj
  by_cases hlen : j < ds.ports.length
  · have hh := h4 j (List.mem_range.mpr hlen)
    rw [hj] at hh
    simpa using hh
  · exact absurd (validAt_lt_length (cpuClassAt_valid hj)) hlen

theorem treeWF_spec {dst : dsa_switch_tree} (h : treeWF dst = true) :
    ∀ i, i < DSA_MAX_SWITCHES → ∀ ds, dst.ds.getD i none = some ds →
      switchWF ds = true := by
  unfold treeWF at h
  rw [List.all_eq_true] at h
  intro i hi ds hds
  have hh := h i (List.mem_range.mpr hi)
  rw [hds] at hh
  exact hh

/-- C3 (amended): for a tree of u32-well-formed switches whose CPU-port
masks are clear at CPU-class ports before apply, a successful `apply`
followed by `unapply` preserves slot occupancy, restores every member's
routing table and CPU-port bitmask to its pre-apply value, and leaves the
enabled-port bitmask equal to its pre-apply value MINUS the bits of the
user-class ports whose interface was materialized during apply (those
bits are cleared, not restored - refuting that part of the original
claim); and `unapply` is idempotent, with `unapply` of a non-applied tree
a no-op. -/
theorem c3_apply_unapply (env : dsa_env) (dst : dsa_switch_tree)
    (hwf : treeWF dst = true) (hs : (dsa_dst_apply env dst).2 = 0) :
    (∀ i, i < DSA_MAX_SWITCHES →
      (((dsa_dst_unapply env (dsa_dst_apply env dst).1).ds.getD i none).isSome =
        (dst.ds.getD i none).isSome) ∧
      (∀ ds ds', dst.ds.getD i none = some ds →
        (dsa_dst_unapply env (dsa_dst_apply env dst).1).ds.getD i none = some ds' →
        ds'.rtable = ds.rtable ∧
        ds'.cpu_port_mask = ds.cpu_port_mask ∧
        (∀ j, (ds'.enabled_port_mask.testBit j = true ↔
          (ds.enabled_port_mask.testBit j = true ∧
            ¬ (userClassAt ds j = true ∧ (slaveRes env ds j).isSome = true)))))) ∧
    (∀ t : dsa_switch_tree, ¬ t.applied = true → dsa_dst_unapply env t = t) ∧
    (∀ t : dsa_switch_tree,
      dsa_dst_unapply env (dsa_dst_unapply env t) = dsa_dst_unapply env t) := by
  refine ⟨?_, fun t ht => dsa_dst_unapply_not_applied env t ht, ?_⟩
  · obtain ⟨hgo, happly1⟩ := dsa_dst_apply_of_ok env dst hs
    obtain ⟨hfieldsA, hcondA⟩ :=
      dst_apply_go_spec env (List.range DSA_MAX_SWITCHES) dst (List.nodup_range _)
    obtain ⟨hslotA, hokA⟩ := hcondA hgo
    rw [happly1]
    rw [dsa_dst_unapply_applied env _ rfl]
    intro i hi
    have himem : i ∈ List.range DSA_MAX_SWITCHES := List.mem_range.mpr hi
    obtain ⟨hfieldsU, hslotU⟩ :=
      dst_unapply_go_spec env (List.range DSA_MAX_SWITCHES)
        { { (dsa_dst_apply_go env dst (List.range DSA_MAX_SWITCHES)).1 with
            dsa_ptr_set := true, applied := true } with dsa_ptr_set := false }
        (List.nodup_range _)
    have hfinal : ({ (dsa_dst_unapply_go env
          { { (dsa_dst_apply_go env dst (List.range DSA_MAX_SWITCHES)).1 with
              dsa_ptr_set := true, applied := true } with dsa_ptr_set := false }
          (List.range DSA_MAX_SWITCHES)) with applied := false } :
        dsa_switch_tree).ds.getD i none =
        ((dsa_dst_apply_go env dst (List.range DSA_MAX_SWITCHES)).1.ds.getD i none).map
          (fun ds => dsa_ds_unapply env dst ds) := by
      have hh := (hslotU i).1 himem
      exact hh
    have happslot := (hslotA i).1 himem
    rw [hfinal, happslot]
    cases hds : dst.ds.getD i none with
    | none =>
      refine ⟨rfl, ?_⟩
      intro ds ds' hsome _
      exact absurd hsome (by simp)
    | some ds =>
      refine ⟨rfl, ?_⟩
      intro ds0 ds' hds0 hds'
      have hds0' : ds0 = ds := by
        injection hds0 with hh
        exact hh.symm
      subst hds0'
      have hds'' : ds' = dsa_ds_unapply env dst (dsa_ds_apply env dst ds0).1 := by
        have hh : some (dsa_ds_unapply env dst (dsa_ds_apply env dst ds0).1) = some ds' := hds'
        injection hh with hh2
        exact hh2.symm
      subst hds''
      have happ0 : (dsa_ds_apply env dst ds0).2 = 0 := hokA i himem ds0 hds
      obtain ⟨h32, hcw, hce, hcpu0⟩ :=
        switchWF_spec (treeWF_spec hwf i hi ds0 hds)
      obtain ⟨sigA, lenA, rtA, enA, cwA, cpuA, ndA⟩ :=
        dsa_ds_apply_spec env dst ds0 h32 hcw happ0
      have hiU : ∀ k ∈ List.range (dsa_ds_apply env dst ds0).1.ports.length, k < 32 := by
        intro k hk
        have := List.mem_range.mp hk
        omega
    -- the unapply of the applied switch is its per-port loop
      have hunfold : dsa_ds_unapply env dst (dsa_ds_apply env dst ds0).1 =
          dsa_ds_unapply_ports env (dsa_ds_apply env dst ds0).1
            (List.range (dsa_ds_apply env dst ds0).1.ports.length) := rfl
      obtain ⟨sigU, lenU, rtU, cpuU, enU⟩ :=
        unapply_ports_spec env (List.range (dsa_ds_apply env dst ds0).1.ports.length)
          (dsa_ds_apply env dst ds0).1 hiU cwA (by rw [enA]; exact hce)
      rw [hunfold]
      refine ⟨by rw [rtU, rtA], ?_, ?_⟩
      · -- CPU-port mask restored
        apply Nat.eq_of_testBit_eq
        intro j
        rw [Bool.eq_iff_iff, cpuU j, cpuA j]
        have hclass : cpuClassAt (dsa_ds_apply env dst ds0).1 j = cpuClassAt ds0 j :=
          cpuClassAt_congr sigA j
        rw [hclass, lenA]
        constructor
        · rintro ⟨hb | hx, hn⟩
          · exact hb
          · exact absurd hx hn
        · intro hb
          refine ⟨Or.inl hb, ?_⟩
          rintro ⟨hjr, hcj⟩
          rw [hcpu0 j hcj] at hb
          exact absurd hb (by decide)
      · -- enabled mask: pre-apply value minus materialized user bits
        intro j
        rw [enU j, enA]
        have hclass : userClassAt (dsa_ds_apply env dst ds0).1 j = userClassAt ds0 j :=
          userClassAt_congr sigA j
        rw [hclass, lenA]
        constructor
        · rintro ⟨hb, hn⟩
          refine ⟨hb, ?_⟩
          rintro ⟨huc, hsr⟩
          have hjr : j ∈ List.range ds0.ports.length :=
            List.mem_range.mpr (validAt_lt_length (userClassAt_valid huc))
          apply hn
          refine ⟨hjr, huc, ?_⟩
          rw [(ndA j).1 ⟨hjr, huc⟩]
          exact hsr
        · rintro ⟨hb, hn⟩
          refine ⟨hb, ?_⟩
          rintro ⟨hjr, huc, hnd⟩
          apply hn
          refine ⟨huc, ?_⟩
          rw [← (ndA j).1 ⟨hjr, huc⟩]
          exact hnd
  · intro t
    by_cases ht : t.applied = true
    · rw [dsa_dst_unapply_applied env t ht]
      rw [dsa_dst_unapply_not_applied env _ (by simp)]
    · rw [dsa_dst_unapply_not_applied env t ht,
        dsa_dst_unapply_not_applied env t ht]

/-- The concrete tree for the C3 witness: one switch in slot 0 with a
single user port. -/
def c3tree : dsa_switch_tree :=
  { tree := 0, refcount := 1, applied := false, master_netdev := none,
    cpu_switch := none, cpu_port := 0, tag_ops := none, dsa_ptr_set := false,
    ds := [some
      { index := 0, ports := [⟨none, some "lan0", none⟩],
        enabled_port_mask := 1, cpu_port_mask := 0, dsa_port_mask := 0,
        phys_mii_mask := 0, rtable := [-1, -1, -1, -1], master_netdev := none,
        slave_mii_bus := false, ops := ⟨0, none, false, 0⟩, cd := none },
      none, none, none] }

/-- The environment for the C3 witness: every external step succeeds and
slave creation returns handle 7. -/
def c3env : dsa_env :=
  { findNetDevice := fun _ => none, devToNetDevice := fun _ => none,
    resolveTag := fun _ => none, registerNotifier := fun _ => 0,
    mdiobusAlloc := fun _ => true, mdiobusRegister := fun _ => 0,
    cpuDsaSetup := fun _ _ => 0,
    slaveCreate := fun _ _ _ => Except.ok 7,
    ethtoolSetup := fun _ => 0 }

/-- Witness for `c3_apply_unapply` on `c3tree` under `c3env`. -/
theorem c3_apply_unapply_witness :
    (∀ i, i < DSA_MAX_SWITCHES →
      (((dsa_dst_unapply c3env (dsa_dst_apply c3env c3tree).1).ds.getD i none).isSome =
        (c3tree.ds.getD i none).isSome) ∧
      (∀ ds ds', c3tree.ds.getD i none = some ds →
        (dsa_dst_unapply c3env (dsa_dst_apply c3env c3tree).1).ds.getD i none = some ds' →
        ds'.rtable = ds.rtable ∧
        ds'.cpu_port_mask = ds.cpu_port_mask ∧
        (∀ j, (ds'.enabled_port_mask.testBit j = true ↔
          (ds.enabled_port_mask.testBit j = true ∧
            ¬ (userClassAt ds j = true ∧ (slaveRes c3env ds j).isSome = true)))))) ∧
    (∀ t : dsa_switch_tree, ¬ t.applied = true → dsa_dst_unapply c3env t = t) ∧
    (∀ t : dsa_switch_tree,
      dsa_dst_unapply c3env (dsa_dst_unapply c3env t) = dsa_dst_unapply c3env t) :=
  c3_apply_unapply c3env c3tree (by decide) (by decide)

/-- Counterexample to claim C3 as stated: on `c3tree` (one switch, one
user port, enabled bit 0 set) under `c3env` (all externals succeed),
apply succeeds, but apply followed by unapply leaves the enabled-port
bitmask at 0 instead of restoring its pre-apply value 1. -/
theorem c3_counterexample :
    (dsa_dst_apply c3env c3tree).2 = 0 ∧
      ((dsa_dst_unapply c3env (dsa_dst_apply c3env c3tree).1).ds.getD 0 none).map
        dsa_switch.enabled_port_mask = some 0 ∧
      (c3tree.ds.getD 0 none).map dsa_switch.enabled_port_mask = some 1 := by
  decide

/-! ## Protocol negotiation (`dsa_cpu_parse` / `dsa_ds_parse` / `dsa_dst_parse`) -/

/-- The CPU-port ethernet-device resolution step of `dsa_cpu_parse`: with a
device node, follow the `"ethernet"` phandle (`-EINVAL` when absent) and
look the target up among live net devices; in platform-data mode, map
`ds->cd->netdev[index]` to a net device.  `ok none` means no live device
(the caller defers). -/
def cpu_parse_ethernet_dev (env : dsa_env) (port : dsa_port) (index : Nat)
    (ds : dsa_switch) : Except Int (Option Nat) :=
  match port.dn with
  | some d =>
    match d.ethernet with
    | none => Except.error EINVAL
    | some e => Except.ok (env.findNetDevice e)
  | none =>
    Except.ok
      (match (match ds.cd with
              | some cd => cd.netdev.getD index none
              | none => none) with
       | some hdl => env.devToNetDevice hdl
       | none => none)

/-- `dsa_cpu_parse`: resolve the CPU port's ethernet device (deferring with
`-EPROBE_DEFER` when it is not live yet), adopt it as the switch's and the
tree's master device when unset, elect the first CPU switch/port, then
resolve the tag protocol of the owning switch - `tag_ops` is overwritten
on every call.  `dsa_cpu_parse_found` is the tail after a live ethernet
device `nd` was found. -/
def dsa_cpu_parse_found (env : dsa_env) (index : Nat)
    (dst : dsa_switch_tree) (ds : dsa_switch) (nd : Nat) :
    (dsa_switch_tree × dsa_switch) × Int :=
  let ds1 := if ds.master_netdev = none then { ds with master_netdev := some nd } else ds
  let dst1 := if dst.master_netdev = none then { dst with master_netdev := some nd } else dst
  let dst2 := if dst1.cpu_switch = none then
      { dst1 with cpu_switch := some ds1.index, cpu_port := index } else dst1
  match env.resolveTag ds1.ops.tag_protocol with
  | none => (({ dst2 with tag_ops := none }, ds1), ENOPROTOOPT)
  | some hdl => (({ dst2 with tag_ops := some hdl }, ds1), 0)

def dsa_cpu_parse (env : dsa_env) (port : dsa_port) (index : Nat)
    (dst : dsa_switch_tree) (ds : dsa_switch) :
    (dsa_switch_tree × dsa_switch) × Int :=
  match cpu_parse_ethernet_dev env port index ds with
  | Except.error e => ((dst, ds), e)
  | Except.ok none => ((dst, ds), EPROBE_DEFER)
  | Except.ok (some nd) => dsa_cpu_parse_found env index dst ds nd

/-- The per-port loop of `dsa_ds_parse`: every valid CPU port is parsed;
the first failure aborts. -/
def dsa_ds_parse_go (env : dsa_env) (dst : dsa_switch_tree) (ds : dsa_switch) :
    List Nat → (dsa_switch_tree × dsa_switch) × Int
  | [] => ((dst, ds), 0)
  | index :: rest =>
    let port := ds.ports.getD index default
    if ¬ dsa_port_is_valid port then dsa_ds_parse_go env dst ds rest
    else if dsa_port_is_cpu port then
      let res := dsa_cpu_parse env port index dst ds
      if res.2 ≠ 0 then res
      else dsa_ds_parse_go env res.1.1 res.1.2 rest
    else dsa_ds_parse_go env dst ds rest

/-- `dsa_ds_parse`. -/
def dsa_ds_parse (env : dsa_env) (dst : dsa_switch_tree) (ds : dsa_switch) :
    (dsa_switch_tree × dsa_switch) × Int :=
  dsa_ds_parse_go env dst ds (List.range ds.ports.length)

/-- The member-slot loop of `dsa_dst_parse`; each slot's (possibly
master-updated) switch is written back into the tree. -/
def dsa_dst_parse_go (env : dsa_env) (dst : dsa_switch_tree) :
    List Nat → dsa_switch_tree × Int
  | [] => (dst, 0)
  | index :: rest =>
    match dst.ds.getD index none with
    | none => dsa_dst_parse_go env dst rest
    | some ds =>
      let res := dsa_ds_parse env dst ds
      let dst' := { res.1.1 with ds := res.1.1.ds.set index (some res.1.2) }
      if res.2 ≠ 0 then (dst', res.2) else dsa_dst_parse_go env dst' rest

/-- `dsa_dst_parse`: parse every member; a tree that still has no master
device afterwards fails with `-EINVAL`. -/
def dsa_dst_parse (env : dsa_env) (dst : dsa_switch_tree) : dsa_switch_tree × Int :=
  let res := dsa_dst_parse_go env dst (List.range DSA_MAX_SWITCHES)
  if res.2 ≠ 0 then res
  else if res.1.master_netdev = none then (res.1, EINVAL) else (res.1, 0)

/-- The indices among `idxs` holding valid CPU-class ports of `ds` (the
predicate `dsa_ds_parse` dispatches on: valid and `dsa_port_is_cpu`). -/
def cpuIdxs (ds : dsa_switch) (idxs : List Nat) : List Nat :=
  idxs.filter fun i =>
    dsa_port_is_valid (ds.ports.getD i default) &&
      dsa_port_is_cpu (ds.ports.getD i default)

/-- The valid CPU-class ports of a switch, in port-index order. -/
def cpuPortsOfSwitch (ds : dsa_switch) : List Nat :=
  cpuIdxs ds (List.range ds.ports.length)

/-- The (slot, port) pairs of valid CPU-class ports found in member slot
`s` of the tree. -/
def cpuPairsAt (dst : dsa_switch_tree) (s : Nat) : List (Nat × Nat) :=
  match dst.ds.getD s none with
  | some ds => (cpuPortsOfSwitch ds).map fun i => (s, i)
  | none => []

/-- The (slot, port) pairs of valid CPU-class ports over a list of member
slots, in iteration order. -/
def cpuPairs (dst : dsa_switch_tree) (slots : List Nat) : List (Nat × Nat) :=
  (slots.map (cpuPairsAt dst)).flatten

/-- All (member slot, port index) pairs of valid CPU-class ports of the
tree, in the iteration order of `dsa_dst_parse` (slot order, then port
order). -/
def cpuPortsOfTree (dst : dsa_switch_tree) : List (Nat × Nat) :=
  cpuPairs dst (List.range DSA_MAX_SWITCHES)

/-- Concrete tree refuting the "no partial routing table" half of claim C1:
one member switch in slot 0 whose port 0 declares two links, the first
resolving to the switch's own port 1 and the second resolving nowhere. -/
def c1tree : dsa_switch_tree :=
  { tree := 0, refcount := 1, applied := false, master_netdev := none,
    cpu_switch := none, cpu_port := 0, tag_ops := none, dsa_ptr_set := false,
    ds := [some
      { index := 0,
        ports := [⟨some ⟨1, [2, 99], none, none⟩, none, none⟩,
                  ⟨some ⟨2, [], none, none⟩, none, none⟩],
        enabled_port_mask := 0, cpu_port_mask := 0, dsa_port_mask := 0,
        phys_mii_mask := 0, rtable := [-1, -1, -1, -1], master_netdev := none,
        slave_mii_bus := false,
        ops := ⟨0, none, false, 0⟩, cd := none },
      none, none, none] }

/-- Counterexample to claim C1 as stated: on `c1tree`, resolution returns
Incomplete (`1`), yet the routing-table entry written for the one link
reference that did resolve before the failing one is left behind
(`rtable` changes from `[-1, -1, -1, -1]` to `[0, -1, -1, -1]`). -/
theorem c1_counterexample :
    (dsa_dst_complete c1tree).2 = 1 ∧
      ((dsa_dst_complete c1tree).1.ds.getD 0 none).map dsa_switch.rtable =
        some [0, -1, -1, -1] ∧
      (c1tree.ds.getD 0 none).map dsa_switch.rtable = some [-1, -1, -1, -1] := by
  decide

/-! ## C7: CPU-port election and tag-protocol recording -/

/-- `cpu_parse_ethernet_dev` can only fail with `-EINVAL` (missing
`"ethernet"` phandle). -/
theorem cpu_parse_ethernet_dev_error {env : dsa_env} {port : dsa_port}
    {index : Nat} {ds : dsa_switch} {e : Int}
    (h : cpu_parse_ethernet_dev env port index ds = Except.error e) :
    e = EINVAL := by
  unfold cpu_parse_ethernet_dev at h
  cases hdn : port.dn with
  | none =>
    simp only [hdn] at h
    exact Except.noConfusion h
  | some d =>
    simp only [hdn] at h
    cases heth : d.ethernet with
    | none =>
      simp only [heth] at h
      injection h with h1
      exact h1.symm
    | some x =>
      simp only [heth] at h
      exact Except.noConfusion h

/-- Success characterization of the post-resolution tail of
`dsa_cpu_parse`: the switch keeps its ports, index, ops and chip data; the
tree keeps its member slots, id, refcount, applied flag and `dsa_ptr`
flag; the CPU switch/port are elected exactly when none was elected
before; and `tag_ops` is overwritten with the switch's resolved handler
set, which resolution succeeded on. -/
theorem dsa_cpu_parse_found_spec (env : dsa_env) (index : Nat)
    (dst : dsa_switch_tree) (ds : dsa_switch) (nd : Nat)
    (h : (dsa_cpu_parse_found env index dst ds nd).2 = 0) :
    ((dsa_cpu_parse_found env index dst ds nd).1.2.ports = ds.ports ∧
     (dsa_cpu_parse_found env index dst ds nd).1.2.index = ds.index ∧
     (dsa_cpu_parse_found env index dst ds nd).1.2.ops = ds.ops ∧
     (dsa_cpu_parse_found env index dst ds nd).1.2.cd = ds.cd) ∧
    ((dsa_cpu_parse_found env index dst ds nd).1.1.ds = dst.ds ∧
     (dsa_cpu_parse_found env index dst ds nd).1.1.tree = dst.tree ∧
     (dsa_cpu_parse_found env index dst ds nd).1.1.refcount = dst.refcount ∧
     (dsa_cpu_parse_found env index dst ds nd).1.1.applied = dst.applied ∧
     (dsa_cpu_parse_found env index dst ds nd).1.1.dsa_ptr_set = dst.dsa_ptr_set) ∧
    ((dsa_cpu_parse_found env index dst ds nd).1.1.cpu_switch =
       (if dst.cpu_switch = none then some ds.index else dst.cpu_switch) ∧
     (dsa_cpu_parse_found env index dst ds nd).1.1.cpu_port =
       (if dst.cpu_switch = none then index else dst.cpu_port)) ∧
    ((dsa_cpu_parse_found env index dst ds nd).1.1.tag_ops =
       env.resolveTag ds.ops.tag_protocol ∧
     (env.resolveTag ds.ops.tag_protocol).isSome = true) := by
  by_cases hm1 : ds.master_netdev = none <;>
    by_cases hm2 : dst.master_netdev = none <;>
      by_cases hcs : dst.cpu_switch = none <;>
        simp only [dsa_cpu_parse_found, hm1, hm2, hcs, reduceIte] at h ⊢ <;>
        cases hrt : env.resolveTag ds.ops.tag_protocol <;>
          simp only [hrt] at h ⊢ <;>
          first
            | exact absurd h (by decide)
            | (refine ⟨⟨?_, ?_, ?_, ?_⟩, ⟨?_, ?_, ?_, ?_, ?_⟩, ⟨?_, ?_⟩, ?_, ?_⟩ <;>
                first
                  | rfl
                  | trivial)

/-- Success characterization of `dsa_cpu_parse` (same statement as
`dsa_cpu_parse_found_spec`, with the ethernet-device resolution folded
in). -/
theorem dsa_cpu_parse_ok {env : dsa_env} {port : dsa_port} {index : Nat}
    {dst : dsa_switch_tree} {ds : dsa_switch}
    (h : (dsa_cpu_parse env port index dst ds).2 = 0) :
    ((dsa_cpu_parse env port index dst ds).1.2.ports = ds.ports ∧
     (dsa_cpu_parse env port index dst ds).1.2.index = ds.index ∧
     (dsa_cpu_parse env port index dst ds).1.2.ops = ds.ops ∧
     (dsa_cpu_parse env port index dst ds).1.2.cd = ds.cd) ∧
    ((dsa_cpu_parse env port index dst ds).1.1.ds = dst.ds ∧
     (dsa_cpu_parse env port index dst ds).1.1.tree = dst.tree ∧
     (dsa_cpu_parse env port index dst ds).1.1.refcount = dst.refcount ∧
     (dsa_cpu_parse env port index dst ds).1.1.applied = dst.applied ∧
     (dsa_cpu_parse env port index dst ds).1.1.dsa_ptr_set = dst.dsa_ptr_set) ∧
    ((dsa_cpu_parse env port index dst ds).1.1.cpu_switch =
       (if dst.cpu_switch = none then some ds.index else dst.cpu_switch) ∧
     (dsa_cpu_parse env port index dst ds).1.1.cpu_port =
       (if dst.cpu_switch = none then index else dst.cpu_port)) ∧
    ((dsa_cpu_parse env port index dst ds).1.1.tag_ops =
       env.resolveTag ds.ops.tag_protocol ∧
     (env.resolveTag ds.ops.tag_protocol).isSome = true) := by
  unfold dsa_cpu_parse at h ⊢
  cases hed : cpu_parse_ethernet_dev env port index ds with
  | error e =>
    simp only [hed] at h
    have he := cpu_parse_ethernet_dev_error hed
    subst he
    exact absurd h (by decide)
  | ok o =>
    cases o with
    | none =>
      simp only [hed] at h
      exact absurd h (by decide)
    | some nd =>
      simp only [hed] at h ⊢
      exact dsa_cpu_parse_found_spec env index dst ds nd h

theorem dsa_ds_parse_go_nil (env : dsa_env) (dst : dsa_switch_tree)
    (ds : dsa_switch) : dsa_ds_parse_go env dst ds [] = ((dst, ds), 0) := rfl

theorem dsa_ds_parse_go_cons_invalid (env : dsa_env) (dst : dsa_switch_tree)
    (ds : dsa_switch) {i : Nat} (rest : List Nat)
    (h : ¬ dsa_port_is_valid (ds.ports.getD i default) = true) :
    dsa_ds_parse_go env dst ds (i :: rest) = dsa_ds_parse_go env dst ds rest := by
  simp only [dsa_ds_parse_go]
  rw [if_pos h]

theorem dsa_ds_parse_go_cons_noncpu (env : dsa_env) (dst : dsa_switch_tree)
    (ds : dsa_switch) {i : Nat} (rest : List Nat)
    (hv : dsa_port_is_valid (ds.ports.getD i default) = true)
    (hc : ¬ dsa_port_is_cpu (ds.ports.getD i default) = true) :
    dsa_ds_parse_go env dst ds (i :: rest) = dsa_ds_parse_go env dst ds rest := by
  simp only [dsa_ds_parse_go]
  rw [if_neg (not_not_intro hv), if_neg hc]

theorem dsa_ds_parse_go_cons_fail (env : dsa_env) (dst : dsa_switch_tree)
    (ds : dsa_switch) {i : Nat} (rest : List Nat)
    (hv : dsa_port_is_valid (ds.ports.getD i default) = true)
    (hc : dsa_port_is_cpu (ds.ports.getD i default) = true)
    (hf : (dsa_cpu_parse env (ds.ports.getD i default) i dst ds).2 ≠ 0) :
    dsa_ds_parse_go env dst ds (i :: rest) =
      dsa_cpu_parse env (ds.ports.getD i default) i dst ds := by
  simp only [dsa_ds_parse_go]
  rw [if_neg (not_not_intro hv), if_pos hc, if_pos hf]

theorem dsa_ds_parse_go_cons_ok (env : dsa_env) (dst : dsa_switch_tree)
    (ds : dsa_switch) {i : Nat} (rest : List Nat)
    (hv : dsa_port_is_valid (ds.ports.getD i default) = true)
    (hc : dsa_port_is_cpu (ds.ports.getD i default) = true)
    (hf : (dsa_cpu_parse env (ds.ports.getD i default) i dst ds).2 = 0) :
    dsa_ds_parse_go env dst ds (i :: rest) =
      dsa_ds_parse_go env
        (dsa_cpu_parse env (ds.ports.getD i default) i dst ds).1.1
        (dsa_cpu_parse env (ds.ports.getD i default) i dst ds).1.2 rest := by
  simp only [dsa_ds_parse_go]
  rw [if_neg (not_not_intro hv), if_pos hc, if_neg (not_not_intro hf)]

theorem cpuIdxs_nil (ds : dsa_switch) : cpuIdxs ds [] = [] := rfl

theorem cpuIdxs_cons_hit (ds : dsa_switch) {i : Nat} (rest : List Nat)
    (h : (dsa_port_is_valid (ds.ports.getD i default) &&
          dsa_port_is_cpu (ds.ports.getD i default)) = true) :
    cpuIdxs ds (i :: rest) = i :: cpuIdxs ds rest := by
  simp only [cpuIdxs, List.filter_cons]
  rw [if_pos h]

theorem cpuIdxs_cons_miss (ds : dsa_switch) {i : Nat} (rest : List Nat)
    (h : ¬ (dsa_port_is_valid (ds.ports.getD i default) &&
            dsa_port_is_cpu (ds.ports.getD i default)) = true) :
    cpuIdxs ds (i :: rest) = cpuIdxs ds rest := by
  simp only [cpuIdxs, List.filter_cons]
  rw [if_neg h]

theorem cpuIdxs_congr {ds ds' : dsa_switch} (h : ds'.ports = ds.ports)
    (idxs : List Nat) : cpuIdxs ds' idxs = cpuIdxs ds idxs := by
  simp only [cpuIdxs, h]

/-- Success characterization of the `dsa_ds_parse` per-port loop: ports,
index and ops of the switch are unchanged; slots, id, refcount, applied
and `dsa_ptr` flags of the tree are unchanged; when no CPU switch was
elected yet, the first valid CPU port among `idxs` is elected (and nothing
changes when there is none); an existing election is kept; and `tag_ops`
is overwritten with the switch's resolved handler set exactly when `idxs`
holds at least one valid CPU port. -/
theorem dsa_ds_parse_go_spec (env : dsa_env) (idxs : List Nat) :
    ∀ dst ds, (dsa_ds_parse_go env dst ds idxs).2 = 0 →
    ((dsa_ds_parse_go env dst ds idxs).1.2.ports = ds.ports ∧
     (dsa_ds_parse_go env dst ds idxs).1.2.index = ds.index ∧
     (dsa_ds_parse_go env dst ds idxs).1.2.ops = ds.ops) ∧
    ((dsa_ds_parse_go env dst ds idxs).1.1.ds = dst.ds ∧
     (dsa_ds_parse_go env dst ds idxs).1.1.tree = dst.tree ∧
     (dsa_ds_parse_go env dst ds idxs).1.1.refcount = dst.refcount ∧
     (dsa_ds_parse_go env dst ds idxs).1.1.applied = dst.applied ∧
     (dsa_ds_parse_go env dst ds idxs).1.1.dsa_ptr_set = dst.dsa_ptr_set) ∧
    ((dst.cpu_switch = none → ∀ p, (cpuIdxs ds idxs).head? = some p →
        (dsa_ds_parse_go env dst ds idxs).1.1.cpu_switch = some ds.index ∧
        (dsa_ds_parse_go env dst ds idxs).1.1.cpu_port = p) ∧
     (cpuIdxs ds idxs = [] →
        (dsa_ds_parse_go env dst ds idxs).1.1.cpu_switch = dst.cpu_switch ∧
        (dsa_ds_parse_go env dst ds idxs).1.1.cpu_port = dst.cpu_port) ∧
     (∀ v, dst.cpu_switch = some v →
        (dsa_ds_parse_go env dst ds idxs).1.1.cpu_switch = some v ∧
        (dsa_ds_parse_go env dst ds idxs).1.1.cpu_port = dst.cpu_port)) ∧
    ((cpuIdxs ds idxs = [] →
        (dsa_ds_parse_go env dst ds idxs).1.1.tag_ops = dst.tag_ops) ∧
     (cpuIdxs ds idxs ≠ [] →
        (dsa_ds_parse_go env dst ds idxs).1.1.tag_ops =
          env.resolveTag ds.ops.tag_protocol)) := by
  induction idxs with
  | nil =>
    intro dst ds _
    refine ⟨⟨rfl, rfl, rfl⟩, ⟨rfl, rfl, rfl, rfl, rfl⟩,
      ⟨fun _ p hp => Option.noConfusion hp, fun _ => ⟨rfl, rfl⟩,
       fun v hv => ⟨hv, rfl⟩⟩,
      fun _ => rfl, fun hne => absurd rfl hne⟩
  | cons i rest ih =>
    intro dst ds h
    by_cases hv : dsa_port_is_valid (ds.ports.getD i default) = true
    · by_cases hc : dsa_port_is_cpu (ds.ports.getD i default) = true
      · -- a valid CPU port
        by_cases hf : (dsa_cpu_parse env (ds.ports.getD i default) i dst ds).2 = 0
        · rw [dsa_ds_parse_go_cons_ok env dst ds rest hv hc hf] at h ⊢
          obtain ⟨⟨hp1, hp2, hp3, _⟩, ⟨hq1, hq2, hq3, hq4, hq5⟩,
            ⟨he1, he2⟩, ht1, ht2⟩ := dsa_cpu_parse_ok hf
          obtain ⟨⟨ip1, ip2, ip3⟩, ⟨iq1, iq2, iq3, iq4, iq5⟩,
            ⟨ie1, ie2, ie3⟩, it1, it2⟩ :=
            ih (dsa_cpu_parse env (ds.ports.getD i default) i dst ds).1.1
               (dsa_cpu_parse env (ds.ports.getD i default) i dst ds).1.2 h
          have hidxs : cpuIdxs
              (dsa_cpu_parse env (ds.ports.getD i default) i dst ds).1.2 rest =
              cpuIdxs ds rest := cpuIdxs_congr hp1 rest
          have hhit := cpuIdxs_cons_hit ds rest
            ((Bool.and_eq_true _ _).mpr ⟨hv, hc⟩)
          refine ⟨⟨ip1.trans hp1, ip2.trans hp2, ip3.trans hp3⟩,
            ⟨iq1.trans hq1, iq2.trans hq2, iq3.trans hq3,
             iq4.trans hq4, iq5.trans hq5⟩, ⟨?_, ?_, ?_⟩, ?_, ?_⟩
          · -- fresh election: this port wins
            intro hnone p hp
            rw [hhit] at hp
            injection hp with hp
            subst hp
            rw [hnone] at he1 he2
            rw [if_pos rfl] at he1 he2
            have := ie3 ds.index he1
            exact ⟨this.1, this.2.trans he2⟩
          · intro hnil
            rw [hhit] at hnil
            exact absurd hnil (List.cons_ne_nil _ _)
          · intro v hv'
            rw [hv'] at he1 he2
            rw [if_neg (fun hh => Option.noConfusion hh)] at he1 he2
            have := ie3 v he1
            exact ⟨this.1, this.2.trans he2⟩
          · intro hnil
            rw [hhit] at hnil
            exact absurd hnil (List.cons_ne_nil _ _)
          · intro _
            by_cases hrest : cpuIdxs ds rest = []
            · rw [it1 (hidxs.trans hrest)]
              exact ht1
            · rw [it2 (fun hh => hrest (hidxs.symm.trans hh))]
              rw [hp3]
        · rw [dsa_ds_parse_go_cons_fail env dst ds rest hv hc hf] at h
          exact absurd h hf
      · rw [dsa_ds_parse_go_cons_noncpu env dst ds rest hv hc] at h ⊢
        rw [cpuIdxs_cons_miss ds rest
          (fun hh => hc ((Bool.and_eq_true _ _).mp hh).2)]
        exact ih dst ds h
    · rw [dsa_ds_parse_go_cons_invalid env dst ds rest hv] at h ⊢
      rw [cpuIdxs_cons_miss ds rest
        (fun hh => hv ((Bool.and_eq_true _ _).mp hh).1)]
      exact ih dst ds h

/-- `dsa_ds_parse_go_spec` restated for `dsa_ds_parse` itself, with
`cpuPortsOfSwitch` as the CPU-port list. -/
theorem dsa_ds_parse_spec (env : dsa_env) (dst : dsa_switch_tree)
    (ds : dsa_switch) (h : (dsa_ds_parse env dst ds).2 = 0) :
    ((dsa_ds_parse env dst ds).1.2.ports = ds.ports ∧
     (dsa_ds_parse env dst ds).1.2.index = ds.index ∧
     (dsa_ds_parse env dst ds).1.2.ops = ds.ops) ∧
    ((dsa_ds_parse env dst ds).1.1.ds = dst.ds ∧
     (dsa_ds_parse env dst ds).1.1.tree = dst.tree ∧
     (dsa_ds_parse env dst ds).1.1.refcount = dst.refcount ∧
     (dsa_ds_parse env dst ds).1.1.applied = dst.applied ∧
     (dsa_ds_parse env dst ds).1.1.dsa_ptr_set = dst.dsa_ptr_set) ∧
    ((dst.cpu_switch = none → ∀ p, (cpuPortsOfSwitch ds).head? = some p →
        (dsa_ds_parse env dst ds).1.1.cpu_switch = some ds.index ∧
        (dsa_ds_parse env dst ds).1.1.cpu_port = p) ∧
     (cpuPortsOfSwitch ds = [] →
        (dsa_ds_parse env dst ds).1.1.cpu_switch = dst.cpu_switch ∧
        (dsa_ds_parse env dst ds).1.1.cpu_port = dst.cpu_port) ∧
     (∀ v, dst.cpu_switch = some v →
        (dsa_ds_parse env dst ds).1.1.cpu_switch = some v ∧
        (dsa_ds_parse env dst ds).1.1.cpu_port = dst.cpu_port)) ∧
    ((cpuPortsOfSwitch ds = [] →
        (dsa_ds_parse env dst ds).1.1.tag_ops = dst.tag_ops) ∧
     (cpuPortsOfSwitch ds ≠ [] →
        (dsa_ds_parse env dst ds).1.1.tag_ops =
          env.resolveTag ds.ops.tag_protocol)) :=
  dsa_ds_parse_go_spec env (List.range ds.ports.length) dst ds h

/-- Slot-wise similarity of two trees: the same slots are occupied, by
switches with the same member index, ops and ports. -/
def slotSim (dst dst' : dsa_switch_tree) : Prop :=
  ∀ u, (dst'.ds.getD u none).map dsa_switch.index =
         (dst.ds.getD u none).map dsa_switch.index ∧
       (dst'.ds.getD u none).map dsa_switch.ops =
         (dst.ds.getD u none).map dsa_switch.ops ∧
       (dst'.ds.getD u none).map dsa_switch.ports =
         (dst.ds.getD u none).map dsa_switch.ports

theorem slotSim_refl (dst : dsa_switch_tree) : slotSim dst dst :=
  fun _ => ⟨rfl, rfl, rfl⟩

theorem slotSim_trans {a b c : dsa_switch_tree}
    (h1 : slotSim a b) (h2 : slotSim b c) : slotSim a c :=
  fun u => ⟨(h2 u).1.trans (h1 u).1, (h2 u).2.1.trans (h1 u).2.1,
    (h2 u).2.2.trans (h1 u).2.2⟩

theorem slotSim_of_ds_eq {a b : dsa_switch_tree} (h : b.ds = a.ds) :
    slotSim a b := fun u => by rw [h]; exact ⟨rfl, rfl, rfl⟩

theorem cpuPortsOfSwitch_congr {a b : dsa_switch} (h : b.ports = a.ports) :
    cpuPortsOfSwitch b = cpuPortsOfSwitch a := by
  simp only [cpuPortsOfSwitch, cpuIdxs, h]

theorem cpuPairsAt_of_slotSim {a b : dsa_switch_tree} (h : slotSim a b)
    (u : Nat) : cpuPairsAt b u = cpuPairsAt a u := by
  unfold cpuPairsAt
  obtain ⟨_, _, hports⟩ := h u
  cases hb : b.ds.getD u none with
  | none =>
    rw [hb] at hports
    cases ha : a.ds.getD u none with
    | none => rfl
    | some x => rw [ha] at hports; exact Option.noConfusion hports
  | some y =>
    rw [hb] at hports
    cases ha : a.ds.getD u none with
    | none => rw [ha] at hports; exact Option.noConfusion hports
    | some x =>
      rw [ha] at hports
      injection hports with hports
      show List.map (fun i => (u, i)) (cpuPortsOfSwitch y) =
        List.map (fun i => (u, i)) (cpuPortsOfSwitch x)
      rw [cpuPortsOfSwitch_congr hports]

theorem cpuPairs_congr {a b : dsa_switch_tree} (h : slotSim a b)
    (slots : List Nat) : cpuPairs b slots = cpuPairs a slots := by
  unfold cpuPairs
  rw [List.map_congr_left (fun u _ => cpuPairsAt_of_slotSim h u)]

theorem cpuPairs_nil (dst : dsa_switch_tree) : cpuPairs dst [] = [] := rfl

theorem cpuPairs_cons (dst : dsa_switch_tree) (s : Nat) (rest : List Nat) :
    cpuPairs dst (s :: rest) = cpuPairsAt dst s ++ cpuPairs dst rest := by
  simp only [cpuPairs, List.map_cons, List.flatten_cons]

theorem dsa_dst_parse_go_nil (env : dsa_env) (dst : dsa_switch_tree) :
    dsa_dst_parse_go env dst [] = (dst, 0) := rfl

theorem dsa_dst_parse_go_cons_none (env : dsa_env) (dst : dsa_switch_tree)
    {s : Nat} (rest : List Nat) (h : dst.ds.getD s none = none) :
    dsa_dst_parse_go env dst (s :: rest) = dsa_dst_parse_go env dst rest := by
  simp only [dsa_dst_parse_go, h]

theorem dsa_dst_parse_go_cons_fail (env : dsa_env) (dst : dsa_switch_tree)
    {s : Nat} (rest : List Nat) {ds : dsa_switch}
    (hds : dst.ds.getD s none = some ds)
    (hf : (dsa_ds_parse env dst ds).2 ≠ 0) :
    dsa_dst_parse_go env dst (s :: rest) =
      ({ (dsa_ds_parse env dst ds).1.1 with
          ds := (dsa_ds_parse env dst ds).1.1.ds.set s
            (some (dsa_ds_parse env dst ds).1.2) },
       (dsa_ds_parse env dst ds).2) := by
  simp only [dsa_dst_parse_go, hds]
  rw [if_pos hf]

theorem dsa_dst_parse_go_cons_ok (env : dsa_env) (dst : dsa_switch_tree)
    {s : Nat} (rest : List Nat) {ds : dsa_switch}
    (hds : dst.ds.getD s none = some ds)
    (hf : (dsa_ds_parse env dst ds).2 = 0) :
    dsa_dst_parse_go env dst (s :: rest) =
      dsa_dst_parse_go env
        { (dsa_ds_parse env dst ds).1.1 with
          ds := (dsa_ds_parse env dst ds).1.1.ds.set s
            (some (dsa_ds_parse env dst ds).1.2) } rest := by
  simp only [dsa_dst_parse_go, hds]
  rw [if_neg (not_not_intro hf)]

theorem cpuPairsAt_none {dst : dsa_switch_tree} {s : Nat}
    (h : dst.ds.getD s none = none) : cpuPairsAt dst s = [] := by
  unfold cpuPairsAt
  rw [h]

theorem cpuPairsAt_some {dst : dsa_switch_tree} {s : Nat} {ds : dsa_switch}
    (h : dst.ds.getD s none = some ds) :
    cpuPairsAt dst s = (cpuPortsOfSwitch ds).map (fun i => (s, i)) := by
  unfold cpuPairsAt
  rw [h]

/-- A slot occupied in the similar tree is occupied in the original by a
switch with the same index, ops and ports. -/
theorem slotSim_slot {a b : dsa_switch_tree} (h : slotSim a b) {u : Nat}
    {d : dsa_switch} (hb : b.ds.getD u none = some d) :
    ∃ c, a.ds.getD u none = some c ∧
      c.index = d.index ∧ c.ops = d.ops ∧ c.ports = d.ports := by
  obtain ⟨h1, h2, h3⟩ := h u
  rw [hb] at h1 h2 h3
  cases ha : a.ds.getD u none with
  | none =>
    rw [ha] at h1
    exact absurd h1 (by simp)
  | some c =>
    rw [ha] at h1 h2 h3
    simp only [Option.map_some'] at h1 h2 h3
    injection h1 with h1
    injection h2 with h2
    injection h3 with h3
    exact ⟨c, rfl, h1.symm, h2.symm, h3.symm⟩

/-- Success characterization of the `dsa_dst_parse` member loop: the tree
id is unchanged; the slots still hold switches with the same index, ops
and ports; when no CPU switch was elected on entry, the election lands on
the first valid CPU port in iteration order; an existing election is
kept; and `tag_ops` records the resolved handler set of the switch owning
the LAST valid CPU port in iteration order. -/
theorem dsa_dst_parse_go_spec (env : dsa_env) (slots : List Nat) :
    ∀ dst, (dsa_dst_parse_go env dst slots).2 = 0 →
    ((dsa_dst_parse_go env dst slots).1.tree = dst.tree) ∧
    slotSim dst (dsa_dst_parse_go env dst slots).1 ∧
    (dst.cpu_switch = none → ∀ p, (cpuPairs dst slots).head? = some p →
      ∃ ds, dst.ds.getD p.1 none = some ds ∧
        (dsa_dst_parse_go env dst slots).1.cpu_switch = some ds.index ∧
        (dsa_dst_parse_go env dst slots).1.cpu_port = p.2) ∧
    (cpuPairs dst slots = [] →
      (dsa_dst_parse_go env dst slots).1.cpu_switch = dst.cpu_switch ∧
      (dsa_dst_parse_go env dst slots).1.cpu_port = dst.cpu_port ∧
      (dsa_dst_parse_go env dst slots).1.tag_ops = dst.tag_ops) ∧
    (∀ v, dst.cpu_switch = some v →
      (dsa_dst_parse_go env dst slots).1.cpu_switch = some v ∧
      (dsa_dst_parse_go env dst slots).1.cpu_port = dst.cpu_port) ∧
    (∀ p, (cpuPairs dst slots).getLast? = some p →
      ∃ ds, dst.ds.getD p.1 none = some ds ∧
        (dsa_dst_parse_go env dst slots).1.tag_ops =
          env.resolveTag ds.ops.tag_protocol) := by
  induction slots with
  | nil =>
    intro dst _
    exact ⟨rfl, slotSim_refl dst,
      fun _ p hp => Option.noConfusion hp,
      fun _ => ⟨rfl, rfl, rfl⟩,
      fun v hv => ⟨hv, rfl⟩,
      fun p hp => Option.noConfusion hp⟩
  | cons s rest ih =>
    intro dst h
    cases hds : dst.ds.getD s none with
    | none =>
      rw [dsa_dst_parse_go_cons_none env dst rest hds] at h ⊢
      rw [cpuPairs_cons, cpuPairsAt_none hds, List.nil_append]
      exact ih dst h
    | some ds =>
      by_cases hf : (dsa_ds_parse env dst ds).2 = 0
      · rw [dsa_dst_parse_go_cons_ok env dst rest hds hf] at h ⊢
        set dst' := { (dsa_ds_parse env dst ds).1.1 with
          ds := (dsa_ds_parse env dst ds).1.1.ds.set s
            (some (dsa_ds_parse env dst ds).1.2) }
        obtain ⟨⟨hp1, hp2, hp3⟩, ⟨hq1, hq2, hq3, hq4, hq5⟩,
          ⟨he1, he2, he3⟩, ht1, ht2⟩ := dsa_ds_parse_spec env dst ds hf
        have hlen : s < dst.ds.length :=
          getD_lt_length hds (fun hh => Option.noConfusion hh)
        have hd_cs : dst'.cpu_switch = (dsa_ds_parse env dst ds).1.1.cpu_switch := rfl
        have hd_cp : dst'.cpu_port = (dsa_ds_parse env dst ds).1.1.cpu_port := rfl
        have hd_to : dst'.tag_ops = (dsa_ds_parse env dst ds).1.1.tag_ops := rfl
        have hd_tree : dst'.tree = (dsa_ds_parse env dst ds).1.1.tree := rfl
        have hsim : slotSim dst dst' := by
          intro u
          by_cases hu : u = s
          · subst hu
            have hget : dst'.ds.getD u none =
                some (dsa_ds_parse env dst ds).1.2 := by
              show ((dsa_ds_parse env dst ds).1.1.ds.set u
                (some (dsa_ds_parse env dst ds).1.2)).getD u none = _
              exact getD_set_self _ u _ none (by rw [hq1]; exact hlen)
            rw [hget, hds]
            simp only [Option.map_some']
            exact ⟨congrArg some hp2, congrArg some hp3, congrArg some hp1⟩
          · have hget : dst'.ds.getD u none = dst.ds.getD u none := by
              show ((dsa_ds_parse env dst ds).1.1.ds.set s
                (some (dsa_ds_parse env dst ds).1.2)).getD u none = _
              rw [getD_set_ne _ _ _ (fun hh => hu hh.symm), hq1]
            rw [hget]
            exact ⟨rfl, rfl, rfl⟩
        have hpairs_rest : cpuPairs dst' rest = cpuPairs dst rest :=
          cpuPairs_congr hsim rest
        have hpairsAt : cpuPairsAt dst s =
            (cpuPortsOfSwitch ds).map (fun i => (s, i)) := cpuPairsAt_some hds
        obtain ⟨iht, ihsim, ih3, ih4, ih5, ih6⟩ := ih dst' h
        refine ⟨?_, slotSim_trans hsim ihsim, ?_, ?_, ?_, ?_⟩
        · rw [iht, hd_tree, hq2]
        · -- fresh election: first (slot, port) pair in iteration order wins
          intro hnone p hp
          rw [cpuPairs_cons, hpairsAt] at hp
          cases hA : cpuPortsOfSwitch ds with
          | nil =>
            rw [hA, List.map_nil, List.nil_append] at hp
            have hksw : dst'.cpu_switch = none := by
              rw [hd_cs, (he2 hA).1, hnone]
            obtain ⟨ds2, hds2, hsw, hcp⟩ :=
              ih3 hksw p (by rw [hpairs_rest]; exact hp)
            obtain ⟨c, hc0, hci, _, _⟩ := slotSim_slot hsim hds2
            refine ⟨c, hc0, ?_, hcp⟩
            rw [hsw, hci]
          | cons j js =>
            rw [hA, List.map_cons, List.cons_append] at hp
            have hp' : (s, j) = p := by
              rw [List.head?_cons] at hp
              injection hp
            subst hp'
            have hj : (cpuPortsOfSwitch ds).head? = some j := by rw [hA]; rfl
            have hel := he1 hnone j hj
            have hksw : dst'.cpu_switch = some ds.index := by rw [hd_cs, hel.1]
            have hfin := ih5 ds.index hksw
            refine ⟨ds, hds, hfin.1, ?_⟩
            rw [hfin.2, hd_cp, hel.2]
        · -- no CPU port anywhere: nothing changes
          intro hnil
          rw [cpuPairs_cons, hpairsAt] at hnil
          cases hA : cpuPortsOfSwitch ds with
          | cons j js =>
            rw [hA, List.map_cons, List.cons_append] at hnil
            exact absurd hnil (List.cons_ne_nil _ _)
          | nil =>
            rw [hA, List.map_nil, List.nil_append] at hnil
            have h4 := ih4 (by rw [hpairs_rest]; exact hnil)
            have hpres := he2 hA
            have htag := ht1 hA
            exact ⟨h4.1.trans (hd_cs.trans hpres.1),
              h4.2.1.trans (hd_cp.trans hpres.2),
              h4.2.2.trans (hd_to.trans htag)⟩
        · -- an existing election is kept
          intro v hv
          have hres := he3 v hv
          have hksw : dst'.cpu_switch = some v := hd_cs.trans hres.1
          have hfin := ih5 v hksw
          exact ⟨hfin.1, hfin.2.trans (hd_cp.trans hres.2)⟩
        · -- the tag handler comes from the last (slot, port) pair
          intro p hp
          rw [cpuPairs_cons, hpairsAt] at hp
          cases hA : cpuPortsOfSwitch ds with
          | nil =>
            rw [hA, List.map_nil, List.nil_append] at hp
            obtain ⟨ds2, hds2, htag⟩ := ih6 p (by rw [hpairs_rest]; exact hp)
            obtain ⟨c, hc0, _, hco, _⟩ := slotSim_slot hsim hds2
            refine ⟨c, hc0, ?_⟩
            rw [htag, hco]
          | cons j js =>
            rw [hA, List.map_cons] at hp
            by_cases hB : cpuPairs dst rest = []
            · rw [hB, List.append_nil] at hp
              have hpm : p ∈ (s, j) :: List.map (fun i => (s, i)) js :=
                List.mem_of_mem_getLast? hp
              have hp1 : p.1 = s := by
                rcases List.mem_cons.mp hpm with hh | hh
                · rw [hh]
                · obtain ⟨a, _, ha2⟩ := List.mem_map.mp hh
                  rw [← ha2]
              have h4 := ih4 (by rw [hpairs_rest]; exact hB)
              have htag := ht2 (by rw [hA]; exact List.cons_ne_nil _ _)
              refine ⟨ds, ?_, ?_⟩
              · rw [hp1]
                exact hds
              · rw [h4.2.2, hd_to, htag]
            · rw [List.getLast?_append_of_ne_nil _ hB] at hp
              obtain ⟨ds2, hds2, htag⟩ :=
                ih6 p (by rw [hpairs_rest]; exact hp)
              obtain ⟨c, hc0, _, hco, _⟩ := slotSim_slot hsim hds2
              refine ⟨c, hc0, ?_⟩
              rw [htag, hco]
      · rw [dsa_dst_parse_go_cons_fail env dst rest hds hf] at h
        exact absurd h hf

/-- A successful `dsa_dst_parse` is a successful member loop followed by a
passed master-device check. -/
theorem dsa_dst_parse_ok {env : dsa_env} {dst : dsa_switch_tree}
    (h : (dsa_dst_parse env dst).2 = 0) :
    (dsa_dst_parse_go env dst (List.range DSA_MAX_SWITCHES)).2 = 0 ∧
    (dsa_dst_parse env dst).1 =
      (dsa_dst_parse_go env dst (List.range DSA_MAX_SWITCHES)).1 := by
  simp only [dsa_dst_parse] at h ⊢
  by_cases hg : (dsa_dst_parse_go env dst (List.range DSA_MAX_SWITCHES)).2 = 0
  · refine ⟨hg, ?_⟩
    rw [if_neg (not_not_intro hg)] at h ⊢
    by_cases hm : (dsa_dst_parse_go env dst
        (List.range DSA_MAX_SWITCHES)).1.master_netdev = none
    · rw [if_pos hm] at h
      have h2 : EINVAL = 0 := h
      exact absurd h2 (by decide)
    · rw [if_neg hm]
  · rw [if_pos hg] at h
    exact absurd h hg

/-- C7: during protocol negotiation on a tree with no CPU switch elected
yet, the first valid CPU port in iteration order (lowest member slot, then
lowest port index) is elected as the tree's CPU switch and CPU port; but
because `dsa_cpu_parse` overwrites `dst->tag_ops` for every CPU port it
visits, the recorded tag-protocol handler set is the one resolved from the
switch owning the LAST valid CPU port in iteration order, not the elected
first one (they coincide only when both ports belong to switches with the
same resolved handler set). -/
theorem c7_cpu_election (env : dsa_env) (dst : dsa_switch_tree)
    (hpre : dst.cpu_switch = none)
    (hidx : ∀ s ds, dst.ds.getD s none = some ds → ds.index = s)
    (hs : (dsa_dst_parse env dst).2 = 0) :
    (∀ p, (cpuPortsOfTree dst).head? = some p →
      (dsa_dst_parse env dst).1.cpu_switch = some p.1 ∧
      (dsa_dst_parse env dst).1.cpu_port = p.2) ∧
    (∀ p, (cpuPortsOfTree dst).getLast? = some p →
      ∃ ds, dst.ds.getD p.1 none = some ds ∧
        (dsa_dst_parse env dst).1.tag_ops =
          env.resolveTag ds.ops.tag_protocol) := by
  obtain ⟨hg, heq⟩ := dsa_dst_parse_ok hs
  obtain ⟨_, _, h3, _, _, h6⟩ :=
    dsa_dst_parse_go_spec env (List.range DSA_MAX_SWITCHES) dst hg
  constructor
  · intro p hp
    obtain ⟨ds, hds, hsw, hcp⟩ := h3 hpre p hp
    rw [heq]
    refine ⟨?_, hcp⟩
    rw [hsw, hidx p.1 ds hds]
  · intro p hp
    obtain ⟨ds, hds, htag⟩ := h6 p hp
    rw [heq]
    exact ⟨ds, hds, htag⟩

/-- First member of the two-switch tree exercising the C7 election: one
valid CPU port (an `"ethernet"` phandle to node `100`), tag protocol `1`. -/
def c7sw0 : dsa_switch :=
  { index := 0,
    ports := [⟨some ⟨10, [], some 100, none⟩, none, none⟩],
    enabled_port_mask := 0, cpu_port_mask := 0, dsa_port_mask := 0,
    phys_mii_mask := 0, rtable := [-1, -1, -1, -1], master_netdev := none,
    slave_mii_bus := false, ops := ⟨0, none, false, 1⟩, cd := none }

/-- Second member: one valid CPU port (phandle to node `101`), tag
protocol `2`. -/
def c7sw1 : dsa_switch :=
  { index := 1,
    ports := [⟨some ⟨11, [], some 101, none⟩, none, none⟩],
    enabled_port_mask := 0, cpu_port_mask := 0, dsa_port_mask := 0,
    phys_mii_mask := 0, rtable := [-1, -1, -1, -1], master_netdev := none,
    slave_mii_bus := false, ops := ⟨0, none, false, 2⟩, cd := none }

/-- Two-member tree with CPU ports on both members and no election yet. -/
def c7tree : dsa_switch_tree :=
  { tree := 0, refcount := 1, applied := false, master_netdev := none,
    cpu_switch := none, cpu_port := 0, tag_ops := none, dsa_ptr_set := false,
    ds := [some c7sw0, some c7sw1, none, none] }

/-- Environment for the C7 inputs: both ethernet devices are live, and
the two tag protocols resolve to the distinct handler sets `10` and
`20`. -/
def c7env : dsa_env :=
  { findNetDevice := fun n =>
      if n = 100 then some 200 else if n = 101 then some 201 else none,
    devToNetDevice := fun _ => none,
    resolveTag := fun p =>
      if p = 1 then some 10 else if p = 2 then some 20 else none,
    registerNotifier := fun _ => 0,
    mdiobusAlloc := fun _ => true, mdiobusRegister := fun _ => 0,
    cpuDsaSetup := fun _ _ => 0,
    slaveCreate := fun _ _ _ => Except.ok 7,
    ethtoolSetup := fun _ => 0 }

/-- Witness for `c7_cpu_election` on `c7tree` under `c7env`: parsing
succeeds and the first CPU port in iteration order, port 0 of member 0,
is elected. -/
theorem c7_cpu_election_witness :
    c7tree.cpu_switch = none ∧
    (dsa_dst_parse c7env c7tree).2 = 0 ∧
    (dsa_dst_parse c7env c7tree).1.cpu_switch = some 0 ∧
    (dsa_dst_parse c7env c7tree).1.cpu_port = 0 := by
  have hidx : ∀ s ds, c7tree.ds.getD s none = some ds → ds.index = s := by
    intro s ds h
    match s with
    | 0 =>
      have h0 : some c7sw0 = some ds := h
      injection h0 with h0
      subst h0
      rfl
    | 1 =>
      have h1 : some c7sw1 = some ds := h
      injection h1 with h1
      subst h1
      rfl
    | 2 => exact Option.noConfusion h
    | 3 => exact Option.noConfusion h
    | (n + 4) =>
      rw [List.getD_eq_default _ _ (Nat.le_add_left 4 n)] at h
      exact Option.noConfusion h
  have hmain := c7_cpu_election c7env c7tree rfl hidx (by decide)
  have hfirst := hmain.1 (0, 0) (by decide)
  exact ⟨rfl, by decide, hfirst.1, hfirst.2⟩

/-- Counterexample to the tag-recording half of claim C7 as stated: on
`c7tree`, member 0's CPU port is elected (first in iteration order), its
switch's protocol resolves to handler set `10`, yet the tree records
handler set `20` - the one resolved from member 1, the last CPU port
visited. -/
theorem c7_counterexample :
    (dsa_dst_parse c7env c7tree).2 = 0 ∧
    (dsa_dst_parse c7env c7tree).1.cpu_switch = some 0 ∧
    (dsa_dst_parse c7env c7tree).1.cpu_port = 0 ∧
    (dsa_dst_parse c7env c7tree).1.tag_ops = some 20 ∧
    (c7tree.ds.getD 0 none).map
      (fun d => c7env.resolveTag d.ops.tag_protocol) = some (some 10) ∧
    some (10 : Nat) ≠ some 20 := by decide

/-! ## Device-tree / platform inputs of `_dsa_register_switch` -/

/-- A child node of the `"ports"` container: its `"reg"` property (`none`
when absent) and the port device node itself. -/
structure port_device_node where
  reg : Option Nat
  node : device_node
deriving DecidableEq

/-- The switch's own device node as read by this source file: the
`"dsa,member"` u32 array (`none` when the property is absent) and the
`"ports"` child node's children (`none` when there is no `"ports"`
child). -/
structure switch_device_node where
  member : Option (List Nat)
  ports : Option (List port_device_node)
deriving DecidableEq

/-- A `struct device`: its OF node and its platform data. -/
structure device where
  of_node : Option switch_device_node
  platform_data : Option dsa_chip_data
deriving DecidableEq

/-- `of_property_read_u32_index(np, "dsa,member", index, out)`: `-EINVAL`
when the property does not exist, `-EOVERFLOW` when it has fewer than
`index + 1` values. -/
def of_property_read_u32_index (np : switch_device_node) (idx : Nat) :
    Except Int Nat :=
  match np.member with
  | none => Except.error EINVAL
  | some vals =>
    match vals[idx]? with
    | none => Except.error EOVERFLOW
    | some v => Except.ok v

/-- `dsa_parse_member_dn`: read `(tree, index)` from `"dsa,member"`.  Both
default to `0`; a missing property is optional (success with `(0, 0)`),
any other read failure propagates, and `index >= DSA_MAX_SWITCHES` is
rejected with `-EINVAL`. -/
def dsa_parse_member_dn (np : switch_device_node) : (Nat × Nat) × Int :=
  match of_property_read_u32_index np 0 with
  | Except.error e => if e = EINVAL then ((0, 0), 0) else ((0, 0), e)
  | Except.ok t =>
    match of_property_read_u32_index np 1 with
    | Except.error e => ((t, 0), e)
    | Except.ok i =>
      if i ≥ DSA_MAX_SWITCHES then ((t, i), EINVAL) else ((t, i), 0)

/-- `dsa_get_ports`: the `"ports"` child node, `-EINVAL` when absent. -/
def dsa_get_ports (np : switch_device_node) :
    Except Int (List port_device_node) :=
  match np.ports with
  | none => Except.error EINVAL
  | some ports => Except.ok ports

/-- `dsa_parse_ports_dn`: for each child of `"ports"`, read its `"reg"`
(failure propagates), reject `reg >= num_ports`, record the port's device
node and pre-set the enabled bit of every non-CPU port. -/
def dsa_parse_ports_dn : List port_device_node → dsa_switch → dsa_switch × Int
  | [], ds => (ds, 0)
  | pn :: rest, ds =>
    match pn.reg with
    | none => (ds, EINVAL)
    | some reg =>
      if reg ≥ ds.ports.length then (ds, EINVAL)
      else
        let ds1 := { ds with ports := ds.ports.set reg { ds.ports.getD reg default with dn := some pn.node } }
        let ds2 := if ¬ dsa_port_is_cpu (ds1.ports.getD reg default) then
            { ds1 with enabled_port_mask := ds1.enabled_port_mask ||| BIT reg }
          else ds1
        dsa_parse_ports_dn rest ds2

/-- The per-index loop of `dsa_parse_ports` (platform-data mode): adopt
every present port name, pre-set the enabled bit of every non-CPU port,
and remember whether any name was found. -/
def dsa_parse_ports_go (cd : dsa_chip_data) :
    List Nat → dsa_switch → Bool → dsa_switch × Bool
  | [], ds, found => (ds, found)
  | i :: rest, ds, found =>
    match cd.port_names.getD i none with
    | none => dsa_parse_ports_go cd rest ds found
    | some nm =>
      let ds1 := { ds with ports := ds.ports.set i { ds.ports.getD i default with name := some nm } }
      let ds2 := if ¬ dsa_port_is_cpu (ds1.ports.getD i default) then
          { ds1 with enabled_port_mask := ds1.enabled_port_mask ||| BIT i }
        else ds1
      dsa_parse_ports_go cd rest ds2 true

/-- `dsa_parse_ports`: `-EINVAL` when no port name at all was found. -/
def dsa_parse_ports (cd : dsa_chip_data) (ds : dsa_switch) :
    dsa_switch × Int :=
  let res := dsa_parse_ports_go cd (List.range DSA_MAX_PORTS) ds false
  if ¬ res.2 then (res.1, EINVAL) else (res.1, 0)

/-! ## `_dsa_register_switch` -/

/-- The switch state stored into its slot: `ds->index = index`,
`ds->cd = pdata`, and the routing table reset to `DSA_RTABLE_NONE` in all
`DSA_MAX_SWITCHES` entries (`ds->dst` is the containing tree itself). -/
def register_prep (ds : dsa_switch) (index : Nat)
    (pdata : Option dsa_chip_data) : dsa_switch :=
  { ds with
    index := index,
    cd := pdata,
    rtable := (List.range DSA_MAX_SWITCHES).foldl
      (fun r i => r.set i DSA_RTABLE_NONE) ds.rtable }

/-- The `out_del_dst`/`out` epilogue of `_dsa_register_switch`: clear the
member slot and drop the member reference, then drop the transient
get/create reference, returning `err`. -/
def register_out_del_dst (dst : dsa_switch_tree) (ds : dsa_switch)
    (index : Nat) (err : Int) : Option dsa_switch_tree × Int :=
  match dsa_dst_del_ds dst ds index with
  | none => (none, err)
  | some d => (dsa_put_dst d, err)

/-- `_dsa_register_switch` from the member insertion on: run topology
resolution; on Incomplete park the switch (success); on a tree already
applied fail with `-EINVAL` WITHOUT any cleanup; run protocol negotiation,
where `-EPROBE_DEFER` vacates the slot but keeps the transient reference;
apply, unapplying and unwinding on failure; on success drop only the
transient reference. -/
def dsa_register_tail (env : dsa_env) (dst1 : dsa_switch_tree)
    (ds1 : dsa_switch) (index : Nat) : Option dsa_switch_tree × Int :=
  let cres := dsa_dst_complete dst1
  if cres.2 < 0 then register_out_del_dst cres.1 ds1 index cres.2
  else if cres.2 = 1 then (dsa_put_dst cres.1, 0)
  else if cres.1.applied then (some cres.1, EINVAL)
  else
    let pres := dsa_dst_parse env cres.1
    if pres.2 ≠ 0 then
      if pres.2 = EPROBE_DEFER then
        (dsa_dst_del_ds pres.1 ds1 index, EPROBE_DEFER)
      else register_out_del_dst pres.1 ds1 index pres.2
    else
      let appl := dsa_dst_apply env pres.1
      if appl.2 ≠ 0 then
        register_out_del_dst (dsa_dst_unapply env appl.1) ds1 index appl.2
      else (dsa_put_dst appl.1, 0)

/-- `_dsa_register_switch` from the registry lookup on: find or create the
tree of id `tree` (allocation is modelled as always succeeding), fail with
`-EBUSY` when the member slot is taken, otherwise insert the prepared
switch and continue with `dsa_register_tail`. -/
def dsa_register_core (env : dsa_env) (regs : Option dsa_switch_tree)
    (ds : dsa_switch) (pdata : Option dsa_chip_data) (tree index : Nat) :
    Option dsa_switch_tree × Int :=
  let dst := match dsa_get_dst regs tree with
             | some d => d
             | none => dsa_add_dst tree
  if (dst.ds.getD index none).isSome then (dsa_put_dst dst, EBUSY)
  else
    dsa_register_tail env
      (dsa_dst_add_ds dst (register_prep ds index pdata) index)
      (register_prep ds index pdata) index

/-- `_dsa_register_switch`: with an OF node, read `"dsa,member"` and the
`"ports"` children; without one, fall back to platform data
(`-ENODEV` when absent, member `(0, 0)`).  Then register into the
resulting tree slot. -/
def _dsa_register_switch (env : dsa_env) (regs : Option dsa_switch_tree)
    (ds : dsa_switch) (dev : device) : Option dsa_switch_tree × Int :=
  match dev.of_node with
  | some np =>
    let mres := dsa_parse_member_dn np
    if mres.2 ≠ 0 then (regs, mres.2)
    else
      match dsa_get_ports np with
      | Except.error e => (regs, e)
      | Except.ok ports =>
        let pres := dsa_parse_ports_dn ports ds
        if pres.2 ≠ 0 then (regs, pres.2)
        else dsa_register_core env regs pres.1 dev.platform_data
          mres.1.1 mres.1.2
  | none =>
    match dev.platform_data with
    | none => (regs, ENODEV)
    | some pd =>
      let pres := dsa_parse_ports pd ds
      if pres.2 ≠ 0 then (regs, pres.2)
      else dsa_register_core env regs pres.1 dev.platform_data 0 0

/-- The member loop of `dsa_dst_complete` only rewrites member switches in
place: refcount, applied flag, tree id and slot occupancy are
preserved. -/
theorem dsa_dst_complete_go_fields (slots : List Nat) :
    ∀ dst : dsa_switch_tree,
    (dsa_dst_complete_go dst slots).1.refcount = dst.refcount ∧
    (dsa_dst_complete_go dst slots).1.applied = dst.applied ∧
    (dsa_dst_complete_go dst slots).1.tree = dst.tree ∧
    ∀ u, ((dsa_dst_complete_go dst slots).1.ds.getD u none).isSome =
      (dst.ds.getD u none).isSome := by
  induction slots with
  | nil => exact fun dst => ⟨rfl, rfl, rfl, fun u => rfl⟩
  | cons i rest ih =>
    intro dst
    cases hds : dst.ds.getD i none with
    | none =>
      rw [dsa_dst_complete_go_cons_none rest hds]
      exact ih dst
    | some ds =>
      have hlen : i < dst.ds.length :=
        getD_lt_length hds (fun hh => Option.noConfusion hh)
      have hslot : ∀ u,
          (({ dst with ds := dst.ds.set i (some (dsa_ds_complete dst ds).1) }
            : dsa_switch_tree).ds.getD u none).isSome =
          (dst.ds.getD u none).isSome := by
        intro u
        by_cases hu : u = i
        · subst hu
          show ((dst.ds.set u (some (dsa_ds_complete dst ds).1)).getD u none).isSome = _
          rw [getD_set_self _ u _ none hlen, hds]
          rfl
        · show ((dst.ds.set i (some (dsa_ds_complete dst ds).1)).getD u none).isSome = _
          rw [getD_set_ne _ _ _ (fun hh => hu hh.symm)]
      by_cases hz : (dsa_ds_complete dst ds).2 = 0
      · rw [dsa_dst_complete_go_cons_ok rest hds hz]
        obtain ⟨i1, i2, i3, i4⟩ :=
          ih { dst with ds := dst.ds.set i (some (dsa_ds_complete dst ds).1) }
        exact ⟨i1, i2, i3, fun u => (i4 u).trans (hslot u)⟩
      · rw [dsa_dst_complete_go_cons_fail rest hds hz]
        exact ⟨rfl, rfl, rfl, hslot⟩

/-- `dsa_dst_complete_go_fields` for `dsa_dst_complete`. -/
theorem dsa_dst_complete_fields (dst : dsa_switch_tree) :
    (dsa_dst_complete dst).1.refcount = dst.refcount ∧
    (dsa_dst_complete dst).1.applied = dst.applied ∧
    (dsa_dst_complete dst).1.tree = dst.tree ∧
    ∀ u, ((dsa_dst_complete dst).1.ds.getD u none).isSome =
      (dst.ds.getD u none).isSome :=
  dsa_dst_complete_go_fields (List.range DSA_MAX_SWITCHES) dst

/-! ## C10: a missing "dsa,member" property silently means tree 0, index 0 -/

/-- C10: in device-tree mode, a switch node without any `"dsa,member"`
property does not fail registration with a malformed-input error:
`dsa_parse_member_dn` succeeds with tree id `0` and member index `0`, the
register call proceeds into tree `0` slot `0`, and hence any two such
switches compete for that one slot - when the registry already holds tree
`0` with slot `0` occupied, the call fails with `-EBUSY`. -/
theorem c10_member_absent (env : dsa_env) (regs : Option dsa_switch_tree)
    (ds : dsa_switch) (dev : device) (np : switch_device_node)
    (pl : List port_device_node)
    (h1 : dev.of_node = some np)
    (h2 : np.member = none)
    (h3 : np.ports = some pl)
    (h4 : (dsa_parse_ports_dn pl ds).2 = 0) :
    dsa_parse_member_dn np = ((0, 0), 0) ∧
    _dsa_register_switch env regs ds dev =
      dsa_register_core env regs (dsa_parse_ports_dn pl ds).1
        dev.platform_data 0 0 ∧
    (∀ t0, regs = some t0 → t0.tree = 0 →
      (t0.ds.getD 0 none).isSome = true →
      (_dsa_register_switch env regs ds dev).2 = EBUSY) := by
  have hm : dsa_parse_member_dn np = ((0, 0), 0) := by
    unfold dsa_parse_member_dn of_property_read_u32_index
    rw [h2]
    decide
  have hreg : _dsa_register_switch env regs ds dev =
      dsa_register_core env regs (dsa_parse_ports_dn pl ds).1
        dev.platform_data 0 0 := by
    simp only [_dsa_register_switch, h1, hm, dsa_get_ports, h3, h4, reduceIte]
    rw [if_neg (fun hh : (0 : Int) ≠ 0 => hh rfl),
      if_neg (fun hh : (0 : Int) ≠ 0 => hh rfl)]
  refine ⟨hm, hreg, ?_⟩
  intro t0 ht0 htree hocc
  subst ht0
  rw [hreg]
  simp only [dsa_register_core, dsa_get_dst, htree, kref_get, reduceIte, hocc]

/-- One-port switch used by the concrete register scenarios (ports are
populated by the parse stage). -/
def regSwitch1 : dsa_switch :=
  { index := 0, ports := [⟨none, none, none⟩], enabled_port_mask := 0,
    cpu_port_mask := 0, dsa_port_mask := 0, phys_mii_mask := 0,
    rtable := [-1, -1, -1, -1], master_netdev := none,
    slave_mii_bus := false, ops := ⟨0, none, false, 0⟩, cd := none }

/-- A port-less member switch occupying a slot in pre-existing trees of
the concrete register scenarios. -/
def regSwitchEmpty : dsa_switch :=
  { index := 0, ports := [], enabled_port_mask := 0, cpu_port_mask := 0,
    dsa_port_mask := 0, phys_mii_mask := 0, rtable := [-1, -1, -1, -1],
    master_netdev := none, slave_mii_bus := false,
    ops := ⟨0, none, false, 0⟩, cd := none }

/-- Environment in which no ethernet device is live yet (so CPU-port
resolution defers) and tag protocols resolve fine. -/
def deadEnv : dsa_env :=
  { findNetDevice := fun _ => none, devToNetDevice := fun _ => none,
    resolveTag := fun _ => some 5, registerNotifier := fun _ => 0,
    mdiobusAlloc := fun _ => true, mdiobusRegister := fun _ => 0,
    cpuDsaSetup := fun _ _ => 0, slaveCreate := fun _ _ _ => Except.ok 7,
    ethtoolSetup := fun _ => 0 }

/-- Switch node with no `"dsa,member"` property and one CPU port. -/
def c10np : switch_device_node :=
  { member := none, ports := some [⟨some 0, ⟨70, [], some 80, none⟩⟩] }

/-- Device wrapping `c10np`. -/
def c10dev : device := { of_node := some c10np, platform_data := none }

/-- Registry state holding tree `0` with member slot `0` already taken. -/
def c10t0 : dsa_switch_tree :=
  { tree := 0, refcount := 2, applied := false, master_netdev := none,
    cpu_switch := none, cpu_port := 0, tag_ops := none, dsa_ptr_set := false,
    ds := [some regSwitchEmpty, none, none, none] }

/-- Witness for `c10_member_absent`: the member-less `c10np` parses to
tree `0` index `0` with no error, and registering it while tree `0` slot
`0` is taken fails with `-EBUSY`. -/
theorem c10_member_absent_witness :
    dsa_parse_member_dn c10np = ((0, 0), 0) ∧
    (_dsa_register_switch deadEnv (some c10t0) regSwitch1 c10dev).2 = EBUSY := by
  have h := c10_member_absent deadEnv (some c10t0) regSwitch1 c10dev c10np
    [⟨some 0, ⟨70, [], some 80, none⟩⟩] rfl rfl rfl (by decide)
  exact ⟨h.1, h.2.2 c10t0 rfl rfl (by decide)⟩

/-! ## C2: the deferred path leaks the transient tree reference -/

/-- Switch node with one CPU port whose `"ethernet"` target (node `90`)
is not a live net device under `deadEnv`. -/
def c2np : switch_device_node :=
  { member := none, ports := some [⟨some 0, ⟨30, [], some 90, none⟩⟩] }

/-- Device wrapping `c2np`. -/
def c2dev : device := { of_node := some c2np, platform_data := none }

/-- C2: registering a switch whose CPU port's ethernet device is not live
yet returns `-EPROBE_DEFER` with the member slot vacated - but the
transient reference taken by the registry lookup/creation is NOT released:
the tree stays behind with reference count `1` and no members, and a
second (retried and again deferred) call leaves it at `2`, instead of the
registry state being fully unwound to its pre-call value. -/
theorem c2_defer_leak :
    ((_dsa_register_switch deadEnv none regSwitch1 c2dev).2 = EPROBE_DEFER ∧
     (_dsa_register_switch deadEnv none regSwitch1 c2dev).1.map
       (fun t => (t.refcount, t.ds)) = some (1, [none, none, none, none])) ∧
    ((_dsa_register_switch deadEnv
        (_dsa_register_switch deadEnv none regSwitch1 c2dev).1
        regSwitch1 c2dev).2 = EPROBE_DEFER ∧
     (_dsa_register_switch deadEnv
        (_dsa_register_switch deadEnv none regSwitch1 c2dev).1
        regSwitch1 c2dev).1.map (fun t => t.refcount) = some 2) := by decide

/-! ## C9: registering into an already-applied tree fails without unwinding -/

/-- C9: when topology resolution returns Complete but the tree is already
marked applied, register fails with `-EINVAL` and performs no cleanup at
all: the switch stays in its slot, and neither the member reference nor
the transient lookup reference is released, so the tree's reference count
remains `2` above its pre-call value. -/
theorem c9_applied_no_unwind (env : dsa_env) (t0 : dsa_switch_tree)
    (ds : dsa_switch) (dev : device) (np : switch_device_node)
    (pl : List port_device_node) (tr idx : Nat)
    (h1 : dev.of_node = some np)
    (h2 : dsa_parse_member_dn np = ((tr, idx), 0))
    (h3 : np.ports = some pl)
    (h4 : (dsa_parse_ports_dn pl ds).2 = 0)
    (h5 : t0.tree = tr)
    (h6 : t0.ds.getD idx none = none)
    (h7 : t0.applied = true)
    (h8 : idx < t0.ds.length)
    (hc : (dsa_dst_complete (dsa_dst_add_ds (kref_get t0)
      (register_prep (dsa_parse_ports_dn pl ds).1 idx dev.platform_data)
      idx)).2 = 0) :
    (_dsa_register_switch env (some t0) ds dev).2 = EINVAL ∧
    ∃ T, (_dsa_register_switch env (some t0) ds dev).1 = some T ∧
      T.refcount = t0.refcount + 2 ∧
      (T.ds.getD idx none).isSome = true ∧
      T.applied = true := by
  have hreg : _dsa_register_switch env (some t0) ds dev =
      dsa_register_core env (some t0) (dsa_parse_ports_dn pl ds).1
        dev.platform_data tr idx := by
    simp only [_dsa_register_switch, h1, h2, dsa_get_ports, h3, h4, reduceIte]
    rw [if_neg (fun hh : (0 : Int) ≠ 0 => hh rfl),
      if_neg (fun hh : (0 : Int) ≠ 0 => hh rfl)]
  have hbusy : ((kref_get t0).ds.getD idx none).isSome = false := by
    simp only [kref_get]
    rw [h6]
    rfl
  have happ : (dsa_dst_complete (dsa_dst_add_ds (kref_get t0)
      (register_prep (dsa_parse_ports_dn pl ds).1 idx dev.platform_data)
      idx)).1.applied = true := by
    rw [(dsa_dst_complete_fields _).2.1]
    exact h7
  have hcore : dsa_register_core env (some t0) (dsa_parse_ports_dn pl ds).1
      dev.platform_data tr idx =
      (some (dsa_dst_complete (dsa_dst_add_ds (kref_get t0)
        (register_prep (dsa_parse_ports_dn pl ds).1 idx dev.platform_data)
        idx)).1, EINVAL) := by
    simp only [dsa_register_core, dsa_get_dst, h5, reduceIte, hbusy,
      dsa_register_tail, hc, happ]
    rw [if_neg (fun hh : false = true => Bool.noConfusion hh),
      if_neg (by decide : ¬ ((0 : Int) < 0)),
      if_neg (by decide : ¬ ((0 : Int) = 1))]
  refine ⟨by rw [hreg, hcore], ?_⟩
  refine ⟨_, by rw [hreg, hcore], ?_, ?_, happ⟩
  · rw [(dsa_dst_complete_fields _).1]
    rfl
  · rw [(dsa_dst_complete_fields _).2.2.2 idx]
    show ((t0.ds.set idx _).getD idx none).isSome = true
    rw [getD_set_self _ idx _ none h8]
    rfl

/-- Switch node targeting tree `0` member slot `1`, with one CPU port
whose ethernet target is node `60`. -/
def c9np : switch_device_node :=
  { member := some [0, 1], ports := some [⟨some 0, ⟨50, [], some 60, none⟩⟩] }

/-- Device wrapping `c9np`. -/
def c9dev : device := { of_node := some c9np, platform_data := none }

/-- Registry state holding tree `0`, already applied, with one port-less
member in slot `0`. -/
def c9t0 : dsa_switch_tree :=
  { tree := 0, refcount := 2, applied := true, master_netdev := some 5,
    cpu_switch := some 0, cpu_port := 0, tag_ops := some 9,
    dsa_ptr_set := true, ds := [some regSwitchEmpty, none, none, none] }

/-- Witness for `c9_applied_no_unwind` on the `c9t0` registry. -/
theorem c9_applied_no_unwind_witness :
    (_dsa_register_switch deadEnv (some c9t0) regSwitch1 c9dev).2 = EINVAL ∧
    ∃ T, (_dsa_register_switch deadEnv (some c9t0) regSwitch1 c9dev).1 = some T ∧
      T.refcount = c9t0.refcount + 2 ∧
      (T.ds.getD 1 none).isSome = true ∧
      T.applied = true :=
  c9_applied_no_unwind deadEnv c9t0 regSwitch1 c9dev c9np
    [⟨some 0, ⟨50, [], some 60, none⟩⟩] 0 1
    rfl (by decide) rfl (by decide) rfl (by decide) rfl (by decide) (by decide)

/-! ## C5: order dependence of registration -/

theorem getD_replicate_none {α : Type} (n i : Nat) :
    (List.replicate n (none : Option α)).getD i none = none := by
  by_cases h : i < n
  · rw [List.getD_eq_getElem _ _ (by simpa using h), List.getElem_replicate]
  · rw [List.getD_eq_default _ _ (by simpa using Nat.le_of_not_lt h)]

theorem register_out_del_dst_snd (dst : dsa_switch_tree) (ds : dsa_switch)
    (index : Nat) (err : Int) :
    (register_out_del_dst dst ds index err).2 = err := by
  unfold register_out_del_dst
  cases hdel : dsa_dst_del_ds dst ds index with
  | none => rfl
  | some d => rfl

/-- A first registration into an empty registry whose singleton tree
resolves Incomplete without any member rewrite: the call parks the switch
and returns `0`, leaving the single tree with the member in its slot and
the member reference only. -/
theorem register_first_incomplete (env : dsa_env) (ds : dsa_switch)
    (dev : device) (np : switch_device_node) (pl : List port_device_node)
    (tr x : Nat)
    (h1 : dev.of_node = some np)
    (h2 : dsa_parse_member_dn np = ((tr, x), 0))
    (h3 : np.ports = some pl)
    (h4 : (dsa_parse_ports_dn pl ds).2 = 0)
    (hs : dsa_dst_complete (dsa_dst_add_ds (dsa_add_dst tr)
        (register_prep (dsa_parse_ports_dn pl ds).1 x dev.platform_data) x)
      = (dsa_dst_add_ds (dsa_add_dst tr)
        (register_prep (dsa_parse_ports_dn pl ds).1 x dev.platform_data) x,
        1)) :
    _dsa_register_switch env none ds dev =
      (some { dsa_dst_add_ds (dsa_add_dst tr)
          (register_prep (dsa_parse_ports_dn pl ds).1 x dev.platform_data) x
          with refcount := 1 }, 0) := by
  have hreg : _dsa_register_switch env none ds dev =
      dsa_register_core env none (dsa_parse_ports_dn pl ds).1
        dev.platform_data tr x := by
    simp only [_dsa_register_switch, h1, h2, dsa_get_ports, h3, h4, reduceIte]
    rw [if_neg (fun hh : (0 : Int) ≠ 0 => hh rfl),
      if_neg (fun hh : (0 : Int) ≠ 0 => hh rfl)]
  rw [hreg]
  have hfree : ((dsa_add_dst tr).ds.getD x none).isSome = false := by
    show (((List.replicate DSA_MAX_SWITCHES none).getD x none)).isSome = false
    rw [getD_replicate_none]
    rfl
  simp only [dsa_register_core, dsa_get_dst, hfree, dsa_register_tail, hs]
  rw [if_pos trivial]
  rfl

/-- Inserting A at slot `a` of the tree left behind by B's parked
registration equals inserting B at slot `b` of the tree left behind by
A's: the member slots commute. -/
theorem register_second_state_comm (tr a b : Nat) (A B : dsa_switch)
    (hab : a ≠ b) :
    dsa_dst_add_ds
      (kref_get { dsa_dst_add_ds (dsa_add_dst tr) A a with refcount := 1 })
      B b =
    dsa_dst_add_ds
      (kref_get { dsa_dst_add_ds (dsa_add_dst tr) B b with refcount := 1 })
      A a := by
  simp only [dsa_dst_add_ds, dsa_add_dst, kref_get]
  rw [List.set_comm _ _ _ hab]

/-- A registration into a registry holding one tree of the right id with
the target slot free reduces to `dsa_register_tail` on the
member-inserted tree. -/
theorem register_second_eq (env : dsa_env) (ds : dsa_switch) (dev : device)
    (np : switch_device_node) (pl : List port_device_node) (tr x : Nat)
    (T0 : dsa_switch_tree)
    (h1 : dev.of_node = some np)
    (h2 : dsa_parse_member_dn np = ((tr, x), 0))
    (h3 : np.ports = some pl)
    (h4 : (dsa_parse_ports_dn pl ds).2 = 0)
    (hT : T0.tree = tr)
    (hfree : (T0.ds.getD x none).isSome = false) :
    _dsa_register_switch env (some T0) ds dev =
      dsa_register_tail env
        (dsa_dst_add_ds (kref_get T0)
          (register_prep (dsa_parse_ports_dn pl ds).1 x dev.platform_data) x)
        (register_prep (dsa_parse_ports_dn pl ds).1 x dev.platform_data) x := by
  have hreg : _dsa_register_switch env (some T0) ds dev =
      dsa_register_core env (some T0) (dsa_parse_ports_dn pl ds).1
        dev.platform_data tr x := by
    simp only [_dsa_register_switch, h1, h2, dsa_get_ports, h3, h4, reduceIte]
    rw [if_neg (fun hh : (0 : Int) ≠ 0 => hh rfl),
      if_neg (fun hh : (0 : Int) ≠ 0 => hh rfl)]
  have hbusy : ((kref_get T0).ds.getD x none).isSome = false := by
    simp only [kref_get]
    exact hfree
  rw [hreg]
  simp only [dsa_register_core, dsa_get_dst, hT, reduceIte, hbusy]
  rw [if_neg (fun hh : false = true => Bool.noConfusion hh)]

/-- The result code of `dsa_register_tail` does not depend on which member
switch/slot is being registered, and when it is `0` the whole result
(registry included) does not either. -/
theorem dsa_register_tail_code (env : dsa_env) (dst1 : dsa_switch_tree)
    (ds1 ds2 : dsa_switch) (i1 i2 : Nat) :
    (dsa_register_tail env dst1 ds1 i1).2 =
      (dsa_register_tail env dst1 ds2 i2).2 ∧
    ((dsa_register_tail env dst1 ds1 i1).2 = 0 →
      dsa_register_tail env dst1 ds1 i1 = dsa_register_tail env dst1 ds2 i2) := by
  unfold dsa_register_tail
  by_cases hlt : (dsa_dst_complete dst1).2 < 0
  · rw [if_pos hlt, if_pos hlt]
    refine ⟨?_, ?_⟩
    · rw [register_out_del_dst_snd, register_out_del_dst_snd]
    · intro h0
      rw [register_out_del_dst_snd] at h0
      rw [h0] at hlt
      exact absurd hlt (by decide)
  · rw [if_neg hlt, if_neg hlt]
    by_cases hone : (dsa_dst_complete dst1).2 = 1
    · rw [if_pos hone, if_pos hone]
      exact ⟨rfl, fun _ => rfl⟩
    · rw [if_neg hone, if_neg hone]
      by_cases happ : (dsa_dst_complete dst1).1.applied = true
      · rw [if_pos happ, if_pos happ]
        refine ⟨rfl, fun h0 => ?_⟩
        have h0x : EINVAL = (0 : Int) := h0
        exact absurd h0x (by decide)
      · rw [if_neg happ, if_neg happ]
        by_cases hpz : (dsa_dst_parse env (dsa_dst_complete dst1).1).2 = 0
        · rw [if_neg (not_not_intro hpz), if_neg (not_not_intro hpz)]
          by_cases haz : (dsa_dst_apply env
              (dsa_dst_parse env (dsa_dst_complete dst1).1).1).2 = 0
          · rw [if_neg (not_not_intro haz), if_neg (not_not_intro haz)]
            exact ⟨rfl, fun _ => rfl⟩
          · rw [if_pos haz, if_pos haz]
            refine ⟨?_, ?_⟩
            · rw [register_out_del_dst_snd, register_out_del_dst_snd]
            · intro h0
              rw [register_out_del_dst_snd] at h0
              exact absurd h0 haz
        · rw [if_pos hpz, if_pos hpz]
          by_cases hd : (dsa_dst_parse env (dsa_dst_complete dst1).1).2 =
              EPROBE_DEFER
          · rw [if_pos hd, if_pos hd]
            refine ⟨rfl, fun h0 => ?_⟩
            have h0x : EPROBE_DEFER = (0 : Int) := h0
            exact absurd h0x (by decide)
          · rw [if_neg hd, if_neg hd]
            refine ⟨?_, ?_⟩
            · rw [register_out_del_dst_snd, register_out_del_dst_snd]
            · intro h0
              rw [register_out_del_dst_snd] at h0
              exact absurd h0 hpz

/-- C5 (amended): registration order is irrelevant only under extra
conditions the claim does not state.  If each of the two switches alone
resolves Incomplete without writing anything (its routing table untouched,
e.g. every valid DSA link reference points outside itself), then both
first calls park the switch with result `0`, the two second calls run
resolution on the SAME tree, return the same result code, and - when that
code is `0` - leave identical registries.  (The claim as stated, for every
acyclic topology, is refuted by `c5_counterexample`.) -/
theorem c5_order (env : dsa_env) (dsA dsB : dsa_switch) (devA devB : device)
    (npA npB : switch_device_node) (plA plB : List port_device_node)
    (tr a b : Nat)
    (hA1 : devA.of_node = some npA)
    (hA2 : dsa_parse_member_dn npA = ((tr, a), 0))
    (hA3 : npA.ports = some plA)
    (hA4 : (dsa_parse_ports_dn plA dsA).2 = 0)
    (hB1 : devB.of_node = some npB)
    (hB2 : dsa_parse_member_dn npB = ((tr, b), 0))
    (hB3 : npB.ports = some plB)
    (hB4 : (dsa_parse_ports_dn plB dsB).2 = 0)
    (hab : a ≠ b)
    (hsA : dsa_dst_complete (dsa_dst_add_ds (dsa_add_dst tr)
        (register_prep (dsa_parse_ports_dn plA dsA).1 a devA.platform_data) a)
      = (dsa_dst_add_ds (dsa_add_dst tr)
        (register_prep (dsa_parse_ports_dn plA dsA).1 a devA.platform_data) a,
        1))
    (hsB : dsa_dst_complete (dsa_dst_add_ds (dsa_add_dst tr)
        (register_prep (dsa_parse_ports_dn plB dsB).1 b devB.platform_data) b)
      = (dsa_dst_add_ds (dsa_add_dst tr)
        (register_prep (dsa_parse_ports_dn plB dsB).1 b devB.platform_data) b,
        1)) :
    (_dsa_register_switch env none dsA devA).2 = 0 ∧
    (_dsa_register_switch env none dsB devB).2 = 0 ∧
    (_dsa_register_switch env (_dsa_register_switch env none dsA devA).1
        dsB devB).2 =
      (_dsa_register_switch env (_dsa_register_switch env none dsB devB).1
        dsA devA).2 ∧
    ((_dsa_register_switch env (_dsa_register_switch env none dsA devA).1
        dsB devB).2 = 0 →
      (_dsa_register_switch env (_dsa_register_switch env none dsA devA).1
          dsB devB).1 =
        (_dsa_register_switch env (_dsa_register_switch env none dsB devB).1
          dsA devA).1) := by
  have hfA := register_first_incomplete env dsA devA npA plA tr a
    hA1 hA2 hA3 hA4 hsA
  have hfB := register_first_incomplete env dsB devB npB plB tr b
    hB1 hB2 hB3 hB4 hsB
  have hfA1 : (_dsa_register_switch env none dsA devA).1 =
      some { dsa_dst_add_ds (dsa_add_dst tr)
        (register_prep (dsa_parse_ports_dn plA dsA).1 a devA.platform_data) a
        with refcount := 1 } := by rw [hfA]
  have hfB1 : (_dsa_register_switch env none dsB devB).1 =
      some { dsa_dst_add_ds (dsa_add_dst tr)
        (register_prep (dsa_parse_ports_dn plB dsB).1 b devB.platform_data) b
        with refcount := 1 } := by rw [hfB]
  have hfreeB : (({ dsa_dst_add_ds (dsa_add_dst tr)
      (register_prep (dsa_parse_ports_dn plA dsA).1 a devA.platform_data) a
      with refcount := 1 } : dsa_switch_tree).ds.getD b none).isSome
        = false := by
    show (((List.replicate DSA_MAX_SWITCHES (none : Option dsa_switch)).set a
      (some (register_prep (dsa_parse_ports_dn plA dsA).1 a
        devA.platform_data))).getD b none).isSome = false
    rw [getD_set_ne _ _ _ hab, getD_replicate_none]
    rfl
  have hfreeA : (({ dsa_dst_add_ds (dsa_add_dst tr)
      (register_prep (dsa_parse_ports_dn plB dsB).1 b devB.platform_data) b
      with refcount := 1 } : dsa_switch_tree).ds.getD a none).isSome
        = false := by
    show (((List.replicate DSA_MAX_SWITCHES (none : Option dsa_switch)).set b
      (some (register_prep (dsa_parse_ports_dn plB dsB).1 b
        devB.platform_data))).getD a none).isSome = false
    rw [getD_set_ne _ _ _ (fun hh => hab hh.symm), getD_replicate_none]
    rfl
  have e2 : _dsa_register_switch env
      (_dsa_register_switch env none dsA devA).1 dsB devB =
      dsa_register_tail env
        (dsa_dst_add_ds
          (kref_get { dsa_dst_add_ds (dsa_add_dst tr)
            (register_prep (dsa_parse_ports_dn plA dsA).1 a
              devA.platform_data) a with refcount := 1 })
          (register_prep (dsa_parse_ports_dn plB dsB).1 b
            devB.platform_data) b)
        (register_prep (dsa_parse_ports_dn plB dsB).1 b devB.platform_data)
        b := by
    rw [hfA1]
    exact register_second_eq env dsB devB npB plB tr b _
      hB1 hB2 hB3 hB4 rfl hfreeB
  have e3 : _dsa_register_switch env
      (_dsa_register_switch env none dsB devB).1 dsA devA =
      dsa_register_tail env
        (dsa_dst_add_ds
          (kref_get { dsa_dst_add_ds (dsa_add_dst tr)
            (register_prep (dsa_parse_ports_dn plA dsA).1 a
              devA.platform_data) a with refcount := 1 })
          (register_prep (dsa_parse_ports_dn plB dsB).1 b
            devB.platform_data) b)
        (register_prep (dsa_parse_ports_dn plA dsA).1 a devA.platform_data)
        a := by
    rw [hfB1]
    have hsec := register_second_eq env dsA devA npA plA tr a _
      hA1 hA2 hA3 hA4 rfl hfreeA
    rw [hsec, ← register_second_state_comm tr a b
      (register_prep (dsa_parse_ports_dn plA dsA).1 a devA.platform_data)
      (register_prep (dsa_parse_ports_dn plB dsB).1 b devB.platform_data)
      hab]
  obtain ⟨hcode, himpl⟩ := dsa_register_tail_code env
    (dsa_dst_add_ds
      (kref_get { dsa_dst_add_ds (dsa_add_dst tr)
        (register_prep (dsa_parse_ports_dn plA dsA).1 a
          devA.platform_data) a with refcount := 1 })
      (register_prep (dsa_parse_ports_dn plB dsB).1 b devB.platform_data) b)
    (register_prep (dsa_parse_ports_dn plB dsB).1 b devB.platform_data)
    (register_prep (dsa_parse_ports_dn plA dsA).1 a devA.platform_data) b a
  refine ⟨by rw [hfA], by rw [hfB], ?_, ?_⟩
  · rw [e2, e3]
    exact hcode
  · intro h0
    rw [e2] at h0
    rw [e2, e3]
    exact congrArg Prod.fst (himpl h0)

/-- Witness inputs: switch node for member slot `0`, one DSA-link port
whose link target (node `31`) resolves in no singleton tree. -/
def c5wnpA : switch_device_node :=
  { member := some [0, 0], ports := some [⟨some 0, ⟨30, [31], none, none⟩⟩] }

/-- Device wrapping `c5wnpA`. -/
def c5wdevA : device := { of_node := some c5wnpA, platform_data := none }

/-- Witness inputs: switch node for member slot `1`, one DSA-link port
whose link target (node `41`) resolves in no singleton tree. -/
def c5wnpB : switch_device_node :=
  { member := some [0, 1], ports := some [⟨some 0, ⟨40, [41], none, none⟩⟩] }

/-- Device wrapping `c5wnpB`. -/
def c5wdevB : device := { of_node := some c5wnpB, platform_data := none }

/-- Witness for `c5_order`: with two mutually-unresolvable one-port
switches, both first registrations park with `0` and the two orders agree
on the second call's code and registry. -/
theorem c5_order_witness :
    (_dsa_register_switch deadEnv none regSwitch1 c5wdevA).2 = 0 ∧
    (_dsa_register_switch deadEnv
        (_dsa_register_switch deadEnv none regSwitch1 c5wdevA).1
        regSwitch1 c5wdevB).2 =
      (_dsa_register_switch deadEnv
        (_dsa_register_switch deadEnv none regSwitch1 c5wdevB).1
        regSwitch1 c5wdevA).2 ∧
    (_dsa_register_switch deadEnv
        (_dsa_register_switch deadEnv none regSwitch1 c5wdevA).1
        regSwitch1 c5wdevB).1 =
      (_dsa_register_switch deadEnv
        (_dsa_register_switch deadEnv none regSwitch1 c5wdevB).1
        regSwitch1 c5wdevA).1 := by
  have h := c5_order deadEnv regSwitch1 regSwitch1 c5wdevA c5wdevB
    c5wnpA c5wnpB [⟨some 0, ⟨30, [31], none, none⟩⟩]
    [⟨some 0, ⟨40, [41], none, none⟩⟩] 0 0 1
    rfl (by decide) rfl (by decide) rfl (by decide) rfl (by decide)
    (by decide) (by decide) (by decide)
  exact ⟨h.1, h.2.2.1, h.2.2.2 (by decide)⟩

/-- Counterexample switch node A: member slot `0`, one CPU port whose
ethernet target (node `90`) is dead under `deadEnv`. -/
def c5npA : switch_device_node :=
  { member := some [0, 0], ports := some [⟨some 0, ⟨30, [], some 90, none⟩⟩] }

/-- Device wrapping `c5npA`. -/
def c5devA : device := { of_node := some c5npA, platform_data := none }

/-- Counterexample switch node B: member slot `1`, one DSA-link port
pointing at A's port node `30`. -/
def c5npB : switch_device_node :=
  { member := some [0, 1], ports := some [⟨some 0, ⟨40, [30], none, none⟩⟩] }

/-- Device wrapping `c5npB`. -/
def c5devB : device := { of_node := some c5npB, platform_data := none }

/-- Counterexample to claim C5 as stated: for the acyclic link topology
B -> A (A: one CPU port with a not-yet-live master, B: one DSA port
linking to A's port), registering A then B leaves B with a fully blank
routing table (A's deferred attempt vacated its slot before B resolved),
while registering B then A leaves B's routing table with the entry for A
filled in (A was still in its slot when its deferred attempt re-resolved
the tree).  The routing tables - and the registries - differ between the
two orders. -/
theorem c5_counterexample :
    ((_dsa_register_switch deadEnv
        (_dsa_register_switch deadEnv none regSwitch1 c5devA).1
        regSwitch1 c5devB).1.map
      (fun t => t.ds.map (fun o => o.map dsa_switch.rtable)) =
      some [none, some [-1, -1, -1, -1], none, none]) ∧
    ((_dsa_register_switch deadEnv
        (_dsa_register_switch deadEnv none regSwitch1 c5devB).1
        regSwitch1 c5devA).1.map
      (fun t => t.ds.map (fun o => o.map dsa_switch.rtable)) =
      some [none, some [0, -1, -1, -1], none, none]) ∧
    (some [(-1 : Int), -1, -1, -1] ≠ some [(0 : Int), -1, -1, -1]) := by
  decide

end Dsa2
